import Mathlib

/-! Stella TIA presentation surface (`src/emucore/TIASurface.cxx`).

A shallow embedding of `TIASurface`: the filter state, the NTSC preset cycling,
the scanline intensity, the scanline mask selection, the construction of the
scanline mask surface, and the rendering of a frame (`render`,
`renderForSnapshot`).

Conventions of the embedding:

* `uInt8`, `uInt32` values are `Nat`, reduced with `% 2^w` where the C++ code
  converts or wraps; `int` values are `Int`.
* The settings store is a record of the keys the code reads and writes.
* An array access outside the array is a fault: the operation yields `none`.
* Surfaces are records of the attributes the code sets; the pointers
  `myTIA`, `myTiaSurface` and `mySLineSurface` are taken to be set.
* On-screen messages (`showTextMessage`, `showGaugeMessage`) are not part of
  the state.
* Pixel buffers are lists; a read or write outside a buffer is a fault. Drawing
  a surface is recorded by a counter.
* Code outside the excerpt that `render` calls (`PhosphorHandler::getPixel`,
  `NTSCFilter::render`) is a parameter, collected in `Collaborators`;
  `PNGLibrary::takeSnapshot` is modelled from the specification. The calls on
  the NTSC filter that edit its adjustables are parameters, collected in
  `AdjustableCalls`.

The last part embeds the search for the widget to focus of
`Widget::setFocusForChain` (`src/gui/Widget.cxx`): widgets are addresses into a
heap of the fields the function reads and writes; drawing is not part of the
state.
-/

namespace Stella

/-! ## Machine integers -/

/-- Conversion of an `int` to `uInt32`. -/
def toUInt32 (v : Int) : Nat := (v % 4294967296).toNat

/-- The cast `Int32(x)` of a `uInt32` value. -/
def toInt32 (x : Nat) : Int :=
  if x % 4294967296 < 2147483648 then ((x % 4294967296 : Nat) : Int)
  else ((x % 4294967296 : Nat) : Int) - 4294967296

/-- Wrapping `int` arithmetic result (two's complement, 32 bits). -/
def wrapInt32 (v : Int) : Int := toInt32 (toUInt32 v)

/-! ## Declarations of headers that are not part of the excerpt -/

/-- Modelled from the spec: `BSPF::clamp` of the absent `bspf.hxx`; values are
clamped to the range. -/
def BSPF.clamp (val lower upper : Int) : Int :=
  if val < lower then lower else if val > upper then upper else val

/-- Modelled from the spec: `BSPF::clampw` of the absent `bspf.hxx`; values
outside the range wrap around to the other end. -/
def BSPF.clampw (val lower upper : Int) : Int :=
  if val < lower then upper else if val > upper then lower else val

/-- Modelled from the spec: the enumerators of `TIASurface::Filter` (absent
`TIASurface.hxx`), a bit-flag-encoded mode value: bit `0x01` is phosphor, bit
`0x10` is the composite (Blargg) filter. -/
def Filter.Normal : Nat := 0x00

/-- Modelled from the spec: enumerator of `TIASurface::Filter`, see `Filter.Normal`. -/
def Filter.Phosphor : Nat := 0x01

/-- Modelled from the spec: enumerator of `TIASurface::Filter`, see `Filter.Normal`. -/
def Filter.BlarggNormal : Nat := 0x10

/-- Modelled from the spec: enumerator of `TIASurface::Filter`, see `Filter.Normal`. -/
def Filter.BlarggPhosphor : Nat := 0x11

/-- Modelled from the spec: the enumerators of `NTSCFilter::Preset` (absent
`NTSCFilter.hxx`), numbered in the order of the preset list
Off, RGB, SVideo, Composite, BadAdjust, Custom. -/
def Preset.OFF : Int := 0

/-- Modelled from the spec: enumerator of `NTSCFilter::Preset`, see `Preset.OFF`. -/
def Preset.RGB : Int := 1

/-- Modelled from the spec: enumerator of `NTSCFilter::Preset`, see `Preset.OFF`. -/
def Preset.SVIDEO : Int := 2

/-- Modelled from the spec: enumerator of `NTSCFilter::Preset`, see `Preset.OFF`. -/
def Preset.COMPOSITE : Int := 3

/-- Modelled from the spec: enumerator of `NTSCFilter::Preset`, see `Preset.OFF`. -/
def Preset.BAD : Int := 4

/-- Modelled from the spec: enumerator of `NTSCFilter::Preset`, see `Preset.OFF`. -/
def Preset.CUSTOM : Int := 5

/-- Modelled from the spec: `TIAConstants::frameBufferWidth` (absent
`TIAConstants.hxx`), the width of a TIA frame in pixels. -/
def frameBufferWidth : Nat := 160

/-- Modelled from the spec: number of enumerators of `TIASurface::ScanlineMask`
before `NumMasks` (absent `TIASurface.hxx`): Standard, Thin, Pixelated, MAME. -/
def NumMasks : Nat := 4

/-- The state of `PhosphorHandler` used by `TIASurface`: enabled flag and blend level. -/
structure PhosphorHandler where
  myUsePhosphor : Bool := false
  myPhosphorBlend : Int := 0
  deriving DecidableEq, Repr

/-- Modelled from the spec: `PhosphorHandler::initialize(enable, blend)` (absent
`PhosphorHandler.cxx`) sets the enabled flag and the level and returns whether
either changed. -/
def PhosphorHandler.initialize (p : PhosphorHandler) (enable : Bool) (blend : Int) :
    Bool × PhosphorHandler :=
  (decide (p.myUsePhosphor ≠ enable ∨ p.myPhosphorBlend ≠ blend),
   { myUsePhosphor := enable, myPhosphorBlend := blend })

/-! ## State -/

/-- The type `FBSurface::Attributes`: blending flag and blend alpha (`uInt32`). -/
structure Attributes where
  blending : Bool := false
  blendalpha : Nat := 100
  deriving DecidableEq, Repr

/-- The keys of the settings store that `TIASurface` reads and writes. -/
structure Settings where
  tvFilter : Int := 0
  tvScanlines : Int := 0
  tvScanmask : String := ""
  deriving DecidableEq, Repr

/-- The scanline mask surface: allocated size, pixel data and attributes. -/
structure SLineSurface where
  width : Nat := 1
  height : Nat := 1
  data : List Nat := []
  attr : Attributes := {}
  deriving DecidableEq, Repr

/-- The names `SETTING_STANDARD`, `SETTING_THIN`, `SETTING_PIXELS`,
`SETTING_MAME` under which the masks are stored (declared in the absent
`TIASurface.hxx`). -/
structure MaskNames where
  standard : String
  thin : String
  pixels : String
  mame : String
  deriving DecidableEq, Repr

/-- The part of a `TIASurface` object, and of its collaborators, that the
configuration and rendering operations read and write. -/
structure TIASurface where
  /-- The field `myFilter`, as its `uInt8` value. -/
  myFilter : Nat := Filter.Normal
  myPhosphorHandler : PhosphorHandler := {}
  myRGBFramebuffer : List Nat := []
  settings : Settings := {}
  mySLineSurface : SLineSurface := {}
  myScanlinesEnabled : Bool := false
  /-- Source size of `myTiaSurface`. -/
  tiaSrcW : Nat := 0
  tiaSrcH : Nat := 0
  /-- Number of `invalidate` calls on `myTiaSurface`. -/
  tiaInvalidated : Nat := 0
  /-- The value of `myTIA->height()`. -/
  tiaHeight : Nat := 0
  /-- The preset last handed to `NTSCFilter::setPreset`. -/
  ntscPreset : Int := Preset.OFF
  /-- The constant `AtariNTSC::outWidth(TIAConstants::frameBufferWidth)` of the
  absent NTSC filter. -/
  ntscOutWidth : Nat
  /-- The setting names of the four masks. -/
  maskNames : MaskNames
  myPrevRGBFramebuffer : List Nat := []
  mySaveSnapFlag : Bool := false
  /-- The palette `myPalette`, indexed by colour byte. -/
  myPalette : List Nat := []
  /-- The value of `myTIA->width()`. -/
  tiaWidth : Nat := 0
  /-- The bytes at `myTIA->frameBuffer()`. -/
  tiaFrameBuffer : List Nat := []
  /-- The pixels at the base pointer of `myTiaSurface`. -/
  tiaPixels : List Nat := []
  /-- The pitch of `myTiaSurface`, in pixels. -/
  tiaPitch : Nat := 0
  /-- Number of `render` calls on `myTiaSurface`. -/
  tiaRenders : Nat := 0
  /-- Number of `render` calls on `mySLineSurface`. -/
  sLineRenders : Nat := 0
  /-- Number of `render` calls on `myShadeSurface`. -/
  shadeRenders : Nat := 0
  /-- Number of `PNGLibrary::takeSnapshot` calls. -/
  snapshots : Nat := 0
  /-- The adjustable values of `myNTSCFilter` and its selected adjustable. -/
  ntscAdjustables : List Int := []
  /-- The pixels at the base pointer of `myBaseTiaSurface`. -/
  basePixels : List Nat := []
  deriving DecidableEq, Repr

/-- The call `myRGBFramebuffer.fill(0)`. -/
def fillZero (buf : List Nat) : List Nat := List.replicate buf.length 0

/-- The accessor `TIASurface::ntscEnabled`: `uInt8(myFilter) & 0x10`. -/
def TIASurface.ntscEnabled (s : TIASurface) : Bool := decide (s.myFilter &&& 0x10 ≠ 0)

/-- The function `TIASurface::enableNTSC`. -/
def TIASurface.enableNTSC (s : TIASurface) (enable : Bool) : TIASurface :=
  let myFilter := (if enable then s.myFilter ||| 0x10 else s.myFilter &&& 0x01) % 256
  let surfaceWidth := if enable then s.ntscOutWidth else frameBufferWidth
  let resize := decide (surfaceWidth ≠ s.tiaSrcW ∨ s.tiaHeight ≠ s.tiaSrcH)
  let myScanlinesEnabled := decide (s.settings.tvScanlines > 0)
  { s with
    myFilter := myFilter
    tiaSrcW := if resize then surfaceWidth else s.tiaSrcW
    tiaSrcH := if resize then s.tiaHeight else s.tiaSrcH
    tiaInvalidated := if resize then s.tiaInvalidated + 1 else s.tiaInvalidated
    myScanlinesEnabled := myScanlinesEnabled
    mySLineSurface := { s.mySLineSurface with
      attr := { blending := myScanlinesEnabled
                blendalpha := toUInt32 s.settings.tvScanlines } }
    myRGBFramebuffer := fillZero s.myRGBFramebuffer }

/-- The function `TIASurface::enablePhosphor`. -/
def TIASurface.enablePhosphor (s : TIASurface) (enable : Bool) (blend : Int) : TIASurface :=
  let r := PhosphorHandler.initialize s.myPhosphorHandler enable blend
  if r.1 then
    { s with
      myPhosphorHandler := r.2
      myFilter := (if enable then s.myFilter ||| 0x01 else s.myFilter &&& 0x10) % 256
      myRGBFramebuffer := fillZero s.myRGBFramebuffer }
  else
    { s with myPhosphorHandler := r.2 }

/-- The function `TIASurface::setNTSC`; `NTSCFilter::setPreset` records the preset
it is given. The on-screen message is not part of the state. -/
def TIASurface.setNTSC (s : TIASurface) (preset : Int) : TIASurface :=
  let s1 :=
    if preset = Preset.OFF then s.enableNTSC false
    else { s.enableNTSC true with ntscPreset := preset }
  { s1 with settings := { s1.settings with tvFilter := preset } }

/-- The table `PRESETS` of `TIASurface::changeNTSC`. -/
def PRESETS : List Int :=
  [Preset.OFF, Preset.RGB, Preset.SVIDEO, Preset.COMPOSITE, Preset.BAD, Preset.CUSTOM]

/-- Indexing of a C array with an `int`: a fault outside the array. -/
def indexInt {α : Type} (xs : List α) (i : Int) : Option α :=
  if 0 ≤ i then xs[i.toNat]? else none

/-- The index that `TIASurface::changeNTSC` computes from the stored preset. -/
def changeNTSCIndex (preset direction : Int) : Int :=
  if direction = 1 then
    if preset = Preset.CUSTOM then Preset.OFF else wrapInt32 (preset + 1)
  else if direction = -1 then
    if preset = Preset.OFF then Preset.CUSTOM else wrapInt32 (preset - 1)
  else preset

/-- The function `TIASurface::changeNTSC`; `none` when `PRESETS[preset]` is
outside the table. -/
def TIASurface.changeNTSC (s : TIASurface) (direction : Int) : Option TIASurface :=
  match indexInt PRESETS (changeNTSCIndex s.settings.tvFilter direction) with
  | some p => some (s.setNTSC p)
  | none => none

/-- The function `TIASurface::changeScanlineIntensity`. -/
def TIASurface.changeScanlineIntensity (s : TIASurface) (direction : Int) : TIASurface :=
  let alpha1 := (s.mySLineSurface.attr.blendalpha + toUInt32 (wrapInt32 (direction * 2))) % 4294967296
  let alpha2 := toUInt32 (BSPF.clamp (toInt32 alpha1) 0 100)
  let intensity := alpha2
  let s1 : TIASurface :=
    { s with
      mySLineSurface := { s.mySLineSurface with
        attr := { s.mySLineSurface.attr with blendalpha := alpha2 } }
      settings := { s.settings with tvScanlines := (intensity : Int) } }
  s1.enableNTSC s1.ntscEnabled

/-- The array `Masks` of `TIASurface::scanlineMaskType`. -/
def TIASurface.Masks (s : TIASurface) : List String :=
  [s.maskNames.standard, s.maskNames.thin, s.maskNames.pixels, s.maskNames.mame]

/-- The loop of `TIASurface::scanlineMaskType` over the masks not yet visited,
`i` being the loop counter. The result is the returned `ScanlineMask` as its
integer value and the state; `none` when `Masks[i]` is outside the array. -/
def TIASurface.scanlineMaskLoop (s : TIASurface) (direction : Int) :
    List String → Int → Option (Int × TIASurface)
  | [], _ => some (0, s)
  | mask :: rest, i =>
    if mask = s.settings.tvScanmask then
      if direction ≠ 0 then
        let i1 := BSPF.clampw (wrapInt32 (i + direction)) 0 ((NumMasks : Int) - 1)
        match indexInt s.Masks i1 with
        | some name => some (i1, { s with settings := { s.settings with tvScanmask := name } })
        | none => none
      else some (i, s)
    else s.scanlineMaskLoop direction rest (i + 1)

/-- The function `TIASurface::scanlineMaskType`. -/
def TIASurface.scanlineMaskType (s : TIASurface) (direction : Int) : Option (Int × TIASurface) :=
  s.scanlineMaskLoop direction s.Masks 0

/-- The struct `PatternSize` of `TIASurface::createScanlineSurface`. -/
structure PatternSize where
  width : Nat
  height : Nat
  hRepeats : Nat
  deriving DecidableEq, Repr

/-- The array `Sizes` of `TIASurface::createScanlineSurface`. -/
def Sizes : List PatternSize :=
  [⟨1, 2, 1⟩, ⟨1, 3, 1⟩, ⟨3, 3, 2⟩, ⟨3, 4, 3⟩]

/-- The array `Pattern` of `TIASurface::createScanlineSurface`. -/
def Pattern : List (List (List Nat)) :=
  [ [ [0x00000000],
      [0xff000000] ],
    [ [0x00000000],
      [0x00000000],
      [0xff000000] ],
    [ [0x08000000, 0x02000000, 0x80000000],
      [0x08000000, 0x80000000, 0x40000000],
      [0xff000000, 0xff000000, 0xff000000],
      [0x80000000, 0x04000000, 0x04000000],
      [0x04000000, 0x80000000, 0x20000000],
      [0xff000000, 0xff000000, 0xff000000] ],
    [ [0x4b000000, 0x5a000000, 0x3c000000],
      [0x00000000, 0x0f000000, 0x0f000000],
      [0x0f000000, 0x00000000, 0x1e000000],
      [0xff000000, 0xff000000, 0xff000000],
      [0x5a000000, 0x3c000000, 0x4b000000],
      [0x0f000000, 0x0f000000, 0x00000000],
      [0x00000000, 0x1e000000, 0x0f000000],
      [0xff000000, 0xff000000, 0xff000000],
      [0x3c000000, 0x4b000000, 0x5a000000],
      [0x0f000000, 0x00000000, 0x0f000000],
      [0x1e000000, 0x0f000000, 0x00000000],
      [0xff000000, 0xff000000, 0xff000000] ] ]

/-- The width of the mask surface: single width patterns need no x-repeats. -/
def surfaceWidthOf (size : PatternSize) : Nat :=
  if size.width > 1 then (frameBufferWidth * size.width) % 4294967296 else 1

/-- The height of the mask surface, `myTIA->height() * size.height` in `uInt32`. -/
def surfaceHeightOf (tiaHeight : Nat) (size : PatternSize) : Nat :=
  (tiaHeight * size.height) % 4294967296

/-- The right-hand side of the assignment to `data[i]`:
`Pattern[mask][(i / width) % (size.height * size.hRepeats)][i % size.width]`;
`none` when an index is outside its array. -/
def texel (mask : Nat) (size : PatternSize) (width i : Nat) : Option Nat :=
  match Pattern[mask]? with
  | none => none
  | some tile =>
    match tile[(i / width) % (size.height * size.hRepeats)]? with
    | none => none
    | some row => row[i % size.width]?

/-- The copy loop of `TIASurface::createScanlineSurface`, `for(i = 0; i < n; ++i)`,
as the list of the first `n` values written. -/
def fillData (f : Nat → Option Nat) : Nat → Option (List Nat)
  | 0 => some []
  | n + 1 =>
    match fillData f n with
    | none => none
    | some xs =>
      match f n with
      | none => none
      | some x => some (xs ++ [x])

/-- The function `TIASurface::createScanlineSurface`; `none` when an array is
indexed outside its bounds. -/
def TIASurface.createScanlineSurface (s : TIASurface) : Option TIASurface :=
  match s.scanlineMaskType 0 with
  | none => none
  | some (m, s1) =>
    match indexInt Sizes m with
    | none => none
    | some size =>
      let width := surfaceWidthOf size
      let height := surfaceHeightOf s1.tiaHeight size
      match fillData (texel m.toNat size width) ((width * height) % 4294967296) with
      | none => none
      | some data =>
        let s2 : TIASurface :=
          { s1 with mySLineSurface := { width := width, height := height, data := data } }
        some (s2.enableNTSC s2.ntscEnabled)

/-- The function `TIASurface::initialize`; `enable` and `p_blend` are the
phosphor values it reads from the settings or the ROM properties, `tiaHeight`
the height of the console's TIA. -/
def TIASurface.initialize (s : TIASurface) (tiaHeight : Nat) (enable : Bool) (p_blend : Int) :
    Option TIASurface :=
  let s0 : TIASurface := { s with tiaHeight := tiaHeight }
  match (s0.enablePhosphor enable p_blend).createScanlineSurface with
  | none => none
  | some s1 => some (s1.setNTSC s1.settings.tvFilter)

/-! ## Vocabulary of the specification -/

/-- The four values of `TIASurface::Filter`. -/
def Filter.legal (f : Nat) : Prop :=
  f = Filter.Normal ∨ f = Filter.Phosphor ∨ f = Filter.BlarggNormal ∨ f = Filter.BlarggPhosphor

instance (f : Nat) : Decidable (Filter.legal f) := by
  unfold Filter.legal; infer_instance

/-- The phosphor bit `0x01` of a filter value. -/
def Filter.phosphorBit (f : Nat) : Bool := decide (f &&& 0x01 ≠ 0)

/-- The composite bit `0x10` of a filter value. -/
def Filter.compositeBit (f : Nat) : Bool := decide (f &&& 0x10 ≠ 0)

/-- The transition function of the specification (section 4.4), written from its
words: state = compositeEnabled ? (phosphorEnabled ? CompositePhosphor :
CompositeNormal) : (phosphorEnabled ? Phosphor : Normal). -/
def specTransition (compositeEnabled phosphorEnabled : Bool) : Nat :=
  if compositeEnabled then
    (if phosphorEnabled then Filter.BlarggPhosphor else Filter.BlarggNormal)
  else
    (if phosphorEnabled then Filter.Phosphor else Filter.Normal)

/-- The state a constructed `TIASurface` is in: filter `Normal` (the member
initialiser), phosphor handler disabled, accumulation buffer filled with 0.
The settings are whatever the store holds. -/
def TIASurface.constructed (s : TIASurface) : Prop :=
  s.myFilter = Filter.Normal ∧ s.myPhosphorHandler.myUsePhosphor = false ∧
    s.myRGBFramebuffer = fillZero s.myRGBFramebuffer

instance (s : TIASurface) : Decidable s.constructed := by
  unfold TIASurface.constructed; infer_instance

/-- The configuration calls of the filter state machine. -/
inductive Op where
  | enableNTSC (enable : Bool)
  | enablePhosphor (enable : Bool) (blend : Int)
  | setNTSC (preset : Int)
  | changeNTSC (direction : Int)
  | changeScanlineIntensity (direction : Int)
  deriving DecidableEq, Repr

/-- One call on the pipeline; `none` when the call faults. -/
def TIASurface.step (s : TIASurface) : Op → Option TIASurface
  | .enableNTSC enable => some (s.enableNTSC enable)
  | .enablePhosphor enable blend => some (s.enablePhosphor enable blend)
  | .setNTSC preset => some (s.setNTSC preset)
  | .changeNTSC direction => s.changeNTSC direction
  | .changeScanlineIntensity direction => some (s.changeScanlineIntensity direction)

/-- A sequence of calls, each on the state the previous one left. -/
def TIASurface.run (s : TIASurface) : List Op → Option TIASurface
  | [] => some s
  | op :: ops =>
    match s.step op with
    | none => none
    | some s1 => s1.run ops

/-- A small pipeline used to evaluate the operations on a concrete state:
a TIA of height 2, a four-pixel accumulation buffer with stale contents. -/
def sample : TIASurface :=
  { myFilter := Filter.Phosphor
    myPhosphorHandler := { myUsePhosphor := true, myPhosphorBlend := 50 }
    myRGBFramebuffer := [0xff0000, 0x00ff00, 0x0000ff, 0xffffff]
    settings := { tvFilter := 0, tvScanlines := 0, tvScanmask := "standard" }
    tiaHeight := 2
    ntscOutWidth := 560
    maskNames := ⟨"standard", "thin", "pixel", "mame"⟩ }

/-- A freshly constructed pipeline with the settings of `sample`. -/
def fresh : TIASurface :=
  { sample with
    myFilter := Filter.Normal
    myPhosphorHandler := {}
    myRGBFramebuffer := [0, 0, 0, 0] }

/-! ## Definitions used in the statements -/

/-- The invariant of the filter state machine: the filter is one of the four
values and its phosphor bit agrees with the handler's enabled flag. -/
def TIASurface.consistent (s : TIASurface) : Prop :=
  Filter.legal s.myFilter ∧
    (Filter.phosphorBit s.myFilter = true ↔ s.myPhosphorHandler.myUsePhosphor = true)

/-- The calls used in the witness of C2. -/
def sampleOps : List Op :=
  [.changeNTSC 1, .enablePhosphor true 30, .changeScanlineIntensity 5, .setNTSC Preset.OFF,
   .enableNTSC true]

/-- The entry `Pattern[mask][row][col]` when the indices are inside the table. -/
def patternAt (mask row col : Nat) : Nat :=
  ((Pattern.getD mask []).getD row []).getD col 0

/-- The pixel data of the mask surface of mask `m` with the given size for a TIA
of the given height: entry `i` is
`Pattern[m][(i / width) % (size.height * size.hRepeats)][i % size.width]`. -/
def maskData (m : Nat) (size : PatternSize) (tiaHeight : Nat) : List Nat :=
  (List.range ((surfaceWidthOf size * surfaceHeightOf tiaHeight size) % 4294967296)).map
    (fun i => patternAt m ((i / surfaceWidthOf size) % (size.height * size.hRepeats))
      (i % size.width))

/-- A pipeline whose settings store holds `tv.filter = 7`, a value outside the
preset list. -/
def staleSample : TIASurface :=
  { fresh with settings := { tvFilter := 7, tvScanlines := 0, tvScanmask := "standard" } }

/-- The state after `settings.setValue("tv.scanmask", name)`. -/
def TIASurface.storeMask (s : TIASurface) (name : String) : TIASurface :=
  { s with settings := { s.settings with tvScanmask := name } }

/-- The result of `scanlineMaskType` when the stored name is matched at loop
counter `i`. -/
def TIASurface.maskHit (s : TIASurface) (direction i : Int) : Option (Int × TIASurface) :=
  if direction ≠ 0 then
    match indexInt s.Masks (BSPF.clampw (wrapInt32 (i + direction)) 0 ((NumMasks : Int) - 1)) with
    | some name => some (BSPF.clampw (wrapInt32 (i + direction)) 0 ((NumMasks : Int) - 1),
        s.storeMask name)
    | none => none
  else some (i, s)

/-- The table access `Pattern[mask][row][col]`; `none` when an index is outside
its array. -/
def patternLookup (mask row col : Nat) : Option Nat :=
  match Pattern[mask]? with
  | none => none
  | some tile =>
    match tile[row]? with
    | none => none
    | some r => r[col]?

/-! ## Rendering -/

/-- Code outside the excerpt that `TIASurface::render` calls, and the build
configuration. -/
structure Collaborators where
  /-- The function `PhosphorHandler::getPixel(c, p)`. -/
  getPixel : Nat → Nat → Nat
  /-- The call `myNTSCFilter.render(tiaIn, width, height, out, pitch)` without
  blend buffer: the pixels it leaves at `out`. -/
  ntscRender : List Nat → Nat → Nat → List Nat → Nat → List Nat
  /-- The call `myNTSCFilter.render(tiaIn, width, height, out, pitch, rgb)` with
  blend buffer: the pixels it leaves at `out` and the blend buffer it leaves. -/
  ntscRenderBlend : List Nat → Nat → Nat → List Nat → Nat → List Nat → List Nat × List Nat
  /-- Whether `PNG_SUPPORT` is defined. -/
  pngSupport : Bool

/-- The assignment `buf[i] = v`; a fault outside the buffer. -/
def store (buf : List Nat) (i v : Nat) : Option (List Nat) :=
  if i < buf.length then some (buf.set i v) else none

/-- The call `std::copy_n(src.begin(), n, dst.begin())`; a fault when either
buffer has fewer than `n` entries. -/
def copy_n (src : List Nat) (n : Nat) (dst : List Nat) : Option (List Nat) :=
  if n ≤ src.length ∧ n ≤ dst.length then some (src.take n ++ dst.drop n) else none

/-- The statement `out[pos++] = myPalette[tiaIn[bufofs++]]` of filter `Normal`,
at given `bufofs` and `pos`. -/
def normalPixel (palette tiaIn : List Nat) (bufofs pos : Nat) (out : List Nat) :
    Option (List Nat) :=
  match tiaIn[bufofs]? with
  | none => none
  | some b =>
    match palette[b]? with
    | none => none
    | some c => store out pos c

/-- The statement
`rgbIn[bufofs] = out[pos++] = PhosphorHandler::getPixel(myPalette[tiaIn[bufofs]], rgbIn[bufofs])`
of filter `Phosphor`, on the pair (pixels at `out`, accumulation buffer). -/
def phosphorPixel (getPixel : Nat → Nat → Nat) (palette tiaIn : List Nat) (bufofs pos : Nat)
    (st : List Nat × List Nat) : Option (List Nat × List Nat) :=
  match tiaIn[bufofs]? with
  | none => none
  | some b =>
    match palette[b]? with
    | none => none
    | some c =>
      match st.2[bufofs]? with
      | none => none
      | some p =>
        match store st.1 pos (getPixel c p) with
        | none => none
        | some out1 =>
          match store st.2 bufofs (getPixel c p) with
          | none => none
          | some rgb1 => some (out1, rgb1)

/-- The function `TIASurface::averageBuffers`. -/
def averageBuffers (rgb prev : List Nat) (bufOfs : Nat) : Option Nat :=
  match rgb[bufOfs]? with
  | none => none
  | some c =>
    match prev[bufOfs]? with
    | none => none
    | some p =>
      let rc := (c >>> 16) % 256
      let gc := (c >>> 8) % 256
      let bc := c % 256
      let rp := (p >>> 16) % 256
      let gp := (p >>> 8) % 256
      let bp := p % 256
      let rn := ((rc + rp) / 2) % 256
      let gn := ((gc + gp) / 2) % 256
      let bn := ((bc + bp) / 2) % 256
      some ((rn <<< 16) ||| (gn <<< 8) ||| bn)

/-- The statement `outPtr[pos++] = averageBuffers(bufofs++)` of
`renderForSnapshot`. -/
def averagePixel (rgb prev : List Nat) (bufofs pos : Nat) (out : List Nat) :
    Option (List Nat) :=
  match averageBuffers rgb prev bufofs with
  | none => none
  | some v => store out pos v

/-- The inner loop `for(uInt32 x = width / 2; x; --x) { A; A }` of the filters
without NTSC: two pixel statements `act` per round, `bufofs` and `pos` advancing
by one after each. The result carries the final `bufofs`. -/
def scanRow {σ : Type} (act : Nat → Nat → σ → Option σ) :
    Nat → Nat → Nat → σ → Option (σ × Nat)
  | 0, bufofs, _, st => some (st, bufofs)
  | x + 1, bufofs, pos, st =>
    match act bufofs pos st with
    | none => none
    | some st1 =>
      match act (bufofs + 1) (pos + 1) st1 with
      | none => none
      | some st2 => scanRow act x (bufofs + 2) (pos + 2) st2

/-- The row loop of the filters without NTSC, run for `y` rows:
`{ pos = screenofsY; inner loop; screenofsY += outPitch; }`. The loops count
`y` up (filter `Normal`) or down (`Phosphor`, `renderForSnapshot`); the body
does not read `y`. -/
def scanRows {σ : Type} (act : Nat → Nat → σ → Option σ) (width outPitch : Nat) :
    Nat → Nat → Nat → σ → Option σ
  | 0, _, _, st => some st
  | y + 1, bufofs, screenofsY, st =>
    match scanRow act (width / 2) bufofs screenofsY st with
    | none => none
    | some (st1, bufofs1) => scanRows act width outPitch y bufofs1 (screenofsY + outPitch) st1

/-- The inner loop `for(uInt32 x = outPitch; x; --x) outPtr[pos++] = averageBuffers(bufofs++)`
of `renderForSnapshot` in filter `BlarggPhosphor`. -/
def runPixels {σ : Type} (act : Nat → Nat → σ → Option σ) :
    Nat → Nat → Nat → σ → Option (σ × Nat × Nat)
  | 0, bufofs, pos, st => some (st, bufofs, pos)
  | x + 1, bufofs, pos, st =>
    match act bufofs pos st with
    | none => none
    | some st1 => runPixels act x (bufofs + 1) (pos + 1) st1

/-- The row loop `for(uInt32 y = height; y; --y)` around `runPixels`. -/
def runLines {σ : Type} (act : Nat → Nat → σ → Option σ) (outPitch : Nat) :
    Nat → Nat → Nat → σ → Option σ
  | 0, _, _, st => some st
  | y + 1, bufofs, pos, st =>
    match runPixels act outPitch bufofs pos st with
    | none => none
    | some (st1, bufofs1, pos1) => runLines act outPitch y bufofs1 pos1 st1

/-- The `switch(myFilter)` of `TIASurface::render`: the pixel production. A
filter value that is none of the four cases produces nothing. -/
def TIASurface.producePixels (c : Collaborators) (s : TIASurface) : Option TIASurface :=
  if s.myFilter = Filter.Normal then
    match scanRows (normalPixel s.myPalette s.tiaFrameBuffer) s.tiaWidth s.tiaPitch
        s.tiaHeight 0 0 s.tiaPixels with
    | none => none
    | some out => some { s with tiaPixels := out }
  else if s.myFilter = Filter.Phosphor then
    match (if s.mySaveSnapFlag then
        copy_n s.myRGBFramebuffer ((s.tiaWidth * s.tiaHeight) % 4294967296)
          s.myPrevRGBFramebuffer
      else some s.myPrevRGBFramebuffer) with
    | none => none
    | some prev =>
      match scanRows (phosphorPixel c.getPixel s.myPalette s.tiaFrameBuffer) s.tiaWidth
          s.tiaPitch s.tiaHeight 0 0 (s.tiaPixels, s.myRGBFramebuffer) with
      | none => none
      | some (out, rgb) =>
        some { s with tiaPixels := out, myRGBFramebuffer := rgb, myPrevRGBFramebuffer := prev }
  else if s.myFilter = Filter.BlarggNormal then
    some { s with
      tiaPixels := c.ntscRender s.tiaFrameBuffer s.tiaWidth s.tiaHeight s.tiaPixels
        ((s.tiaPitch <<< 2) % 4294967296) }
  else if s.myFilter = Filter.BlarggPhosphor then
    match (if s.mySaveSnapFlag then
        copy_n s.myRGBFramebuffer ((s.tiaHeight * s.tiaPitch) % 4294967296)
          s.myPrevRGBFramebuffer
      else some s.myPrevRGBFramebuffer) with
    | none => none
    | some prev =>
      some { s with
        tiaPixels := (c.ntscRenderBlend s.tiaFrameBuffer s.tiaWidth s.tiaHeight s.tiaPixels
          ((s.tiaPitch <<< 2) % 4294967296) s.myRGBFramebuffer).1
        myRGBFramebuffer := (c.ntscRenderBlend s.tiaFrameBuffer s.tiaWidth s.tiaHeight
          s.tiaPixels ((s.tiaPitch <<< 2) % 4294967296) s.myRGBFramebuffer).2
        myPrevRGBFramebuffer := prev }
  else some s

/-- The drawing calls of `TIASurface::render` after the pixel production: the
TIA image, the overlaying scanlines if enabled, the shade surface if asked. -/
def TIASurface.drawSurfaces (s : TIASurface) (shade : Bool) : TIASurface :=
  { s with
    tiaRenders := s.tiaRenders + 1
    sLineRenders := if s.myScanlinesEnabled then s.sLineRenders + 1 else s.sLineRenders
    shadeRenders := if shade then s.shadeRenders + 1 else s.shadeRenders }

/-- The function `TIASurface::render` up to its last statement, the
`if(mySaveSnapFlag)` block: pixel production and drawing. -/
def TIASurface.renderFrame (c : Collaborators) (s : TIASurface) (shade : Bool) :
    Option TIASurface :=
  match s.producePixels c with
  | none => none
  | some s1 => some (s1.drawSurfaces shade)

/-- The `switch(myFilter)` of `TIASurface::renderForSnapshot`. Its call
`render()` for the filters without phosphor is made with `mySaveSnapFlag`
already false and with the default argument `shade = false`, so it ends before
`takeSnapshot` and is `renderFrame`. -/
def TIASurface.snapshotPixels (c : Collaborators) (s : TIASurface) : Option TIASurface :=
  if s.myFilter = Filter.Normal ∨ s.myFilter = Filter.BlarggNormal then
    s.renderFrame c false
  else if s.myFilter = Filter.Phosphor then
    match scanRows (averagePixel s.myRGBFramebuffer s.myPrevRGBFramebuffer) s.tiaWidth
        s.tiaPitch s.tiaHeight 0 0 s.tiaPixels with
    | none => none
    | some out => some { s with tiaPixels := out }
  else if s.myFilter = Filter.BlarggPhosphor then
    match runLines (averagePixel s.myRGBFramebuffer s.myPrevRGBFramebuffer) s.tiaPitch
        s.tiaHeight 0 0 s.tiaPixels with
    | none => none
    | some out => some { s with tiaPixels := out }
  else some s

/-- The last statement of `TIASurface::renderForSnapshot`: with the phosphor
handler enabled (`phosphorEnabled()` returns its flag) the TIA image is drawn,
and the overlaying scanlines if they are enabled. -/
def TIASurface.snapshotDraw (s : TIASurface) : TIASurface :=
  if s.myPhosphorHandler.myUsePhosphor then
    { s with
      tiaRenders := s.tiaRenders + 1
      sLineRenders := if s.myScanlinesEnabled then s.sLineRenders + 1 else s.sLineRenders }
  else s

/-- The function `TIASurface::renderForSnapshot`: it clears `mySaveSnapFlag`,
runs the switch and the final drawing. -/
def TIASurface.renderForSnapshot (c : Collaborators) (s : TIASurface) : Option TIASurface :=
  match TIASurface.snapshotPixels c { s with mySaveSnapFlag := false } with
  | none => none
  | some s1 => some s1.snapshotDraw

/-- Modelled from the spec: `PNGLibrary::takeSnapshot` (absent `PNGLibrary.cxx`)
saves a still of the frame: it invokes the separate snapshot-rendering path
`renderForSnapshot`. The call is counted. -/
def TIASurface.takeSnapshot (c : Collaborators) (s : TIASurface) : Option TIASurface :=
  TIASurface.renderForSnapshot c { s with snapshots := s.snapshots + 1 }

/-- The function `TIASurface::render`. -/
def TIASurface.render (c : Collaborators) (s : TIASurface) (shade : Bool) : Option TIASurface :=
  match s.renderFrame c shade with
  | none => none
  | some s1 =>
    if s1.mySaveSnapFlag then
      if c.pngSupport then TIASurface.takeSnapshot c { s1 with mySaveSnapFlag := false }
      else some { s1 with mySaveSnapFlag := false }
    else some s1

/-! ## Definitions used in the statements about rendering -/

/-- A sequence of pixel statements `act`, one for each pair `(bufofs, pos)` of
the list, in order. -/
def iterPixels {σ : Type} (act : Nat → Nat → σ → Option σ) : List (Nat × Nat) → σ → Option σ
  | [], st => some st
  | bp :: rest, st =>
    match act bp.1 bp.2 st with
    | none => none
    | some st1 => iterPixels act rest st1

/-- The pairs `(bufofs, pos)` at which the inner loop `scanRow` runs its pixel
statement, in order. -/
def rowVisits : Nat → Nat → Nat → List (Nat × Nat)
  | 0, _, _ => []
  | x + 1, bufofs, pos => (bufofs, pos) :: (bufofs + 1, pos + 1) :: rowVisits x (bufofs + 2) (pos + 2)

/-- The pairs `(bufofs, pos)` at which `scanRows` runs its pixel statement, in
order, with `n` rounds of the inner loop per row. -/
def visits (n outPitch : Nat) : Nat → Nat → Nat → List (Nat × Nat)
  | 0, _, _ => []
  | y + 1, bufofs, screenofsY =>
    rowVisits n bufofs screenofsY ++ visits n outPitch y (bufofs + 2 * n) (screenofsY + outPitch)

/-- The red channel of a pixel, `static_cast<uInt8>(c >> 16)`. -/
def chanR (c : Nat) : Nat := (c >>> 16) % 256

/-- The green channel of a pixel, `static_cast<uInt8>(c >> 8)`. -/
def chanG (c : Nat) : Nat := (c >>> 8) % 256

/-- The blue channel of a pixel, `static_cast<uInt8>(c)`. -/
def chanB (c : Nat) : Nat := c % 256

/-- The colour looked up for the frame byte at `bufofs`: `myPalette[tiaIn[bufofs]]`. -/
def colourAt (palette tiaIn : List Nat) (bufofs : Nat) : Option Nat :=
  match tiaIn[bufofs]? with
  | none => none
  | some b => palette[b]?

/-- The order of the pairs `(bufofs, pos)` in which a loop visits them: both
components increase. -/
def visitLt (a b : Nat × Nat) : Prop := a.1 < b.1 ∧ a.2 < b.2

/-- The buffers can hold a frame: the TIA width is even and at most the pitch of
the TIA surface, the frame buffer has `width * height` bytes, each of them a
palette index, and the TIA surface has `height * pitch` pixels. -/
def TIASurface.frameFits (s : TIASurface) : Prop :=
  s.tiaWidth % 2 = 0 ∧ s.tiaWidth ≤ s.tiaPitch ∧
    s.tiaWidth * s.tiaHeight ≤ s.tiaFrameBuffer.length ∧
    (∀ b ∈ s.tiaFrameBuffer, b < s.myPalette.length) ∧
    s.tiaHeight * s.tiaPitch ≤ s.tiaPixels.length

instance (s : TIASurface) : Decidable s.frameFits := by
  unfold TIASurface.frameFits; infer_instance

/-- Collaborators used to evaluate `render` on concrete states: `getPixel`
returns the new colour, the NTSC filter leaves the buffers as they are. -/
def plainCollaborators : Collaborators :=
  { getPixel := fun c _ => c
    ntscRender := fun _ _ _ out _ => out
    ntscRenderBlend := fun _ _ _ out _ rgb => (out, rgb)
    pngSupport := true }

/-- The scenario of the specification: a frame of 2 x 1 pixels `[0, 1]` with the
palette `0 -> 0xFF0000, 1 -> 0x00FF00`, filter `Normal`. -/
def twoByOne : TIASurface :=
  { fresh with
    myFilter := Filter.Normal
    myPalette := [0xFF0000, 0x00FF00]
    tiaWidth := 2
    tiaHeight := 1
    tiaFrameBuffer := [0, 1]
    tiaPixels := [0, 0]
    tiaPitch := 2 }

/-- The previous buffer after the copy that `render` makes in the phosphor
filters when a snapshot is pending: the first `n` entries of the accumulation
buffer over the previous buffer. -/
def TIASurface.prevAfterCopy (s : TIASurface) (n : Nat) : List Nat :=
  if s.mySaveSnapFlag then s.myRGBFramebuffer.take n ++ s.myPrevRGBFramebuffer.drop n
  else s.myPrevRGBFramebuffer

/-- The value that `averageBuffers` returns for the current pixel `c` and the
previous pixel `p`. -/
def averageOf (c p : Nat) : Nat :=
  ((((chanR c + chanR p) / 2) % 256) <<< 16) ||| ((((chanG c + chanG p) / 2) % 256) <<< 8) |||
    (((chanB c + chanB p) / 2) % 256)

/-- The pairs `(bufofs, pos)` at which the inner loop `runPixels` runs its pixel
statement, in order. -/
def runVisits : Nat → Nat → Nat → List (Nat × Nat)
  | 0, _, _ => []
  | x + 1, bufofs, pos => (bufofs, pos) :: runVisits x (bufofs + 1) (pos + 1)

/-- The pairs `(bufofs, pos)` at which `runLines` runs its pixel statement, in
order. -/
def lineVisits (outPitch : Nat) : Nat → Nat → Nat → List (Nat × Nat)
  | 0, _, _ => []
  | y + 1, bufofs, pos =>
    runVisits outPitch bufofs pos ++ lineVisits outPitch y (bufofs + outPitch) (pos + outPitch)

/-- The pixel `v` is the 50:50 per-channel mean of the pixels `cur` and `prv`:
each of its R, G and B channels is the mean of theirs, rounded down, and its
top byte is 0. -/
def isChannelMean (cur prv v : Nat) : Prop :=
  chanR v = (chanR cur + chanR prv) / 2 ∧ chanG v = (chanG cur + chanG prv) / 2 ∧
    chanB v = (chanB cur + chanB prv) / 2 ∧ v >>> 24 = 0

/-- The state on which `renderForSnapshot` runs its switch when `render` has
found a snapshot pending: the flag cleared and the `takeSnapshot` call counted. -/
def TIASurface.forSnapshot (s : TIASurface) : TIASurface :=
  { s with mySaveSnapFlag := false, snapshots := s.snapshots + 1 }

/-- A frame of 2 x 1 pixels in filter `Phosphor` with stale accumulation and
previous buffers. -/
def phosphorSample : TIASurface :=
  { twoByOne with
    myFilter := Filter.Phosphor
    myPhosphorHandler := { myUsePhosphor := true, myPhosphorBlend := 100 }
    myRGBFramebuffer := [0xFFFFFF, 0x102030, 0x55]
    myPrevRGBFramebuffer := [7, 7, 7] }

/-- A frame of 1 line with pitch 2 in filter `BlarggPhosphor` with stale
accumulation and previous buffers. -/
def blarggSample : TIASurface :=
  { phosphorSample with myFilter := Filter.BlarggPhosphor }

/-- The previous buffer after the pixel production of `render`: the copy is made
in the filters `Phosphor` (`width * height` entries) and `BlarggPhosphor`
(`height * outPitch` entries), the products taken in `uInt32`. -/
def TIASurface.prevAfterProduce (s : TIASurface) : List Nat :=
  if s.myFilter = Filter.Phosphor then
    s.prevAfterCopy ((s.tiaWidth * s.tiaHeight) % 4294967296)
  else if s.myFilter = Filter.BlarggPhosphor then
    s.prevAfterCopy ((s.tiaHeight * s.tiaPitch) % 4294967296)
  else s.myPrevRGBFramebuffer

/-- The number of entries that `render` copies to the previous buffer when a
snapshot is pending in the filter of `s`. -/
def TIASurface.copyCount (s : TIASurface) : Nat :=
  if s.myFilter = Filter.Phosphor then (s.tiaWidth * s.tiaHeight) % 4294967296
  else if s.myFilter = Filter.BlarggPhosphor then (s.tiaHeight * s.tiaPitch) % 4294967296
  else 0

/-- The 2 x 1 scenario in filter `Normal` with scanlines enabled. -/
def scanlineSample : TIASurface :=
  { twoByOne with myScanlinesEnabled := true }

/-- The sample `phosphorSample` with a snapshot pending. -/
def pendingPhosphorSample : TIASurface :=
  { phosphorSample with mySaveSnapFlag := true }

/-- The 2 x 1 scenario with a snapshot pending. -/
def pendingTwoByOne : TIASurface :=
  { twoByOne with mySaveSnapFlag := true }

/-! ## Successive frames -/

/-- Modelled from the spec: a channel of the value of `PhosphorHandler::getPixel`
(absent `PhosphorHandler`) at blend level `level`: the greater of the new
channel and the previous channel scaled down by `(100 - level)` percent. -/
def blendChannel (level new prev : Nat) : Nat := max new (prev * level / 100)

/-- Modelled from the spec: `PhosphorHandler::getPixel(c, p)` at blend level
`level`, the three channels blended by `blendChannel`. -/
def specGetPixel (level c p : Nat) : Nat :=
  blendChannel level (chanR c) (chanR p) * 65536 + blendChannel level (chanG c) (chanG p) * 256 +
    blendChannel level (chanB c) (chanB p)

/-- What happens between two calls of `render`: the TIA delivers a frame, and a
snapshot may be requested; `shade` is the argument of the call. -/
structure FrameStep where
  frame : List Nat
  shade : Bool
  snapshot : Bool
  deriving DecidableEq, Repr

/-- The state on which `render` is called for the step. -/
def TIASurface.nextFrame (s : TIASurface) (st : FrameStep) : TIASurface :=
  { s with tiaFrameBuffer := st.frame, mySaveSnapFlag := s.mySaveSnapFlag || st.snapshot }

/-- Successive calls of `render`, one for each step. -/
def TIASurface.renderSteps (c : Collaborators) (s : TIASurface) : List FrameStep → Option TIASurface
  | [] => some s
  | st :: rest =>
    match TIASurface.render c (s.nextFrame st) st.shade with
    | none => none
    | some s1 => s1.renderSteps c rest

/-- The pipeline is in filter `Phosphor` with an even width at most the pitch and
buffers that hold a frame: `height * pitch` pixels, `width * height` entries of
the accumulation and the previous buffer. -/
def TIASurface.phosphorReady (s : TIASurface) : Prop :=
  s.myFilter = Filter.Phosphor ∧ s.tiaWidth % 2 = 0 ∧ s.tiaWidth ≤ s.tiaPitch ∧
    s.tiaHeight * s.tiaPitch ≤ s.tiaPixels.length ∧
    s.tiaWidth * s.tiaHeight ≤ s.myRGBFramebuffer.length ∧
    s.tiaWidth * s.tiaHeight ≤ s.myPrevRGBFramebuffer.length ∧
    s.tiaWidth * s.tiaHeight < 4294967296

instance (s : TIASurface) : Decidable s.phosphorReady := by
  unfold TIASurface.phosphorReady; infer_instance

/-- The frame has `width * height` bytes, each of them a palette index. -/
def TIASurface.frameOk (s : TIASurface) (frame : List Nat) : Prop :=
  s.tiaWidth * s.tiaHeight ≤ frame.length ∧ ∀ b ∈ frame, b < s.myPalette.length

instance (s : TIASurface) (frame : List Nat) : Decidable (s.frameOk frame) := by
  unfold TIASurface.frameOk; infer_instance

/-- No channel of the pixel `a` is greater than that channel of the pixel `b`. -/
def chanLe (a b : Nat) : Prop := chanR a ≤ chanR b ∧ chanG a ≤ chanG b ∧ chanB a ≤ chanB b

/-- Collaborators with `getPixel` at blend level 100. -/
def fullPersistence : Collaborators :=
  { plainCollaborators with getPixel := specGetPixel 100 }

/-- A pipeline in filter `Phosphor` for frames of 2 x 1 pixels with the palette
`0 -> 0x000000, 1 -> 0xFFFFFF`. -/
def persistenceSample : TIASurface :=
  { phosphorSample with myPalette := [0x000000, 0xFFFFFF], myRGBFramebuffer := [0x102030, 0, 0] }

/-! ## Editing the adjustables of the NTSC filter -/

/-- The calls on `myNTSCFilter` (absent `NTSCFilter`) that the adjustable
operations of `TIASurface` make, as functions on the adjustable state of the
filter, and `NTSCFilter::saveConfig` as a function on the settings store. -/
structure AdjustableCalls where
  /-- The call `selectAdjustable(direction, ...)`. -/
  selectAdjustable : Int → List Int → List Int
  /-- The call `changeAdjustable(adjustable, direction, ...)`. -/
  changeAdjustable : Int → Int → List Int → List Int
  /-- The call `changeCurrentAdjustable(direction, ...)`. -/
  changeCurrentAdjustable : Int → List Int → List Int
  /-- The call `saveConfig(settings)`. -/
  saveConfig : List Int → Settings → Settings

/-- The function `TIASurface::setNTSCAdjustable`. The gauge message is not part
of the state. -/
def TIASurface.setNTSCAdjustable (n : AdjustableCalls) (s : TIASurface) (direction : Int) :
    TIASurface :=
  let s1 := s.setNTSC Preset.CUSTOM
  { s1 with ntscAdjustables := n.selectAdjustable direction s1.ntscAdjustables }

/-- The function `TIASurface::changeNTSCAdjustable`. -/
def TIASurface.changeNTSCAdjustable (n : AdjustableCalls) (s : TIASurface)
    (adjustable direction : Int) : TIASurface :=
  let s1 := s.setNTSC Preset.CUSTOM
  let s2 : TIASurface :=
    { s1 with ntscAdjustables := n.changeAdjustable adjustable direction s1.ntscAdjustables }
  { s2 with settings := n.saveConfig s2.ntscAdjustables s2.settings }

/-- The function `TIASurface::changeCurrentNTSCAdjustable`. -/
def TIASurface.changeCurrentNTSCAdjustable (n : AdjustableCalls) (s : TIASurface)
    (direction : Int) : TIASurface :=
  let s1 := s.setNTSC Preset.CUSTOM
  let s2 : TIASurface :=
    { s1 with ntscAdjustables := n.changeCurrentAdjustable direction s1.ntscAdjustables }
  { s2 with settings := n.saveConfig s2.ntscAdjustables s2.settings }

/-- Adjustable calls used to evaluate the operations on concrete states: the
first entry of the state is the selected adjustable, `saveConfig` writes keys
other than the three of `Settings`. -/
def plainAdjustables : AdjustableCalls :=
  { selectAdjustable := fun direction st => (st.headD 0 + direction) :: st.tail
    changeAdjustable := fun adjustable direction st =>
      st.set adjustable.toNat (st.getD adjustable.toNat 0 + direction)
    changeCurrentAdjustable := fun direction st =>
      st.set (st.headD 0).toNat (st.getD (st.headD 0).toNat 0 + direction)
    saveConfig := fun _ settings => settings }

/-- A pipeline with the preset RGB selected and three adjustable entries. -/
def rgbSample : TIASurface :=
  (({ fresh with ntscAdjustables := [1, 50, 60] } : TIASurface).setNTSC Preset.RGB)

/-! ## The base surface -/

/-- Modelled from the spec: the type `Common::Rect` (absent `Rect.hxx`), as the
four bounds that `setBounds(x1, y1, x2, y2)` is given. -/
structure Rect where
  x1 : Nat
  y1 : Nat
  x2 : Nat
  y2 : Nat
  deriving DecidableEq, Repr

/-- The statement `*buf_ptr++ = myPalette[*(myTIA->frameBuffer() + y * tiaw + x / 2)]`
of `TIASurface::baseSurface`, with `buf_ptr` at offset `ptr` of the base
surface; the product `y * tiaw` is taken in `uInt32`. -/
def basePixel (palette tiaIn : List Nat) (tiaw y x ptr : Nat) (buf : List Nat) :
    Option (List Nat) :=
  match tiaIn[(y * tiaw) % 4294967296 + x / 2]? with
  | none => none
  | some b =>
    match palette[b]? with
    | none => none
    | some c => store buf ptr c

/-- The inner loop `for(uInt32 x = 0; x < width; ++x)` of `baseSurface` from
column `x` on, with `n = width - x` rounds to go. The result carries the final
`buf_ptr`. -/
def baseRow (palette tiaIn : List Nat) (tiaw y : Nat) :
    Nat → Nat → Nat → List Nat → Option (List Nat × Nat)
  | 0, _, ptr, buf => some (buf, ptr)
  | n + 1, x, ptr, buf =>
    match basePixel palette tiaIn tiaw y x ptr buf with
    | none => none
    | some buf1 => baseRow palette tiaIn tiaw y n (x + 1) (ptr + 1) buf1

/-- The outer loop `for(uInt32 y = 0; y < height; ++y)` of `baseSurface` from
row `y` on, with `n = height - y` rounds to go. -/
def baseRows (palette tiaIn : List Nat) (tiaw width : Nat) :
    Nat → Nat → Nat → List Nat → Option (List Nat)
  | 0, _, _, buf => some buf
  | n + 1, y, ptr, buf =>
    match baseRow palette tiaIn tiaw y width 0 ptr buf with
    | none => none
    | some (buf1, ptr1) => baseRows palette tiaIn tiaw width n (y + 1) ptr1 buf1

/-- The function `TIASurface::baseSurface`: the rectangle it sets and the state
with the base surface filled; `none` when a buffer is accessed outside its
bounds. -/
def TIASurface.baseSurface (s : TIASurface) : Option (Rect × TIASurface) :=
  let tiaw := s.tiaWidth
  let width := (tiaw * 2) % 4294967296
  let height := s.tiaHeight
  match baseRows s.myPalette s.tiaFrameBuffer tiaw width height 0 0 s.basePixels with
  | none => none
  | some buf => some (⟨0, 0, width, height⟩, { s with basePixels := buf })

/-- The buffers can hold the base image: twice the width times the height fits
32 bits, the frame buffer has `width * height` bytes, each of them a palette
index, and the base surface has `2 * width * height` pixels. -/
def TIASurface.baseFits (s : TIASurface) : Prop :=
  2 * s.tiaWidth < 4294967296 ∧ 2 * s.tiaWidth * s.tiaHeight < 4294967296 ∧
    s.tiaWidth * s.tiaHeight ≤ s.tiaFrameBuffer.length ∧
    (∀ b ∈ s.tiaFrameBuffer, b < s.myPalette.length) ∧
    2 * s.tiaWidth * s.tiaHeight ≤ s.basePixels.length

instance (s : TIASurface) : Decidable s.baseFits := by
  unfold TIASurface.baseFits; infer_instance

/-- The 2 x 1 scenario with a base surface of four pixels. -/
def baseSample : TIASurface :=
  { twoByOne with basePixels := [0, 0, 0, 0] }

/-! ## Definitions used in the statements about filter `Normal` -/

/-- The buffers can hold a frame of any width: the TIA width is at most the
pitch of the TIA surface, the frame buffer has `width * height` bytes, each of
them a palette index, and the TIA surface has `height * pitch` pixels. -/
def TIASurface.frameHolds (s : TIASurface) : Prop :=
  s.tiaWidth ≤ s.tiaPitch ∧
    s.tiaWidth * s.tiaHeight ≤ s.tiaFrameBuffer.length ∧
    (∀ b ∈ s.tiaFrameBuffer, b < s.myPalette.length) ∧
    s.tiaHeight * s.tiaPitch ≤ s.tiaPixels.length

instance (s : TIASurface) : Decidable s.frameHolds := by
  unfold TIASurface.frameHolds; infer_instance

/-- A frame of 3 x 2 pixels `[0, 1, 2, 3, 4, 5]` with the palette
`i -> 100 + i`, filter `Normal`, pitch 3, the TIA surface filled with 0. -/
def threeByTwo : TIASurface :=
  { fresh with
    myFilter := Filter.Normal
    myPalette := [100, 101, 102, 103, 104, 105]
    tiaWidth := 3
    tiaHeight := 2
    tiaFrameBuffer := [0, 1, 2, 3, 4, 5]
    tiaPixels := [0, 0, 0, 0, 0, 0]
    tiaPitch := 3 }

/-- The state with other contents of the accumulation buffer and the previous
buffer. -/
def TIASurface.withHistory (s : TIASurface) (rgb prev : List Nat) : TIASurface :=
  { s with myRGBFramebuffer := rgb, myPrevRGBFramebuffer := prev }

/-! ## Focus chain (`src/gui/Widget.cxx`) -/

/-- The part of a `Widget` object that `Widget::setFocusForChain` reads and
writes: the bits `FLAG_ENABLED` and `FLAG_HILITED` of `_flags`, and `_hasFocus`.
The accessor `isEnabled` (absent `Widget.hxx`) is taken to read `FLAG_ENABLED`,
the bit that `Widget::setEnabled` sets and clears. -/
structure Widget where
  flagEnabled : Bool := true
  flagHilited : Bool := false
  hasFocus : Bool := false
  deriving DecidableEq, Repr

/-- The function `Widget::lostFocus`; the hook `lostFocusWidget` of the widget
classes is outside the excerpt and is taken to leave these fields. -/
def Widget.lostFocus (w : Widget) : Widget :=
  if !w.hasFocus then w else { w with hasFocus := false, flagHilited := false }

/-- The function `Widget::receivedFocus`; the hook `receivedFocusWidget` of the
widget classes is outside the excerpt and is taken to leave these fields. -/
def Widget.receivedFocus (w : Widget) : Widget :=
  if w.hasFocus then w else { w with hasFocus := true, flagHilited := true }

/-- One round of the first loop of `Widget::setFocusForChain` for the widget at
address `tmp`: the focus of a focused widget is cleared. Drawing (`frameRect`,
`setDirty`) is not part of the state. -/
def clearFocus (emitFocusEvents : Bool) (heap : Nat → Widget) (tmp : Nat) : Nat → Widget :=
  if (heap tmp).hasFocus then
    Function.update heap tmp
      (if emitFocusEvents then (heap tmp).lostFocus else { heap tmp with hasFocus := false })
  else heap

/-- The first loop of `Widget::setFocusForChain`, `for(int i = 0; i < size; ++i)`,
over the widgets from index `i` on: it records in `pos` the index of `wid` and
clears the focus. -/
def clearFocusLoop (wid : Nat) (emitFocusEvents : Bool) :
    List Nat → Int → Int → (Nat → Widget) → Int × (Nat → Widget)
  | [], _, pos, heap => (pos, heap)
  | tmp :: rest, i, pos, heap =>
    clearFocusLoop wid emitFocusEvents rest (i + 1) (if wid = tmp then i else pos)
      (clearFocus emitFocusEvents heap tmp)

/-- The `switch(direction)` in the search loop of `Widget::setFocusForChain`:
the position after one step. -/
def focusStep (size direction pos : Int) : Int :=
  if direction = -1 then
    (if wrapInt32 (pos - 1) < 0 then wrapInt32 (size - 1) else wrapInt32 (pos - 1))
  else if direction = 1 then
    (if wrapInt32 (pos + 1) ≥ size then 0 else wrapInt32 (pos + 1))
  else pos

/-- The search loop `do { switch(direction) ...; if(oldPos == pos) break; }
while(!arr[pos]->isEnabled())` of `Widget::setFocusForChain`, entered at `pos`
and run for at most `fuel` rounds. The result is the final `pos` and the number
of rounds run; `none` when the rounds run out or `arr[pos]` is outside the
array. -/
def focusSearch (heap : Nat → Widget) (arr : List Nat) (size direction oldPos : Int) :
    Nat → Int → Option (Int × Nat)
  | 0, _ => none
  | fuel + 1, pos =>
    if oldPos = focusStep size direction pos then some (focusStep size direction pos, 1)
    else
      match indexInt arr (focusStep size direction pos) with
      | none => none
      | some w =>
        if !(heap w).flagEnabled then
          (focusSearch heap arr size direction oldPos fuel (focusStep size direction pos)).map
            (fun r => (r.1, r.2 + 1))
        else some (focusStep size direction pos, 1)

/-- The function `Widget::setFocusForChain` with the search loop run for at most
`fuel` rounds: the returned widget (`none` for `nullptr`) and the widgets after
the call. The outer `none` is a search that ran out of rounds or an access
outside the array. -/
def setFocusForChain (heap : Nat → Widget) (arr : List Nat) (wid : Nat) (direction : Int)
    (emitFocusEvents : Bool) (fuel : Nat) : Option (Option Nat × (Nat → Widget)) :=
  let size := toInt32 arr.length
  let r := clearFocusLoop wid emitFocusEvents (arr.take size.toNat) 0 (-1) heap
  if r.1 = -1 then some (none, r.2)
  else
    match focusSearch r.2 arr size direction r.1 fuel r.1 with
    | none => none
    | some (pos, _) =>
      match indexInt arr pos with
      | none => none
      | some tmp =>
        some (some tmp, Function.update r.2 tmp
          (if emitFocusEvents then (r.2 tmp).receivedFocus
           else { r.2 tmp with hasFocus := true, flagHilited := true }))

/-- In the words of the claim: `q` is the index of the first enabled widget met
going forward from `p` with wraparound, or `p` itself when no other widget is
enabled; `k` is the number of steps taken. -/
def firstEnabledForward (heap : Nat → Widget) (arr : List Nat) (p q k : Nat) : Prop :=
  1 ≤ k ∧ k ≤ arr.length ∧ q = (p + k) % arr.length ∧
    (∀ j w, 1 ≤ j → j < k → arr[(p + j) % arr.length]? = some w →
      (heap w).flagEnabled = false) ∧
    (k < arr.length → ∃ w, arr[q]? = some w ∧ (heap w).flagEnabled = true)

/-- In the words of the claim: `q` is the index of the first enabled widget met
going backward from `p` with wraparound, or `p` itself when no other widget is
enabled; `k` is the number of steps taken. -/
def firstEnabledBackward (heap : Nat → Widget) (arr : List Nat) (p q k : Nat) : Prop :=
  1 ≤ k ∧ k ≤ arr.length ∧ q = (p + (arr.length - k)) % arr.length ∧
    (∀ j w, 1 ≤ j → j < k → arr[(p + (arr.length - j)) % arr.length]? = some w →
      (heap w).flagEnabled = false) ∧
    (k < arr.length → ∃ w, arr[q]? = some w ∧ (heap w).flagEnabled = true)

/-- Widgets used to evaluate the function: every widget enabled, none focused. -/
def allEnabled : Nat → Widget := fun _ => {}

/-- Widgets used to evaluate the function: only the widgets at the addresses 7
and 9 are enabled, the widget at 7 has the focus. -/
def someEnabled : Nat → Widget := fun a =>
  { flagEnabled := decide (a = 7 ∨ a = 9), hasFocus := decide (a = 7), flagHilited := decide (a = 7) }

/-! ## Filter state machine -/

theorem enableNTSC_myFilter (s : TIASurface) (enable : Bool) :
    (s.enableNTSC enable).myFilter =
      (if enable then s.myFilter ||| 0x10 else s.myFilter &&& 0x01) % 256 := rfl

theorem enableNTSC_handler (s : TIASurface) (enable : Bool) :
    (s.enableNTSC enable).myPhosphorHandler = s.myPhosphorHandler := rfl

theorem enableNTSC_buffer (s : TIASurface) (enable : Bool) :
    (s.enableNTSC enable).myRGBFramebuffer = fillZero s.myRGBFramebuffer := rfl

theorem enablePhosphor_changed (s : TIASurface) (enable : Bool) (blend : Int)
    (h : ( PhosphorHandler.initialize s.myPhosphorHandler enable blend).1 = true) :
    s.enablePhosphor enable blend =
      { s with
        myPhosphorHandler := { myUsePhosphor := enable, myPhosphorBlend := blend }
        myFilter := (if enable then s.myFilter ||| 0x01 else s.myFilter &&& 0x10) % 256
        myRGBFramebuffer := fillZero s.myRGBFramebuffer } := by
  unfold TIASurface.enablePhosphor
  simp only [h, if_true]
  rfl

theorem enablePhosphor_unchanged (s : TIASurface) (enable : Bool) (blend : Int)
    (h : ( PhosphorHandler.initialize s.myPhosphorHandler enable blend).1 = false) :
    s.enablePhosphor enable blend = s := by
  unfold TIASurface.enablePhosphor
  have h2 : s.myPhosphorHandler = { myUsePhosphor := enable, myPhosphorBlend := blend } := by
    simp only [ PhosphorHandler.initialize, decide_eq_false_iff_not, not_or, not_not] at h
    cases hp : s.myPhosphorHandler
    rw [hp] at h
    simp only at h
    rw [h.1, h.2]
  simp only [h, Bool.false_eq_true, if_false]
  simp only [ PhosphorHandler.initialize, ← h2]

theorem mem_fillZero {buf : List Nat} {x : Nat} (h : x ∈ fillZero buf) : x = 0 :=
  List.eq_of_mem_replicate h

theorem length_fillZero (buf : List Nat) : (fillZero buf).length = buf.length := by
  simp [fillZero]

/-- C1: for every prior filter state `f` (one of the four filter values) and every
boolean `c`, `enableNTSC(c)` leaves the filter equal to the transition table of
the specification applied to `(c, phosphor bit of f)`; and an
`enablePhosphor(p, level)` call that the phosphor handler reports as a change
leaves the filter equal to the table applied to `(composite bit of f, p)`. -/
theorem filter_follows_transition_table (s : TIASurface) (hf : Filter.legal s.myFilter) :
    (∀ c : Bool, (s.enableNTSC c).myFilter =
        specTransition c (Filter.phosphorBit s.myFilter)) ∧
    (∀ (p : Bool) (level : Int), ( PhosphorHandler.initialize s.myPhosphorHandler p level).1 = true →
        (s.enablePhosphor p level).myFilter =
          specTransition (Filter.compositeBit s.myFilter) p) := by
  refine ⟨fun c => ?_, fun p level h => ?_⟩
  · rw [enableNTSC_myFilter]
    rcases hf with h | h | h | h <;> rw [h] <;> cases c <;> decide
  · rw [enablePhosphor_changed s p level h]
    show (if p = true then s.myFilter ||| 0x01 else s.myFilter &&& 0x10) % 256 = _
    rcases hf with h | h | h | h <;> rw [h] <;> cases p <;> decide

/-- Witness of C1 on `sample` (filter `Phosphor`, handler enabled at level 50):
`enableNTSC(true)` gives `BlarggPhosphor`, `enablePhosphor(false, 50)` gives
`Normal`. -/
theorem filter_follows_transition_table_witness :
    Filter.legal sample.myFilter ∧
    (sample.enableNTSC true).myFilter = Filter.BlarggPhosphor ∧
    (sample.enablePhosphor false 50).myFilter = Filter.Normal :=
  ⟨by decide,
   (filter_follows_transition_table sample (by decide)).1 true,
   (filter_follows_transition_table sample (by decide)).2 false 50 (by decide)⟩

theorem consistent_of_constructed (s : TIASurface) (h : s.constructed) : s.consistent := by
  obtain ⟨hf, hp, _⟩ := h
  refine ⟨Or.inl hf, ?_⟩
  rw [hf, hp]
  decide

theorem enableNTSC_consistent (s : TIASurface) (enable : Bool) (h : s.consistent) :
    (s.enableNTSC enable).consistent := by
  obtain ⟨hf, hp⟩ := h
  unfold TIASurface.consistent
  rw [enableNTSC_myFilter, enableNTSC_handler, ← hp]
  rcases hf with h | h | h | h <;> rw [h] <;> cases enable <;> decide

theorem enablePhosphor_consistent (s : TIASurface) (enable : Bool) (blend : Int)
    (h : s.consistent) : (s.enablePhosphor enable blend).consistent := by
  cases hc : ( PhosphorHandler.initialize s.myPhosphorHandler enable blend).1
  · rw [enablePhosphor_unchanged s enable blend hc]
    exact h
  · rw [enablePhosphor_changed s enable blend hc]
    obtain ⟨hf, -⟩ := h
    show Filter.legal ((if enable = true then s.myFilter ||| 0x01 else s.myFilter &&& 0x10) % 256) ∧
      (Filter.phosphorBit ((if enable = true then s.myFilter ||| 0x01 else s.myFilter &&& 0x10) % 256)
        = true ↔ enable = true)
    rcases hf with h | h | h | h <;> rw [h] <;> cases enable <;> decide

theorem setNTSC_myFilter (s : TIASurface) (preset : Int) :
    (s.setNTSC preset).myFilter = (s.enableNTSC (decide (preset ≠ Preset.OFF))).myFilter := by
  unfold TIASurface.setNTSC
  by_cases h : preset = Preset.OFF <;> simp [h]

theorem setNTSC_handler (s : TIASurface) (preset : Int) :
    (s.setNTSC preset).myPhosphorHandler = s.myPhosphorHandler := by
  unfold TIASurface.setNTSC
  by_cases h : preset = Preset.OFF <;> simp [h, enableNTSC_handler]

theorem setNTSC_tvFilter (s : TIASurface) (preset : Int) :
    (s.setNTSC preset).settings.tvFilter = preset := rfl

theorem setNTSC_consistent (s : TIASurface) (preset : Int) (h : s.consistent) :
    (s.setNTSC preset).consistent := by
  have h1 := enableNTSC_consistent s (decide (preset ≠ Preset.OFF)) h
  unfold TIASurface.consistent at h1 ⊢
  rw [setNTSC_myFilter, setNTSC_handler]
  rw [enableNTSC_handler] at h1
  exact h1

theorem changeScanlineIntensity_consistent (s : TIASurface) (direction : Int)
    (h : s.consistent) : (s.changeScanlineIntensity direction).consistent := by
  unfold TIASurface.changeScanlineIntensity
  exact enableNTSC_consistent _ _ h

theorem step_consistent (s s1 : TIASurface) (op : Op) (h : s.consistent)
    (hs : s.step op = some s1) : s1.consistent := by
  cases op with
  | enableNTSC enable =>
    simp only [TIASurface.step, Option.some.injEq] at hs
    exact hs ▸ enableNTSC_consistent s enable h
  | enablePhosphor enable blend =>
    simp only [TIASurface.step, Option.some.injEq] at hs
    exact hs ▸ enablePhosphor_consistent s enable blend h
  | setNTSC preset =>
    simp only [TIASurface.step, Option.some.injEq] at hs
    exact hs ▸ setNTSC_consistent s preset h
  | changeNTSC direction =>
    simp only [TIASurface.step, TIASurface.changeNTSC] at hs
    split at hs
    · simp only [Option.some.injEq] at hs
      exact hs ▸ setNTSC_consistent s _ h
    · cases hs
  | changeScanlineIntensity direction =>
    simp only [TIASurface.step, Option.some.injEq] at hs
    exact hs ▸ changeScanlineIntensity_consistent s direction h

theorem run_consistent (ops : List Op) : ∀ (s s1 : TIASurface), s.consistent →
    s.run ops = some s1 → s1.consistent := by
  induction ops with
  | nil =>
    intro s s1 h hr
    simp only [TIASurface.run, Option.some.injEq] at hr
    exact hr ▸ h
  | cons op ops ih =>
    intro s s1 h hr
    simp only [TIASurface.run] at hr
    split at hr
    · cases hr
    · next s2 hs => exact ih s2 s1 (step_consistent s s2 op h hs) hr

/-- C2: in every state reached from a constructed pipeline (filter `Normal`,
phosphor disabled) by a sequence of `enableNTSC`, `enablePhosphor`, `setNTSC`,
`changeNTSC` and `changeScanlineIntensity` calls, the filter is one of the four
legal values and its phosphor bit is set if and only if the phosphor handler's
enabled flag is set. -/
theorem reachable_filter_consistent (s0 s : TIASurface) (ops : List Op)
    (h0 : s0.constructed) (hr : s0.run ops = some s) :
    Filter.legal s.myFilter ∧
      (Filter.phosphorBit s.myFilter = true ↔ s.myPhosphorHandler.myUsePhosphor = true) :=
  run_consistent ops s0 s (consistent_of_constructed s0 h0) hr

/-- Witness of C2: five calls on a fresh pipeline end in `BlarggPhosphor` with
the handler enabled. -/
theorem reachable_filter_consistent_witness :
    fresh.constructed ∧ (fresh.run sampleOps).isSome = true ∧
    ∀ s, fresh.run sampleOps = some s →
      Filter.legal s.myFilter ∧
        (Filter.phosphorBit s.myFilter = true ↔ s.myPhosphorHandler.myUsePhosphor = true) :=
  ⟨by decide, by decide,
   fun s hs => reachable_filter_consistent fresh s sampleOps (by decide) hs⟩

/-- C3: toggling a flag clears the accumulation buffer: after `enableNTSC(c)`, and
after an `enablePhosphor(e, level)` call that changes the phosphor enabled
flag, the accumulation buffer keeps its size and every entry is 0. -/
theorem toggle_clears_accumulation_buffer (s : TIASurface) :
    (∀ c : Bool, (s.enableNTSC c).myRGBFramebuffer.length = s.myRGBFramebuffer.length ∧
        ∀ x ∈ (s.enableNTSC c).myRGBFramebuffer, x = 0) ∧
    (∀ (e : Bool) (level : Int), s.myPhosphorHandler.myUsePhosphor ≠ e →
        (s.enablePhosphor e level).myRGBFramebuffer.length = s.myRGBFramebuffer.length ∧
        ∀ x ∈ (s.enablePhosphor e level).myRGBFramebuffer, x = 0) := by
  refine ⟨fun c => ?_, fun e level hne => ?_⟩
  · rw [enableNTSC_buffer]
    exact ⟨length_fillZero _, fun x hx => mem_fillZero hx⟩
  · have hc : ( PhosphorHandler.initialize s.myPhosphorHandler e level).1 = true := by
      simp only [ PhosphorHandler.initialize, decide_eq_true_eq]
      exact Or.inl hne
    rw [enablePhosphor_changed s e level hc]
    exact ⟨length_fillZero _, fun x hx => mem_fillZero hx⟩

/-- Witness of C3 on `sample`, whose accumulation buffer holds stale pixels:
disabling phosphor leaves four entries, all 0. -/
theorem toggle_clears_accumulation_buffer_witness :
    sample.myRGBFramebuffer = [0xff0000, 0x00ff00, 0x0000ff, 0xffffff] ∧
    (sample.enablePhosphor false 50).myRGBFramebuffer.length = 4 ∧
    ∀ x ∈ (sample.enablePhosphor false 50).myRGBFramebuffer, x = 0 :=
  ⟨rfl, (toggle_clears_accumulation_buffer sample).2 false 50 (by decide)⟩

/-! ## Preset cycling -/

theorem changeNTSC_eq (s : TIASurface) (direction q : Int)
    (h : indexInt PRESETS (changeNTSCIndex s.settings.tvFilter direction) = some q) :
    s.changeNTSC direction = some (s.setNTSC q) := by
  unfold TIASurface.changeNTSC
  rw [h]

theorem or_composite_bit (f : Nat) : ((f ||| 0x10) % 256) &&& 0x10 ≠ 0 := by
  intro h
  have h1 := congrArg (fun x => x.testBit 4) h
  have h2 : Nat.testBit 16 4 = true := by decide
  have h3 : ((f ||| 16) % 256).testBit 4 = true := by
    rw [show (256 : Nat) = 2 ^ 8 from rfl, Nat.testBit_mod_two_pow, Nat.testBit_or, h2]
    simp
  simp only [Nat.testBit_and, h2, h3, Nat.zero_testBit] at h1
  simp at h1

theorem and_phosphor_bit (f : Nat) : ((f &&& 0x01) % 256) &&& 0x10 = 0 := by
  rw [Nat.and_one_is_mod]
  have : f % 2 = 0 ∨ f % 2 = 1 := by omega
  rcases this with h | h <;> rw [h] <;> decide

theorem enableNTSC_ntscEnabled (s : TIASurface) (enable : Bool) :
    (s.enableNTSC enable).ntscEnabled = enable := by
  unfold TIASurface.ntscEnabled
  rw [enableNTSC_myFilter]
  cases enable
  · simp only [Bool.false_eq_true, if_false, decide_eq_false_iff_not, not_not]
    exact and_phosphor_bit _
  · simp only [if_true, decide_eq_true_eq]
    exact or_composite_bit _

theorem setNTSC_ntscEnabled (s : TIASurface) (preset : Int) :
    (s.setNTSC preset).ntscEnabled = decide (preset ≠ Preset.OFF) := by
  have h := enableNTSC_ntscEnabled s (decide (preset ≠ Preset.OFF))
  unfold TIASurface.ntscEnabled at h ⊢
  rw [setNTSC_myFilter]
  exact h

theorem setNTSC_ntscPreset (s : TIASurface) (preset : Int) (h : preset ≠ Preset.OFF) :
    (s.setNTSC preset).ntscPreset = preset := by
  unfold TIASurface.setNTSC
  simp [h]

/-- The stored preset in `0..5` after `changeNTSC(direction)` for `direction = ±1`. -/
theorem changeNTSC_next (s : TIASurface) (i : Nat) (hi : i < 6)
    (hs : s.settings.tvFilter = (i : Int)) :
    s.changeNTSC 1 = some (s.setNTSC (((i + 1) % 6 : Nat) : Int)) ∧
    s.changeNTSC (-1) = some (s.setNTSC (((i + 5) % 6 : Nat) : Int)) := by
  constructor <;> apply changeNTSC_eq <;> rw [hs] <;> interval_cases i <;> decide

/-- C4: when the stored preset is the `i`-th entry of the list
`[Off, RGB, SVideo, Composite, BadAdjust, Custom]`, `changeNTSC(+1)` returns, and
it is the call `setNTSC` of the next entry, Custom being followed by Off, which
is then the persisted preset; `changeNTSC(-1)` is the call `setNTSC` of the
previous entry, Off being preceded by Custom, which is then persisted. The composite
filter is on exactly when the selected preset is not Off, and a selected preset
other than Off is the one loaded into the NTSC filter. -/
theorem changeNTSC_cycles_presets (s : TIASurface) (i : Nat) (hi : i < 6)
    (hs : PRESETS[i]? = some s.settings.tvFilter) :
    ∃ next prev sn sp,
      PRESETS[(i + 1) % 6]? = some next ∧ PRESETS[(i + 5) % 6]? = some prev ∧
      s.changeNTSC 1 = some sn ∧ sn = s.setNTSC next ∧ sn.settings.tvFilter = next ∧
        sn.ntscEnabled = decide (next ≠ Preset.OFF) ∧ (next ≠ Preset.OFF → sn.ntscPreset = next) ∧
      s.changeNTSC (-1) = some sp ∧ sp = s.setNTSC prev ∧ sp.settings.tvFilter = prev ∧
        sp.ntscEnabled = decide (prev ≠ Preset.OFF) ∧ (prev ≠ Preset.OFF → sp.ntscPreset = prev) := by
  have hst : s.settings.tvFilter = (i : Int) := by
    interval_cases i <;> simp [PRESETS] at hs <;> rw [← hs] <;> rfl
  obtain ⟨h1, h2⟩ := changeNTSC_next s i hi hst
  refine ⟨(((i + 1) % 6 : Nat) : Int), (((i + 5) % 6 : Nat) : Int), _, _, ?_, ?_,
    h1, rfl, rfl, setNTSC_ntscEnabled s _, setNTSC_ntscPreset s _,
    h2, rfl, rfl, setNTSC_ntscEnabled s _, setNTSC_ntscPreset s _⟩
  · interval_cases i <;> rfl
  · interval_cases i <;> rfl

/-- Witness of C4 at the stored preset Custom (index 5) of `sample` with
`tv.filter = 5`: the next preset is Off, the previous one BadAdjust. -/
theorem changeNTSC_cycles_presets_witness :
    ∃ next prev sn sp,
      PRESETS[(5 + 1) % 6]? = some next ∧ PRESETS[(5 + 5) % 6]? = some prev ∧
      ({ sample with settings := { tvFilter := 5 } } : TIASurface).changeNTSC 1 = some sn ∧
        sn = ({ sample with settings := { tvFilter := 5 } } : TIASurface).setNTSC next ∧
        sn.settings.tvFilter = next ∧
        sn.ntscEnabled = decide (next ≠ Preset.OFF) ∧ (next ≠ Preset.OFF → sn.ntscPreset = next) ∧
      ({ sample with settings := { tvFilter := 5 } } : TIASurface).changeNTSC (-1) = some sp ∧
        sp = ({ sample with settings := { tvFilter := 5 } } : TIASurface).setNTSC prev ∧
        sp.settings.tvFilter = prev ∧
        sp.ntscEnabled = decide (prev ≠ Preset.OFF) ∧ (prev ≠ Preset.OFF → sp.ntscPreset = prev) :=
  changeNTSC_cycles_presets ({ sample with settings := { tvFilter := 5 } } : TIASurface) 5
    (by decide) (by decide)

theorem run_changeNTSC_succ (s : TIASurface) (i n : Nat) (hi : i < 6)
    (hs : s.settings.tvFilter = (i : Int)) :
    ∃ s1, s.run (List.replicate n (Op.changeNTSC 1)) = some s1 ∧
      s1.settings.tvFilter = (((i + n) % 6 : Nat) : Int) := by
  induction n generalizing s i with
  | zero =>
    refine ⟨s, rfl, ?_⟩
    rw [hs, Nat.add_zero, Nat.mod_eq_of_lt hi]
  | succ n ih =>
    obtain ⟨s1, h1, h2⟩ := ih (s.setNTSC (((i + 1) % 6 : Nat) : Int)) ((i + 1) % 6)
      (Nat.mod_lt _ (by decide)) rfl
    refine ⟨s1, ?_, ?_⟩
    · simp only [List.replicate_succ, TIASurface.run, TIASurface.step]
      rw [(changeNTSC_next s i hi hs).1]
      exact h1
    · rw [h2]
      congr 1
      omega

/-- C5: for every stored preset `p` in `0..5`, six successive `changeNTSC(+1)`
calls, each reading the preset the previous one persisted, all return and leave
the stored preset equal to `p`. -/
theorem changeNTSC_six_times_identity (s : TIASurface)
    (h0 : 0 ≤ s.settings.tvFilter) (h5 : s.settings.tvFilter ≤ 5) :
    ∃ s1, s.run (List.replicate 6 (Op.changeNTSC 1)) = some s1 ∧
      s1.settings.tvFilter = s.settings.tvFilter := by
  obtain ⟨i, hi⟩ := Int.eq_ofNat_of_zero_le h0
  have hlt : i < 6 := by omega
  obtain ⟨s1, h1, h2⟩ := run_changeNTSC_succ s i 6 hlt hi
  refine ⟨s1, h1, ?_⟩
  rw [h2, hi]
  congr 1
  omega

/-- Witness of C5 from Off: six `changeNTSC(+1)` calls on `fresh` (stored preset
Off) return to Off. -/
theorem changeNTSC_six_times_identity_witness :
    fresh.settings.tvFilter = Preset.OFF ∧
    ∃ s1, fresh.run (List.replicate 6 (Op.changeNTSC 1)) = some s1 ∧
      s1.settings.tvFilter = fresh.settings.tvFilter :=
  ⟨rfl, changeNTSC_six_times_identity fresh (by decide) (by decide)⟩

/-! ## Scanline mask surface -/

theorem fillData_eq_map (f : Nat → Option Nat) (g : Nat → Nat) (n : Nat)
    (h : ∀ i, i < n → f i = some (g i)) : fillData f n = some ((List.range n).map g) := by
  induction n with
  | zero => rfl
  | succ n ih =>
    have h1 := ih (fun i hi => h i (Nat.lt_succ_of_lt hi))
    have h2 := h n (Nat.lt_succ_self n)
    simp only [fillData, h1, h2, List.range_succ, List.map_append, List.map_cons, List.map_nil]

theorem texel_eq (m : Nat) (size : PatternSize) (hsz : Sizes[m]? = some size)
    (width i : Nat) :
    texel m size width i =
      some (patternAt m ((i / width) % (size.height * size.hRepeats)) (i % size.width)) := by
  have hm : m < 4 := by
    by_contra hc
    have : Sizes[m]? = none := by
      apply List.getElem?_eq_none
      simp only [Sizes, List.length_cons, List.length_nil]
      omega
    rw [this] at hsz
    cases hsz
  interval_cases m <;> simp only [Sizes, List.getElem?_cons_zero, List.getElem?_cons_succ,
    Option.some.injEq] at hsz <;> subst hsz <;> unfold texel patternAt <;> simp only []
  · have hr : (i / width) % (2 * 1) < 2 := Nat.mod_lt _ (by decide)
    have hc : i % 1 < 1 := Nat.mod_lt _ (by decide)
    generalize (i / width) % (2 * 1) = r at hr
    generalize i % 1 = c at hc
    interval_cases r <;> interval_cases c <;> rfl
  · have hr : (i / width) % (3 * 1) < 3 := Nat.mod_lt _ (by decide)
    have hc : i % 1 < 1 := Nat.mod_lt _ (by decide)
    generalize (i / width) % (3 * 1) = r at hr
    generalize i % 1 = c at hc
    interval_cases r <;> interval_cases c <;> rfl
  · have hr : (i / width) % (3 * 2) < 6 := Nat.mod_lt _ (by decide)
    have hc : i % 3 < 3 := Nat.mod_lt _ (by decide)
    generalize (i / width) % (3 * 2) = r at hr
    generalize i % 3 = c at hc
    interval_cases r <;> interval_cases c <;> rfl
  · have hr : (i / width) % (4 * 3) < 12 := Nat.mod_lt _ (by decide)
    have hc : i % 3 < 3 := Nat.mod_lt _ (by decide)
    generalize (i / width) % (4 * 3) = r at hr
    generalize i % 3 = c at hc
    interval_cases r <;> interval_cases c <;> rfl

/-- With direction 0 the loop of `scanlineMaskType` returns a loop counter it
visited, or Standard, and leaves the state as it was. -/
theorem scanlineMaskLoop_query (s : TIASurface) (rest : List String) :
    ∀ i : Int, ∃ m : Int, s.scanlineMaskLoop 0 rest i = some (m, s) ∧
      (m = 0 ∨ (i ≤ m ∧ m < i + rest.length)) := by
  induction rest with
  | nil => exact fun i => ⟨0, rfl, Or.inl rfl⟩
  | cons mask rest ih =>
    intro i
    by_cases hm : mask = s.settings.tvScanmask
    · refine ⟨i, ?_, Or.inr ⟨le_refl _, ?_⟩⟩
      · simp [TIASurface.scanlineMaskLoop, hm]
      · simp only [List.length_cons, Nat.cast_add, Nat.cast_one]
        omega
    · obtain ⟨m, h1, h2⟩ := ih (i + 1)
      refine ⟨m, ?_, ?_⟩
      · simp only [TIASurface.scanlineMaskLoop, hm, if_false]
        exact h1
      · rcases h2 with h2 | h2
        · exact Or.inl h2
        · right
          simp only [List.length_cons, Nat.cast_add, Nat.cast_one]
          omega

/-- A query of the current mask returns one of the four masks and changes nothing. -/
theorem scanlineMaskType_query (s : TIASurface) :
    ∃ m : Nat, m < 4 ∧ s.scanlineMaskType 0 = some ((m : Int), s) := by
  obtain ⟨m, h1, h2⟩ := scanlineMaskLoop_query s s.Masks 0
  have hlen : s.Masks.length = 4 := rfl
  have hm : 0 ≤ m ∧ m < 4 := by
    rw [hlen] at h2
    omega
  obtain ⟨k, hk⟩ := Int.eq_ofNat_of_zero_le hm.1
  refine ⟨k, by omega, ?_⟩
  rw [← hk]
  exact h1

theorem createScanlineSurface_eq (s : TIASurface) (m : Nat) (size : PatternSize)
    (hmask : s.scanlineMaskType 0 = some ((m : Int), s)) (hsz : Sizes[m]? = some size) :
    s.createScanlineSurface =
      some (({ s with mySLineSurface :=
                { width := surfaceWidthOf size
                  height := surfaceHeightOf s.tiaHeight size
                  data := maskData m size s.tiaHeight } } : TIASurface).enableNTSC s.ntscEnabled) := by
  have hidx : indexInt Sizes (m : Int) = some size := by
    simp only [indexInt, Int.natCast_nonneg, if_true, Int.toNat_ofNat]
    exact hsz
  have hfill := fillData_eq_map (texel m size (surfaceWidthOf size))
    (fun i => patternAt m ((i / surfaceWidthOf size) % (size.height * size.hRepeats))
      (i % size.width))
    ((surfaceWidthOf size * surfaceHeightOf s.tiaHeight size) % 4294967296)
    (fun i _ => texel_eq m size hsz (surfaceWidthOf size) i)
  unfold TIASurface.createScanlineSurface
  simp only [hmask, hidx, Int.toNat_ofNat, hfill]
  rfl

/-- The function `createScanlineSurface` returns for every state. -/
theorem createScanlineSurface_returns (s : TIASurface) :
    ∃ (m : Nat) (size : PatternSize), m < 4 ∧ s.scanlineMaskType 0 = some ((m : Int), s) ∧
      Sizes[m]? = some size ∧
      s.createScanlineSurface =
        some (({ s with mySLineSurface :=
                { width := surfaceWidthOf size
                  height := surfaceHeightOf s.tiaHeight size
                  data := maskData m size s.tiaHeight } } : TIASurface).enableNTSC s.ntscEnabled) := by
  obtain ⟨m, hm, hmask⟩ := scanlineMaskType_query s
  have hsz : ∃ size, Sizes[m]? = some size := by
    interval_cases m <;> exact ⟨_, rfl⟩
  obtain ⟨size, hsz⟩ := hsz
  exact ⟨m, size, hm, hmask, hsz, createScanlineSurface_eq s m size hmask hsz⟩

/-! ## Stored presets outside the preset list -/

theorem enablePhosphor_settings (s : TIASurface) (enable : Bool) (blend : Int) :
    (s.enablePhosphor enable blend).settings = s.settings := by
  cases hc : ( PhosphorHandler.initialize s.myPhosphorHandler enable blend).1
  · rw [enablePhosphor_unchanged s enable blend hc]
  · rw [enablePhosphor_changed s enable blend hc]

theorem createScanlineSurface_some (s : TIASurface) :
    ∃ u : TIASurface, s.createScanlineSurface = some u ∧ u.settings = s.settings ∧
      u.myFilter = (s.enableNTSC s.ntscEnabled).myFilter := by
  obtain ⟨m, size, -, -, -, hc⟩ := createScanlineSurface_returns s
  exact ⟨_, hc, rfl, rfl⟩

theorem initialize_eq (s : TIASurface) (tiaHeight : Nat) (enable : Bool) (p_blend : Int) :
    ∃ u : TIASurface, u.settings = s.settings ∧
      u.myFilter = ((({ s with tiaHeight := tiaHeight } : TIASurface).enablePhosphor enable
        p_blend).enableNTSC (({ s with tiaHeight := tiaHeight } : TIASurface).enablePhosphor enable
        p_blend).ntscEnabled).myFilter ∧
      s.initialize tiaHeight enable p_blend = some (u.setNTSC u.settings.tvFilter) := by
  obtain ⟨u, hc, hset, hf⟩ := createScanlineSurface_some
    (({ s with tiaHeight := tiaHeight } : TIASurface).enablePhosphor enable p_blend)
  refine ⟨u, ?_, hf, ?_⟩
  · rw [hset, enablePhosphor_settings]
  · unfold TIASurface.initialize
    simp only [hc]

/-- The function `initialize` returns, and it is `setNTSC` of the stored preset
as it stands: the value stays persisted, the composite filter is on exactly when
the value is not `OFF`, and such a value is handed to the NTSC filter. -/
theorem initialize_returns (s : TIASurface) (tiaHeight : Nat) (enable : Bool) (p_blend : Int) :
    ∃ s1, s.initialize tiaHeight enable p_blend = some s1 ∧
      s1.settings.tvFilter = s.settings.tvFilter ∧
      s1.ntscEnabled = decide (s.settings.tvFilter ≠ Preset.OFF) ∧
      (s.settings.tvFilter ≠ Preset.OFF → s1.ntscPreset = s.settings.tvFilter) := by
  obtain ⟨u, hset, -, hinit⟩ := initialize_eq s tiaHeight enable p_blend
  have e : u.settings.tvFilter = s.settings.tvFilter := by rw [hset]
  rw [e] at hinit
  exact ⟨_, hinit, setNTSC_tvFilter u _, setNTSC_ntscEnabled u _, setNTSC_ntscPreset u _⟩

/-- C6, evaluated at the stored value `tv.filter = 7`: `changeNTSC` indexes
`PRESETS` outside its six entries for each of the directions 0, +1 and -1
(the embedding reports the fault), and `initialize` returns with composite
filtering enabled, preset 7 handed to the NTSC filter and 7 persisted again,
not with the Off preset. -/
theorem stale_preset_no_fallback :
    staleSample.changeNTSC 0 = none ∧ staleSample.changeNTSC 1 = none ∧
    staleSample.changeNTSC (-1) = none ∧
    indexInt PRESETS (changeNTSCIndex 7 0) = none ∧
    ∃ s1, staleSample.initialize 2 false 0 = some s1 ∧ s1.ntscEnabled = true ∧
      s1.settings.tvFilter = 7 ∧ s1.ntscPreset = 7 ∧ s1.myFilter = Filter.BlarggNormal := by
  refine ⟨by decide, by decide, by decide, by decide, ?_⟩
  obtain ⟨s1, h1, h2, h3, h4⟩ := initialize_returns staleSample 2 false 0
  have h7 : staleSample.settings.tvFilter = 7 := rfl
  refine ⟨s1, h1, ?_, ?_, ?_, ?_⟩
  · rw [h3, h7]; decide
  · rw [h2, h7]
  · rw [h4 (by rw [h7]; decide), h7]
  · obtain ⟨u, hset, hf, hinit⟩ := initialize_eq staleSample 2 false 0
    rw [hinit, Option.some.injEq] at h1
    have e : u.settings.tvFilter = 7 := by rw [hset]; rfl
    have hu : u.myFilter = 0 := hf.trans (by decide)
    rw [← h1, setNTSC_myFilter, enableNTSC_myFilter, hu, e]
    decide

/-! ## Scanline intensity -/

theorem clamp_bounds (v lower upper : Int) (h : lower ≤ upper) :
    lower ≤ BSPF.clamp v lower upper ∧ BSPF.clamp v lower upper ≤ upper := by
  unfold BSPF.clamp
  split
  · exact ⟨le_refl _, h⟩
  · split
    · exact ⟨h, le_refl _⟩
    · constructor <;> omega

theorem toUInt32_of_small (v : Int) (h0 : 0 ≤ v) (h1 : v < 4294967296) :
    ((toUInt32 v : Nat) : Int) = v := by
  unfold toUInt32
  rw [Int.emod_eq_of_lt h0 h1]
  exact Int.toNat_of_nonneg h0

/-- The intensity that `changeScanlineIntensity` computes from the blend alpha
`a` of the mask surface. -/
theorem changeScanlineIntensity_value (s : TIASurface) (direction : Int) :
    (s.changeScanlineIntensity direction).settings.tvScanlines =
      BSPF.clamp (toInt32 ((s.mySLineSurface.attr.blendalpha +
        toUInt32 (wrapInt32 (direction * 2))) % 4294967296)) 0 100 ∧
    ((s.changeScanlineIntensity direction).mySLineSurface.attr.blendalpha : Int) =
      (s.changeScanlineIntensity direction).settings.tvScanlines := by
  have hb := clamp_bounds (toInt32 ((s.mySLineSurface.attr.blendalpha +
        toUInt32 (wrapInt32 (direction * 2))) % 4294967296)) 0 100 (by decide)
  have h1 := toUInt32_of_small _ hb.1 (by omega)
  have hv : (s.changeScanlineIntensity direction).settings.tvScanlines =
      BSPF.clamp (toInt32 ((s.mySLineSurface.attr.blendalpha +
        toUInt32 (wrapInt32 (direction * 2))) % 4294967296)) 0 100 := by
    show ((toUInt32 _ : Nat) : Int) = _
    exact h1
  refine ⟨hv, ?_⟩
  show ((toUInt32 (s.changeScanlineIntensity direction).settings.tvScanlines : Nat) : Int) = _
  apply toUInt32_of_small
  · rw [hv]; exact hb.1
  · rw [hv]; omega

/-- C7: for every current scanline intensity (in `0..100` or not) and every
direction argument, `changeScanlineIntensity` leaves the blend alpha of the
mask surface and the persisted `tv.scanlines` value equal and within `0..100`;
from intensity 0 a change of +150 (direction 75, the step being twice the
direction) yields 100, and so does direction 150. -/
theorem changeScanlineIntensity_clamped (s : TIASurface) (direction : Int) :
    (s.changeScanlineIntensity direction).mySLineSurface.attr.blendalpha ≤ 100 ∧
    0 ≤ (s.changeScanlineIntensity direction).settings.tvScanlines ∧
    (s.changeScanlineIntensity direction).settings.tvScanlines ≤ 100 ∧
    ((s.changeScanlineIntensity direction).mySLineSurface.attr.blendalpha : Int) =
      (s.changeScanlineIntensity direction).settings.tvScanlines ∧
    (s.mySLineSurface.attr.blendalpha = 0 →
      (s.changeScanlineIntensity 75).mySLineSurface.attr.blendalpha = 100 ∧
      (s.changeScanlineIntensity 75).settings.tvScanlines = 100 ∧
      (s.changeScanlineIntensity 150).mySLineSurface.attr.blendalpha = 100 ∧
      (s.changeScanlineIntensity 150).settings.tvScanlines = 100) := by
  obtain ⟨hv, ha⟩ := changeScanlineIntensity_value s direction
  have hb := clamp_bounds (toInt32 ((s.mySLineSurface.attr.blendalpha +
        toUInt32 (wrapInt32 (direction * 2))) % 4294967296)) 0 100 (by decide)
  rw [← hv] at hb
  refine ⟨?_, hb.1, hb.2, ha, fun h0 => ?_⟩
  · have := hb.2
    rw [← ha] at this
    exact_mod_cast this
  · obtain ⟨hv1, ha1⟩ := changeScanlineIntensity_value s 75
    obtain ⟨hv2, ha2⟩ := changeScanlineIntensity_value s 150
    rw [h0] at hv1 hv2
    have e1 : (s.changeScanlineIntensity 75).settings.tvScanlines = 100 := by
      rw [hv1]; decide
    have e2 : (s.changeScanlineIntensity 150).settings.tvScanlines = 100 := by
      rw [hv2]; decide
    rw [e1] at ha1
    rw [e2] at ha2
    exact ⟨by exact_mod_cast ha1, e1, by exact_mod_cast ha2, e2⟩

/-- Witness of C7 on `fresh` with the mask surface at intensity 0. -/
theorem changeScanlineIntensity_clamped_witness :
    (({ fresh with mySLineSurface := { attr := { blendalpha := 0 } } } :
      TIASurface).changeScanlineIntensity 75).settings.tvScanlines = 100 :=
  ((changeScanlineIntensity_clamped
    ({ fresh with mySLineSurface := { attr := { blendalpha := 0 } } } : TIASurface) 75).2.2.2.2
      rfl).2.1

/-! ## Scanline mask selection -/

theorem scanlineMaskLoop_skip (s : TIASurface) (direction : Int) (pre rest : List String) :
    ∀ i : Int, s.settings.tvScanmask ∉ pre →
      s.scanlineMaskLoop direction (pre ++ rest) i =
        s.scanlineMaskLoop direction rest (i + (pre.length : Int)) := by
  induction pre with
  | nil =>
    intro i _
    simp
  | cons mask pre ih =>
    intro i h
    have hne : mask ≠ s.settings.tvScanmask := fun e => h (e ▸ List.mem_cons_self _ _)
    have hpre : s.settings.tvScanmask ∉ pre := fun e => h (List.mem_cons_of_mem _ e)
    rw [List.cons_append, TIASurface.scanlineMaskLoop, if_neg hne, ih (i + 1) hpre]
    congr 1
    simp only [List.length_cons, Nat.cast_add, Nat.cast_one]
    omega

theorem scanlineMaskLoop_head (s : TIASurface) (direction : Int) (mask : String)
    (rest : List String) (i : Int) (h : mask = s.settings.tvScanmask) :
    s.scanlineMaskLoop direction (mask :: rest) i = s.maskHit direction i := by
  rw [TIASurface.scanlineMaskLoop, if_pos h]
  rfl

/-- With distinct setting names, a stored name that is the `i`-th of `Masks` is
matched at loop counter `i`. -/
theorem scanlineMaskType_at (s : TIASurface) (direction : Int) (i : Nat)
    (hnd : s.Masks.Nodup) (hs : s.Masks[i]? = some s.settings.tvScanmask) :
    s.scanlineMaskType direction = s.maskHit direction (i : Int) := by
  have hlt : i < s.Masks.length := by
    by_contra hc
    rw [List.getElem?_eq_none (by omega)] at hs
    cases hs
  have hget : s.Masks[i] = s.settings.tvScanmask := by
    rw [List.getElem?_eq_getElem hlt, Option.some.injEq] at hs
    exact hs
  have hsplit : s.Masks = s.Masks.take i ++ s.Masks[i] :: s.Masks.drop (i + 1) := by
    rw [← List.drop_eq_getElem_cons hlt, List.take_append_drop]
  have hnot : s.settings.tvScanmask ∉ s.Masks.take i := by
    intro hmem
    rw [hsplit, List.nodup_append] at hnd
    exact hnd.2.2 hmem (hget ▸ List.mem_cons_self _ _)
  unfold TIASurface.scanlineMaskType
  conv => lhs; rw [hsplit]
  rw [scanlineMaskLoop_skip s direction _ _ 0 hnot, scanlineMaskLoop_head s direction _ _ _ hget,
    List.length_take, Nat.min_eq_left (le_of_lt hlt), zero_add]

/-- C8: when the four setting names are distinct and the stored mask name is the
`i`-th of the list `[Standard, Thin, Pixelated, MAME]`, `scanlineMaskType(+1)`
returns mask `i+1` (MAME wrapping to Standard) and stores its name,
`scanlineMaskType(-1)` returns mask `i-1` (Standard wrapping to MAME) and stores
its name, and `scanlineMaskType(0)` returns mask `i` and leaves the state as it
was. -/
theorem scanlineMaskType_cycles (s : TIASurface) (i : Nat) (hi : i < 4)
    (hnd : s.Masks.Nodup) (hs : s.Masks[i]? = some s.settings.tvScanmask) :
    ∃ next prev,
      s.Masks[(i + 1) % 4]? = some next ∧ s.Masks[(i + 3) % 4]? = some prev ∧
      s.scanlineMaskType 1 = some ((((i + 1) % 4 : Nat) : Int), s.storeMask next) ∧
      s.scanlineMaskType (-1) = some ((((i + 3) % 4 : Nat) : Int), s.storeMask prev) ∧
      s.scanlineMaskType 0 = some ((i : Int), s) := by
  have h1 := scanlineMaskType_at s 1 i hnd hs
  have h2 := scanlineMaskType_at s (-1) i hnd hs
  have h3 := scanlineMaskType_at s 0 i hnd hs
  rw [h1, h2, h3]
  interval_cases i
  · exact ⟨s.maskNames.thin, s.maskNames.mame, rfl, rfl, rfl, rfl, rfl⟩
  · exact ⟨s.maskNames.pixels, s.maskNames.standard, rfl, rfl, rfl, rfl, rfl⟩
  · exact ⟨s.maskNames.mame, s.maskNames.thin, rfl, rfl, rfl, rfl, rfl⟩
  · exact ⟨s.maskNames.standard, s.maskNames.pixels, rfl, rfl, rfl, rfl, rfl⟩

/-- Witness of C8 at the last mask: with `"mame"` stored in `sample`, +1 wraps to
Standard, -1 gives Pixelated and 0 reports MAME. -/
theorem scanlineMaskType_cycles_witness :
    ∃ next prev,
      (sample.storeMask "mame").Masks[(3 + 1) % 4]? = some next ∧
      (sample.storeMask "mame").Masks[(3 + 3) % 4]? = some prev ∧
      (sample.storeMask "mame").scanlineMaskType 1 =
        some ((((3 + 1) % 4 : Nat) : Int), (sample.storeMask "mame").storeMask next) ∧
      (sample.storeMask "mame").scanlineMaskType (-1) =
        some ((((3 + 3) % 4 : Nat) : Int), (sample.storeMask "mame").storeMask prev) ∧
      (sample.storeMask "mame").scanlineMaskType 0 = some ((3 : Int), sample.storeMask "mame") :=
  scanlineMaskType_cycles (sample.storeMask "mame") 3 (by decide) (by decide) (by decide)

theorem scanlineMaskType_unrecognised (s : TIASurface) (direction : Int)
    (hs : s.settings.tvScanmask ∉ s.Masks) : s.scanlineMaskType direction = some (0, s) := by
  have h := scanlineMaskLoop_skip s direction s.Masks [] 0 hs
  rw [List.append_nil] at h
  unfold TIASurface.scanlineMaskType
  rw [h]
  rfl

theorem maskData_standard (tiaHeight : Nat) :
    maskData 0 ⟨1, 2, 1⟩ tiaHeight =
      (List.range ((tiaHeight * 2) % 4294967296)).map (fun i => patternAt 0 (i % 2) 0) := by
  have hw : surfaceWidthOf ⟨1, 2, 1⟩ = 1 := rfl
  unfold maskData
  rw [hw]
  simp only [surfaceHeightOf, Nat.one_mul, Nat.mod_mod, Nat.div_one, Nat.mul_one, Nat.mod_one]

/-- C9: for every stored `tv.scanmask` string that is none of the four mask names,
and every direction, `scanlineMaskType` returns the Standard mask (value 0) and
stores nothing; `createScanlineSurface` then returns a surface built from the
Standard pattern: one column, two rows per TIA line, row `y` holding
`Pattern[Standard][y mod 2][0]`, that is 0 on even and `0xff000000` on odd rows. -/
theorem unrecognised_mask_is_standard (s : TIASurface) (direction : Int)
    (hs : s.settings.tvScanmask ∉ s.Masks) :
    s.scanlineMaskType direction = some (0, s) ∧
    ∃ s1, s.createScanlineSurface = some s1 ∧
      s1.mySLineSurface.width = 1 ∧
      s1.mySLineSurface.height = (s.tiaHeight * 2) % 4294967296 ∧
      s1.mySLineSurface.data =
        (List.range ((s.tiaHeight * 2) % 4294967296)).map (fun y => patternAt 0 (y % 2) 0) ∧
      patternAt 0 0 0 = 0x00000000 ∧ patternAt 0 1 0 = 0xff000000 := by
  refine ⟨scanlineMaskType_unrecognised s direction hs, ?_⟩
  have hc := createScanlineSurface_eq s 0 ⟨1, 2, 1⟩ (scanlineMaskType_unrecognised s 0 hs) rfl
  exact ⟨_, hc, rfl, rfl, maskData_standard s.tiaHeight, rfl, rfl⟩

/-- Witness of C9: with `"bogus"` stored in `sample` (TIA height 2), direction +1
returns Standard and the surface is the column `[0, 0xff000000, 0, 0xff000000]`. -/
theorem unrecognised_mask_is_standard_witness :
    (sample.storeMask "bogus").scanlineMaskType 1 = some (0, sample.storeMask "bogus") ∧
    ∃ s1, (sample.storeMask "bogus").createScanlineSurface = some s1 ∧
      s1.mySLineSurface.width = 1 ∧
      s1.mySLineSurface.height = ((sample.storeMask "bogus").tiaHeight * 2) % 4294967296 ∧
      s1.mySLineSurface.data =
        (List.range (((sample.storeMask "bogus").tiaHeight * 2) % 4294967296)).map
          (fun y => patternAt 0 (y % 2) 0) ∧
      patternAt 0 0 0 = 0x00000000 ∧ patternAt 0 1 0 = 0xff000000 :=
  unrecognised_mask_is_standard (sample.storeMask "bogus") 1 (by decide)

/-! ## Dimensions of the mask surface -/

theorem length_maskData (m : Nat) (size : PatternSize) (tiaHeight : Nat) :
    (maskData m size tiaHeight).length =
      (surfaceWidthOf size * surfaceHeightOf tiaHeight size) % 4294967296 := by
  simp [maskData]

/-- C10: for every state, whatever mask kind `m` the stored setting selects and
whatever the TIA height `h`, `createScanlineSurface` returns and allocates the
mask surface with `width = 1` for a one-column pattern and `160 * tileWidth`
otherwise and `height = h * tileHeight` (in `uInt32`), and the texel buffer it
hands over has `width * height` entries (in `uInt32`). When `160 * 3 * 4 * h`
fits 32 bits, as it does for every height of a TIA frame, the `uInt32`
arithmetic is exact: `height = h * tileHeight` and the buffer has exactly
`width * height` entries. -/
theorem mask_surface_dimensions (s : TIASurface) :
    ∃ (m : Nat) (size : PatternSize) (s1 : TIASurface), m < 4 ∧
      s.scanlineMaskType 0 = some ((m : Int), s) ∧ Sizes[m]? = some size ∧
      s.createScanlineSurface = some s1 ∧
      s1.mySLineSurface.width = (if size.width = 1 then 1 else 160 * size.width) ∧
      s1.mySLineSurface.height = (s.tiaHeight * size.height) % 4294967296 ∧
      s1.mySLineSurface.data.length =
        (s1.mySLineSurface.width * s1.mySLineSurface.height) % 4294967296 ∧
      (s.tiaHeight * 1920 < 4294967296 →
        s1.mySLineSurface.height = s.tiaHeight * size.height ∧
        s1.mySLineSurface.data.length = s1.mySLineSurface.width * s1.mySLineSurface.height) := by
  obtain ⟨m, size, hm, hmask, hsz, hc⟩ := createScanlineSurface_returns s
  have hwidth : surfaceWidthOf size = (if size.width = 1 then 1 else 160 * size.width) ∧
      size.width ≤ 3 ∧ size.height ≤ 4 := by
    interval_cases m <;> simp only [Sizes, List.getElem?_cons_zero, List.getElem?_cons_succ,
      Option.some.injEq] at hsz <;> subst hsz <;> decide
  refine ⟨m, size, _, hm, hmask, hsz, hc, hwidth.1, rfl, length_maskData m size s.tiaHeight, ?_⟩
  intro hfit
  have hw3 : surfaceWidthOf size ≤ 480 := by
    rw [hwidth.1]
    split <;> omega
  have hh : s.tiaHeight * size.height ≤ s.tiaHeight * 4 := Nat.mul_le_mul_left _ hwidth.2.2
  have hheight : surfaceHeightOf s.tiaHeight size = s.tiaHeight * size.height := by
    unfold surfaceHeightOf
    apply Nat.mod_eq_of_lt
    omega
  refine ⟨hheight, ?_⟩
  show (maskData m size s.tiaHeight).length = surfaceWidthOf size * surfaceHeightOf s.tiaHeight size
  rw [length_maskData]
  apply Nat.mod_eq_of_lt
  rw [hheight]
  calc surfaceWidthOf size * (s.tiaHeight * size.height)
      ≤ 480 * (s.tiaHeight * 4) := Nat.mul_le_mul hw3 hh
    _ < 4294967296 := by omega

/-- Witness of C10 on `sample` with the MAME mask stored and TIA height 2, where
`2 * 1920` fits 32 bits. -/
theorem mask_surface_dimensions_witness :
    (sample.storeMask "mame").tiaHeight * 1920 < 4294967296 ∧
    ∃ (m : Nat) (size : PatternSize) (s1 : TIASurface), m < 4 ∧
      (sample.storeMask "mame").scanlineMaskType 0 = some ((m : Int), sample.storeMask "mame") ∧
      Sizes[m]? = some size ∧
      (sample.storeMask "mame").createScanlineSurface = some s1 ∧
      s1.mySLineSurface.width = (if size.width = 1 then 1 else 160 * size.width) ∧
      s1.mySLineSurface.height = ((sample.storeMask "mame").tiaHeight * size.height) % 4294967296 ∧
      s1.mySLineSurface.data.length =
        (s1.mySLineSurface.width * s1.mySLineSurface.height) % 4294967296 ∧
      ((sample.storeMask "mame").tiaHeight * 1920 < 4294967296 →
        s1.mySLineSurface.height = (sample.storeMask "mame").tiaHeight * size.height ∧
        s1.mySLineSurface.data.length = s1.mySLineSurface.width * s1.mySLineSurface.height) :=
  ⟨by decide, mask_surface_dimensions (sample.storeMask "mame")⟩

/-! ## Texels of the mask surface -/

theorem texel_eq_patternLookup (m : Nat) (size : PatternSize) (width i : Nat) :
    texel m size width i =
      patternLookup m ((i / width) % (size.height * size.hRepeats)) (i % size.width) := rfl

theorem getElem?_maskData (m : Nat) (size : PatternSize) (hsz : Sizes[m]? = some size)
    (tiaHeight i : Nat) (hi : i < (maskData m size tiaHeight).length) :
    (maskData m size tiaHeight)[i]? =
      patternLookup m ((i / surfaceWidthOf size) % (size.height * size.hRepeats))
        (i % size.width) ∧
    (maskData m size tiaHeight)[i]? =
      some (patternAt m ((i / surfaceWidthOf size) % (size.height * size.hRepeats))
        (i % size.width)) := by
  have h2 : (maskData m size tiaHeight)[i]? =
      some (patternAt m ((i / surfaceWidthOf size) % (size.height * size.hRepeats))
        (i % size.width)) := by
    have hi2 : i < (surfaceWidthOf size * surfaceHeightOf tiaHeight size) % 4294967296 := by
      rw [length_maskData] at hi
      exact hi
    unfold maskData
    rw [List.getElem?_map, List.getElem?_range hi2]
    rfl
  refine ⟨?_, h2⟩
  rw [h2, ← texel_eq_patternLookup, texel_eq m size hsz]

/-- The width of a mask surface is a positive multiple of the tile width. -/
theorem surfaceWidthOf_tiles (m : Nat) (size : PatternSize) (hsz : Sizes[m]? = some size) :
    0 < size.width ∧ ∃ k, 0 < k ∧ surfaceWidthOf size = size.width * k := by
  have hm : m < 4 := by
    by_contra hc
    rw [List.getElem?_eq_none (by simp only [Sizes, List.length_cons, List.length_nil]; omega)]
      at hsz
    cases hsz
  interval_cases m <;> simp only [Sizes, List.getElem?_cons_zero, List.getElem?_cons_succ,
    Option.some.injEq] at hsz <;> subst hsz
  · exact ⟨by decide, 1, by decide, by decide⟩
  · exact ⟨by decide, 1, by decide, by decide⟩
  · exact ⟨by decide, 160, by decide, by decide⟩
  · exact ⟨by decide, 160, by decide, by decide⟩

/-- The texel stored at index `y * width + x`, for a column `x < width`. -/
theorem maskData_at (m : Nat) (size : PatternSize) (hsz : Sizes[m]? = some size)
    (tiaHeight x y : Nat) (hx : x < surfaceWidthOf size)
    (hi : y * surfaceWidthOf size + x < (maskData m size tiaHeight).length) :
    (maskData m size tiaHeight)[y * surfaceWidthOf size + x]? =
      patternLookup m (y % (size.height * size.hRepeats)) (x % size.width) ∧
    (maskData m size tiaHeight)[y * surfaceWidthOf size + x]? =
      some (patternAt m (y % (size.height * size.hRepeats)) (x % size.width)) := by
  obtain ⟨htw, k, hk, hW⟩ := surfaceWidthOf_tiles m size hsz
  have hdiv : (y * surfaceWidthOf size + x) / surfaceWidthOf size = y := by
    rw [Nat.add_comm, Nat.add_mul_div_right _ _ (by omega), Nat.div_eq_of_lt hx, Nat.zero_add]
  have hmod : (y * surfaceWidthOf size + x) % size.width = x % size.width := by
    rw [hW, Nat.mul_comm y, Nat.mul_assoc, Nat.mul_add_mod]
  have h := getElem?_maskData m size hsz tiaHeight _ hi
  rw [hdiv, hmod] at h
  exact h

theorem maskData_length_exact (m : Nat) (size : PatternSize) (hsz : Sizes[m]? = some size)
    (tiaHeight : Nat) (hfit : tiaHeight * 1920 < 4294967296) :
    surfaceHeightOf tiaHeight size = tiaHeight * size.height ∧
    (maskData m size tiaHeight).length =
      surfaceWidthOf size * surfaceHeightOf tiaHeight size := by
  have hm : m < 4 := by
    by_contra hc
    rw [List.getElem?_eq_none (by simp only [Sizes, List.length_cons, List.length_nil]; omega)]
      at hsz
    cases hsz
  have hb : surfaceWidthOf size ≤ 480 ∧ size.height ≤ 4 := by
    interval_cases m <;> simp only [Sizes, List.getElem?_cons_zero, List.getElem?_cons_succ,
      Option.some.injEq] at hsz <;> subst hsz <;> decide
  have hh : tiaHeight * size.height ≤ tiaHeight * 4 := Nat.mul_le_mul_left _ hb.2
  have hheight : surfaceHeightOf tiaHeight size = tiaHeight * size.height := by
    unfold surfaceHeightOf
    apply Nat.mod_eq_of_lt
    omega
  refine ⟨hheight, ?_⟩
  rw [length_maskData]
  apply Nat.mod_eq_of_lt
  rw [hheight]
  calc surfaceWidthOf size * (tiaHeight * size.height)
      ≤ 480 * (tiaHeight * 4) := Nat.mul_le_mul hb.1 hh
    _ < 4294967296 := by omega

theorem index_lt_of_row_col (x y w h : Nat) (hx : x < w) (hy : y < h) : y * w + x < w * h := by
  calc y * w + x < y * w + w := by omega
    _ = (y + 1) * w := by rw [Nat.add_mul, Nat.one_mul]
    _ ≤ h * w := Nat.mul_le_mul_right _ hy
    _ = w * h := Nat.mul_comm _ _

/-- C11: pure horizontal tiling. For every state, whatever mask kind the stored
setting selects, `createScanlineSurface` returns a surface whose buffer holds at
every column `x < width` of every row `y` inside the buffer (index
`y * width + x`) the same texel as at column `x mod tileWidth` of that row; when
`160 * 3 * 4 * h` fits 32 bits every row `y < height` is inside the buffer. -/
theorem mask_horizontal_tiling (s : TIASurface) :
    ∃ (m : Nat) (size : PatternSize) (s1 : TIASurface), m < 4 ∧
      s.scanlineMaskType 0 = some ((m : Int), s) ∧ Sizes[m]? = some size ∧
      s.createScanlineSurface = some s1 ∧
      (∀ x y, x < s1.mySLineSurface.width →
        y * s1.mySLineSurface.width + x < s1.mySLineSurface.data.length →
        (s1.mySLineSurface.data[y * s1.mySLineSurface.width + x]?).isSome = true ∧
        s1.mySLineSurface.data[y * s1.mySLineSurface.width + x]? =
          s1.mySLineSurface.data[y * s1.mySLineSurface.width + x % size.width]?) ∧
      (s.tiaHeight * 1920 < 4294967296 →
        ∀ x y, x < s1.mySLineSurface.width → y < s1.mySLineSurface.height →
          y * s1.mySLineSurface.width + x < s1.mySLineSurface.data.length) := by
  obtain ⟨m, size, hm, hmask, hsz, hc⟩ := createScanlineSurface_returns s
  refine ⟨m, size, _, hm, hmask, hsz, hc, ?_, ?_⟩
  · intro x y hx hi
    change x < surfaceWidthOf size at hx
    change y * surfaceWidthOf size + x < (maskData m size s.tiaHeight).length at hi
    show ((maskData m size s.tiaHeight)[y * surfaceWidthOf size + x]?).isSome = true ∧
      (maskData m size s.tiaHeight)[y * surfaceWidthOf size + x]? =
        (maskData m size s.tiaHeight)[y * surfaceWidthOf size + x % size.width]?
    obtain ⟨htw, -⟩ := surfaceWidthOf_tiles m size hsz
    have hle : x % size.width ≤ x := Nat.mod_le _ _
    have h1 := (maskData_at m size hsz s.tiaHeight x y hx hi).2
    have h2 := (maskData_at m size hsz s.tiaHeight (x % size.width) y (by omega) (by omega)).2
    rw [Nat.mod_mod] at h2
    rw [h1, h2]
    exact ⟨rfl, rfl⟩
  · intro hfit x y hx hy
    change x < surfaceWidthOf size at hx
    change y < surfaceHeightOf s.tiaHeight size at hy
    show y * surfaceWidthOf size + x < (maskData m size s.tiaHeight).length
    rw [(maskData_length_exact m size hsz s.tiaHeight hfit).2]
    exact index_lt_of_row_col x y _ _ hx hy

/-- Witness of C11 on `sample` with the Pixelated mask stored and TIA height 2. -/
theorem mask_horizontal_tiling_witness :
    (sample.storeMask "pixel").tiaHeight * 1920 < 4294967296 ∧
    ∃ (m : Nat) (size : PatternSize) (s1 : TIASurface), m < 4 ∧
      (sample.storeMask "pixel").scanlineMaskType 0 = some ((m : Int), sample.storeMask "pixel") ∧
      Sizes[m]? = some size ∧
      (sample.storeMask "pixel").createScanlineSurface = some s1 ∧
      (∀ x y, x < s1.mySLineSurface.width →
        y * s1.mySLineSurface.width + x < s1.mySLineSurface.data.length →
        (s1.mySLineSurface.data[y * s1.mySLineSurface.width + x]?).isSome = true ∧
        s1.mySLineSurface.data[y * s1.mySLineSurface.width + x]? =
          s1.mySLineSurface.data[y * s1.mySLineSurface.width + x % size.width]?) ∧
      ((sample.storeMask "pixel").tiaHeight * 1920 < 4294967296 →
        ∀ x y, x < s1.mySLineSurface.width → y < s1.mySLineSurface.height →
          y * s1.mySLineSurface.width + x < s1.mySLineSurface.data.length) :=
  ⟨by decide, mask_horizontal_tiling (sample.storeMask "pixel")⟩

/-- C12: for every state, whatever mask kind `m` the stored setting selects, the
texel at column `x < width` of row `y` of the buffer built by
`createScanlineSurface` (index `y * width + x`, inside the buffer) is the table
entry `Pattern[m][y mod (tileHeight * repeatCount)][x mod tileWidth]`, which is
inside the table, `(tileWidth, tileHeight, repeatCount)` being `Sizes[m]`; hence
rows `y` and `y + tileHeight * repeatCount` hold the same texels. When
`160 * 3 * 4 * h` fits 32 bits every row `y < height` is inside the buffer. -/
theorem mask_texel_formula (s : TIASurface) :
    ∃ (m : Nat) (size : PatternSize) (s1 : TIASurface), m < 4 ∧
      s.scanlineMaskType 0 = some ((m : Int), s) ∧ Sizes[m]? = some size ∧
      s.createScanlineSurface = some s1 ∧
      (∀ x y, x < s1.mySLineSurface.width →
        y * s1.mySLineSurface.width + x < s1.mySLineSurface.data.length →
        (s1.mySLineSurface.data[y * s1.mySLineSurface.width + x]?).isSome = true ∧
        s1.mySLineSurface.data[y * s1.mySLineSurface.width + x]? =
          patternLookup m (y % (size.height * size.hRepeats)) (x % size.width)) ∧
      (∀ x y, x < s1.mySLineSurface.width →
        (y + size.height * size.hRepeats) * s1.mySLineSurface.width + x <
          s1.mySLineSurface.data.length →
        s1.mySLineSurface.data[(y + size.height * size.hRepeats) *
            s1.mySLineSurface.width + x]? =
          s1.mySLineSurface.data[y * s1.mySLineSurface.width + x]?) ∧
      (s.tiaHeight * 1920 < 4294967296 →
        ∀ x y, x < s1.mySLineSurface.width → y < s1.mySLineSurface.height →
          y * s1.mySLineSurface.width + x < s1.mySLineSurface.data.length) := by
  obtain ⟨m, size, hm, hmask, hsz, hc⟩ := createScanlineSurface_returns s
  refine ⟨m, size, _, hm, hmask, hsz, hc, ?_, ?_, ?_⟩
  · intro x y hx hi
    change x < surfaceWidthOf size at hx
    change y * surfaceWidthOf size + x < (maskData m size s.tiaHeight).length at hi
    show ((maskData m size s.tiaHeight)[y * surfaceWidthOf size + x]?).isSome = true ∧
      (maskData m size s.tiaHeight)[y * surfaceWidthOf size + x]? = _
    obtain ⟨h1, h2⟩ := maskData_at m size hsz s.tiaHeight x y hx hi
    refine ⟨?_, h1⟩
    rw [h2]
    rfl
  · intro x y hx hi
    change x < surfaceWidthOf size at hx
    change (y + size.height * size.hRepeats) * surfaceWidthOf size + x <
      (maskData m size s.tiaHeight).length at hi
    show (maskData m size s.tiaHeight)[(y + size.height * size.hRepeats) *
        surfaceWidthOf size + x]? = (maskData m size s.tiaHeight)[y * surfaceWidthOf size + x]?
    have hle : y * surfaceWidthOf size + x ≤
        (y + size.height * size.hRepeats) * surfaceWidthOf size + x :=
      Nat.add_le_add_right (Nat.mul_le_mul_right _ (Nat.le_add_right _ _)) _
    have h1 := (maskData_at m size hsz s.tiaHeight x _ hx hi).2
    have h2 := (maskData_at m size hsz s.tiaHeight x y hx (by omega)).2
    rw [Nat.add_mod_right] at h1
    rw [h1, h2]
  · intro hfit x y hx hy
    change x < surfaceWidthOf size at hx
    change y < surfaceHeightOf s.tiaHeight size at hy
    show y * surfaceWidthOf size + x < (maskData m size s.tiaHeight).length
    rw [(maskData_length_exact m size hsz s.tiaHeight hfit).2]
    exact index_lt_of_row_col x y _ _ hx hy

/-- Witness of C12 on `sample` with the MAME mask stored and TIA height 2. -/
theorem mask_texel_formula_witness :
    (sample.storeMask "mame").tiaHeight * 1920 < 4294967296 ∧
    ∃ (m : Nat) (size : PatternSize) (s1 : TIASurface), m < 4 ∧
      (sample.storeMask "mame").scanlineMaskType 0 = some ((m : Int), sample.storeMask "mame") ∧
      Sizes[m]? = some size ∧
      (sample.storeMask "mame").createScanlineSurface = some s1 ∧
      (∀ x y, x < s1.mySLineSurface.width →
        y * s1.mySLineSurface.width + x < s1.mySLineSurface.data.length →
        (s1.mySLineSurface.data[y * s1.mySLineSurface.width + x]?).isSome = true ∧
        s1.mySLineSurface.data[y * s1.mySLineSurface.width + x]? =
          patternLookup m (y % (size.height * size.hRepeats)) (x % size.width)) ∧
      (∀ x y, x < s1.mySLineSurface.width →
        (y + size.height * size.hRepeats) * s1.mySLineSurface.width + x <
          s1.mySLineSurface.data.length →
        s1.mySLineSurface.data[(y + size.height * size.hRepeats) *
            s1.mySLineSurface.width + x]? =
          s1.mySLineSurface.data[y * s1.mySLineSurface.width + x]?) ∧
      ((sample.storeMask "mame").tiaHeight * 1920 < 4294967296 →
        ∀ x y, x < s1.mySLineSurface.width → y < s1.mySLineSurface.height →
          y * s1.mySLineSurface.width + x < s1.mySLineSurface.data.length) :=
  ⟨by decide, mask_texel_formula (sample.storeMask "mame")⟩

/-! ## The loops of `render` as sequences of pixel statements -/

theorem iterPixels_append {σ : Type} (act : Nat → Nat → σ → Option σ)
    (l1 l2 : List (Nat × Nat)) : ∀ st : σ,
    iterPixels act (l1 ++ l2) st =
      match iterPixels act l1 st with
      | none => none
      | some st1 => iterPixels act l2 st1 := by
  induction l1 with
  | nil => intro st; rfl
  | cons bp l1 ih =>
    intro st
    simp only [List.cons_append, iterPixels]
    cases act bp.1 bp.2 st with
    | none => rfl
    | some st1 => exact ih st1

theorem scanRow_eq_iter {σ : Type} (act : Nat → Nat → σ → Option σ) (x : Nat) :
    ∀ (bufofs pos : Nat) (st : σ),
    scanRow act x bufofs pos st =
      match iterPixels act (rowVisits x bufofs pos) st with
      | none => none
      | some st1 => some (st1, bufofs + 2 * x) := by
  induction x with
  | zero => intro bufofs pos st; rfl
  | succ x ih =>
    intro bufofs pos st
    simp only [scanRow, rowVisits, iterPixels]
    cases act bufofs pos st with
    | none => rfl
    | some st1 =>
      simp only []
      cases act (bufofs + 1) (pos + 1) st1 with
      | none => rfl
      | some st2 =>
        simp only []
        rw [ih (bufofs + 2) (pos + 2) st2]
        have e : bufofs + 2 + 2 * x = bufofs + 2 * (x + 1) := by omega
        rw [e]

theorem scanRows_eq_iter {σ : Type} (act : Nat → Nat → σ → Option σ) (width outPitch y : Nat) :
    ∀ (bufofs screenofsY : Nat) (st : σ),
    scanRows act width outPitch y bufofs screenofsY st =
      iterPixels act (visits (width / 2) outPitch y bufofs screenofsY) st := by
  induction y with
  | zero => intro bufofs screenofsY st; rfl
  | succ y ih =>
    intro bufofs screenofsY st
    simp only [scanRows, visits]
    rw [scanRow_eq_iter, iterPixels_append]
    cases iterPixels act (rowVisits (width / 2) bufofs screenofsY) st with
    | none => rfl
    | some st1 => exact ih _ _ st1

theorem mem_rowVisits (x : Nat) : ∀ (bufofs pos : Nat) (bp : Nat × Nat),
    bp ∈ rowVisits x bufofs pos ↔ ∃ k, k < 2 * x ∧ bp = (bufofs + k, pos + k) := by
  induction x with
  | zero =>
    intro bufofs pos bp
    simp [rowVisits]
  | succ x ih =>
    intro bufofs pos bp
    simp only [rowVisits, List.mem_cons, ih]
    constructor
    · rintro (h | h | ⟨k, hk, h⟩)
      · exact ⟨0, by omega, by simpa using h⟩
      · exact ⟨1, by omega, h⟩
      · exact ⟨k + 2, by omega, by rw [h]; congr 1 <;> omega⟩
    · rintro ⟨k, hk, h⟩
      rcases Nat.lt_or_ge k 2 with h2 | h2
      · interval_cases k
        · left; simpa using h
        · right; left; exact h
      · right; right
        exact ⟨k - 2, by omega, by rw [h]; congr 1 <;> omega⟩

theorem mem_visits (n outPitch y : Nat) : ∀ (bufofs screenofsY : Nat) (bp : Nat × Nat),
    bp ∈ visits n outPitch y bufofs screenofsY ↔
      ∃ r k, r < y ∧ k < 2 * n ∧
        bp = (bufofs + r * (2 * n) + k, screenofsY + r * outPitch + k) := by
  induction y with
  | zero =>
    intro bufofs screenofsY bp
    simp [visits]
  | succ y ih =>
    intro bufofs screenofsY bp
    simp only [visits, List.mem_append, mem_rowVisits, ih]
    constructor
    · rintro (⟨k, hk, h⟩ | ⟨r, k, hr, hk, h⟩)
      · exact ⟨0, k, by omega, hk, by rw [h]; simp⟩
      · refine ⟨r + 1, k, by omega, hk, ?_⟩
        rw [h, Nat.add_mul, Nat.add_mul]
        congr 1 <;> omega
    · rintro ⟨r, k, hr, hk, h⟩
      cases r with
      | zero => left; exact ⟨k, hk, by rw [h]; simp⟩
      | succ r =>
        right
        refine ⟨r, k, by omega, hk, ?_⟩
        rw [h, Nat.add_mul, Nat.add_mul]
        congr 1 <;> omega

theorem rowVisits_sorted (x : Nat) : ∀ (bufofs pos : Nat),
    (rowVisits x bufofs pos).Pairwise visitLt := by
  induction x with
  | zero => intro bufofs pos; exact List.Pairwise.nil
  | succ x ih =>
    intro bufofs pos
    simp only [rowVisits, List.pairwise_cons, List.mem_cons, mem_rowVisits]
    refine ⟨?_, ?_, ih _ _⟩
    · rintro a (h | ⟨k, -, h⟩)
      · rw [h]; exact ⟨by simp, by simp⟩
      · rw [h]; exact ⟨by simp; omega, by simp; omega⟩
    · rintro a ⟨k, -, h⟩
      rw [h]; exact ⟨by simp; omega, by simp; omega⟩

theorem visits_sorted (n outPitch y : Nat) (hp : 2 * n ≤ outPitch) :
    ∀ (bufofs screenofsY : Nat), (visits n outPitch y bufofs screenofsY).Pairwise visitLt := by
  induction y with
  | zero => intro bufofs screenofsY; exact List.Pairwise.nil
  | succ y ih =>
    intro bufofs screenofsY
    simp only [visits, List.pairwise_append]
    refine ⟨rowVisits_sorted _ _ _, ih _ _, ?_⟩
    intro a ha b hb
    rw [mem_rowVisits] at ha
    rw [mem_visits] at hb
    obtain ⟨k, hk, rfl⟩ := ha
    obtain ⟨r, k', -, -, rfl⟩ := hb
    constructor
    · show bufofs + k < bufofs + 2 * n + r * (2 * n) + k'
      omega
    · show screenofsY + k < screenofsY + outPitch + r * outPitch + k'
      omega

/-- A sequence of pixel statements that each store a value computed from
`bufofs` alone, at increasing positions. -/
theorem iterPixels_store (act : Nat → Nat → List Nat → Option (List Nat))
    (src : Nat → Option Nat)
    (hact : ∀ b pos out, act b pos out =
      match src b with
      | none => none
      | some v => store out pos v)
    (l : List (Nat × Nat)) (hs : l.Pairwise visitLt) :
    ∀ out : List Nat, (∀ bp ∈ l, (src bp.1).isSome = true ∧ bp.2 < out.length) →
      ∃ out1, iterPixels act l out = some out1 ∧ out1.length = out.length ∧
        (∀ bp ∈ l, out1[bp.2]? = src bp.1) ∧
        (∀ j, (∀ bp ∈ l, bp.2 ≠ j) → out1[j]? = out[j]?) := by
  induction l with
  | nil =>
    intro out _
    exact ⟨out, rfl, rfl, fun bp h => (List.not_mem_nil _ h).elim, fun j _ => rfl⟩
  | cons a l ih =>
    intro out h
    rw [List.pairwise_cons] at hs
    obtain ⟨hsrc, hpos⟩ := h a (List.mem_cons_self _ _)
    obtain ⟨v, hv⟩ := Option.isSome_iff_exists.mp hsrc
    have hstep : act a.1 a.2 out = some (out.set a.2 v) := by
      rw [hact, hv]
      simp only [store, hpos, if_true]
    obtain ⟨out1, h1, h2, h3, h4⟩ := ih hs.2 (out.set a.2 v) (fun bp hbp => by
      rw [List.length_set]
      exact h bp (List.mem_cons_of_mem _ hbp))
    refine ⟨out1, ?_, ?_, ?_, ?_⟩
    · simp only [iterPixels, hstep]
      exact h1
    · rw [h2, List.length_set]
    · intro bp hbp
      rcases List.mem_cons.mp hbp with rfl | hbp
      · rw [h4 bp.2 (fun bp' hbp' => Nat.ne_of_gt (hs.1 bp' hbp').2),
          List.getElem?_set_self hpos, hv]
      · exact h3 bp hbp
    · intro j hj
      rw [h4 j (fun bp hbp => hj bp (List.mem_cons_of_mem _ hbp)),
        List.getElem?_set_ne (hj a (List.mem_cons_self _ _))]

/-- A sequence of the pixel statement of filter `Phosphor`, at increasing
offsets and positions. -/
theorem iterPixels_phosphor (g : Nat → Nat → Nat) (palette tiaIn : List Nat)
    (l : List (Nat × Nat)) (hs : l.Pairwise visitLt) :
    ∀ out rgb : List Nat,
      (∀ bp ∈ l, (colourAt palette tiaIn bp.1).isSome = true ∧ bp.1 < rgb.length ∧
        bp.2 < out.length) →
      ∃ out1 rgb1, iterPixels (phosphorPixel g palette tiaIn) l (out, rgb) = some (out1, rgb1) ∧
        out1.length = out.length ∧ rgb1.length = rgb.length ∧
        (∀ bp ∈ l, ∃ c p, colourAt palette tiaIn bp.1 = some c ∧ rgb[bp.1]? = some p ∧
          out1[bp.2]? = some (g c p) ∧ rgb1[bp.1]? = some (g c p)) ∧
        (∀ j, (∀ bp ∈ l, bp.2 ≠ j) → out1[j]? = out[j]?) ∧
        (∀ j, (∀ bp ∈ l, bp.1 ≠ j) → rgb1[j]? = rgb[j]?) := by
  induction l with
  | nil =>
    intro out rgb _
    exact ⟨out, rgb, rfl, rfl, rfl, fun bp h => (List.not_mem_nil _ h).elim,
      fun j _ => rfl, fun j _ => rfl⟩
  | cons a l ih =>
    intro out rgb h
    rw [List.pairwise_cons] at hs
    obtain ⟨hsrc, hb, hpos⟩ := h a (List.mem_cons_self _ _)
    obtain ⟨c, hc⟩ := Option.isSome_iff_exists.mp hsrc
    have hp : rgb[a.1]? = some rgb[a.1] := List.getElem?_eq_getElem hb
    have hstep : phosphorPixel g palette tiaIn a.1 a.2 (out, rgb) =
        some (out.set a.2 (g c rgb[a.1]), rgb.set a.1 (g c rgb[a.1])) := by
      unfold colourAt at hc
      unfold phosphorPixel
      cases hf : tiaIn[a.1]? with
      | none => rw [hf] at hc; cases hc
      | some b =>
        rw [hf] at hc
        simp only [] at hc
        simp only [hc, hp, store, hpos, hb, if_true]
    obtain ⟨out1, rgb1, h1, h2, h2', h3, h4, h5⟩ := ih hs.2 (out.set a.2 (g c rgb[a.1]))
      (rgb.set a.1 (g c rgb[a.1])) (fun bp hbp => by
        rw [List.length_set, List.length_set]
        exact h bp (List.mem_cons_of_mem _ hbp))
    refine ⟨out1, rgb1, ?_, ?_, ?_, ?_, ?_, ?_⟩
    · simp only [iterPixels, hstep]
      exact h1
    · rw [h2, List.length_set]
    · rw [h2', List.length_set]
    · intro bp hbp
      rcases List.mem_cons.mp hbp with rfl | hbp
      · refine ⟨c, rgb[bp.1], hc, hp, ?_, ?_⟩
        · rw [h4 bp.2 (fun bp' hbp' => Nat.ne_of_gt (hs.1 bp' hbp').2),
            List.getElem?_set_self hpos]
        · rw [h5 bp.1 (fun bp' hbp' => Nat.ne_of_gt (hs.1 bp' hbp').1),
            List.getElem?_set_self hb]
      · obtain ⟨c', p', e1, e2, e3, e4⟩ := h3 bp hbp
        refine ⟨c', p', e1, ?_, e3, e4⟩
        rw [← e2, List.getElem?_set_ne (Nat.ne_of_lt (hs.1 bp hbp).1)]
    · intro j hj
      rw [h4 j (fun bp hbp => hj bp (List.mem_cons_of_mem _ hbp)),
        List.getElem?_set_ne (hj a (List.mem_cons_self _ _))]
    · intro j hj
      rw [h5 j (fun bp hbp => hj bp (List.mem_cons_of_mem _ hbp)),
        List.getElem?_set_ne (hj a (List.mem_cons_self _ _))]

/-! ## Pixel production -/

theorem normalPixel_eq (palette tiaIn : List Nat) (b pos : Nat) (out : List Nat) :
    normalPixel palette tiaIn b pos out =
      match colourAt palette tiaIn b with
      | none => none
      | some v => store out pos v := by
  unfold normalPixel colourAt
  cases tiaIn[b]? with
  | none => rfl
  | some byte => rfl

theorem two_mul_half (w : Nat) (h : w % 2 = 0) : 2 * (w / 2) = w := by omega

/-- Every pair visited by the row loops of a fitting frame is inside the frame
buffer, has a colour, and is inside the TIA surface. -/
theorem visits_in_bounds (s : TIASurface) (hfit : s.frameFits) (bp : Nat × Nat)
    (hbp : bp ∈ visits (s.tiaWidth / 2) s.tiaPitch s.tiaHeight 0 0) :
    bp.1 < s.tiaWidth * s.tiaHeight ∧
    (colourAt s.myPalette s.tiaFrameBuffer bp.1).isSome = true ∧
    bp.2 < s.tiaPixels.length := by
  obtain ⟨hev, hwp, hfr, hpal, hout⟩ := hfit
  rw [mem_visits] at hbp
  obtain ⟨r, k, hr, hk, rfl⟩ := hbp
  rw [two_mul_half _ hev] at hk
  have h1 : 0 + r * (2 * (s.tiaWidth / 2)) + k < s.tiaWidth * s.tiaHeight := by
    rw [two_mul_half _ hev, Nat.zero_add]
    exact index_lt_of_row_col k r _ _ hk hr
  have h2 : 0 + r * s.tiaPitch + k < s.tiaPixels.length := by
    have := index_lt_of_row_col k r s.tiaPitch s.tiaHeight (by omega) hr
    rw [Nat.mul_comm s.tiaPitch] at this
    omega
  refine ⟨h1, ?_, h2⟩
  have hlt : 0 + r * (2 * (s.tiaWidth / 2)) + k < s.tiaFrameBuffer.length := by omega
  show (colourAt s.myPalette s.tiaFrameBuffer (0 + r * (2 * (s.tiaWidth / 2)) + k)).isSome = true
  unfold colourAt
  rw [List.getElem?_eq_getElem hlt]
  simp only []
  have hb := hpal _ (List.getElem_mem hlt)
  rw [List.getElem?_eq_getElem hb]
  rfl

/-- The pixel of column `x < width` of row `y < height` is visited, with
`bufofs = y * width + x` and `pos = y * pitch + x`. -/
theorem pixel_mem_visits (s : TIASurface) (hev : s.tiaWidth % 2 = 0) (x y : Nat)
    (hx : x < s.tiaWidth) (hy : y < s.tiaHeight) :
    (y * s.tiaWidth + x, y * s.tiaPitch + x) ∈
      visits (s.tiaWidth / 2) s.tiaPitch s.tiaHeight 0 0 := by
  rw [mem_visits]
  refine ⟨y, x, hy, by rw [two_mul_half _ hev]; exact hx, ?_⟩
  rw [two_mul_half _ hev, Nat.zero_add, Nat.zero_add]

/-- The pixel production of filter `Normal` on a fitting frame. -/
theorem producePixels_normal (c : Collaborators) (s : TIASurface)
    (hf : s.myFilter = Filter.Normal) (hfit : s.frameFits) :
    ∃ out : List Nat, s.producePixels c = some { s with tiaPixels := out } ∧
      out.length = s.tiaPixels.length ∧
      ∀ x y, x < s.tiaWidth → y < s.tiaHeight →
        (colourAt s.myPalette s.tiaFrameBuffer (y * s.tiaWidth + x)).isSome = true ∧
        out[y * s.tiaPitch + x]? =
          colourAt s.myPalette s.tiaFrameBuffer (y * s.tiaWidth + x) := by
  have hp : 2 * (s.tiaWidth / 2) ≤ s.tiaPitch := by
    rw [two_mul_half _ hfit.1]; exact hfit.2.1
  obtain ⟨out, h1, h2, h3, -⟩ := iterPixels_store (normalPixel s.myPalette s.tiaFrameBuffer)
    (colourAt s.myPalette s.tiaFrameBuffer) (normalPixel_eq _ _)
    (visits (s.tiaWidth / 2) s.tiaPitch s.tiaHeight 0 0) (visits_sorted _ _ _ hp 0 0)
    s.tiaPixels (fun bp hbp => (visits_in_bounds s hfit bp hbp).2)
  refine ⟨out, ?_, h2, ?_⟩
  · unfold TIASurface.producePixels
    rw [if_pos hf, scanRows_eq_iter, h1]
  · intro x y hx hy
    have hm := pixel_mem_visits s hfit.1 x y hx hy
    exact ⟨(visits_in_bounds s hfit _ hm).2.1, h3 _ hm⟩

theorem colourAt_eq_some (palette tiaIn : List Nat) (i col : Nat) :
    colourAt palette tiaIn i = some col ↔
      ∃ b, tiaIn[i]? = some b ∧ palette[b]? = some col := by
  unfold colourAt
  cases tiaIn[i]? with
  | none => simp
  | some b => simp

theorem renderFrame_of_producePixels (c : Collaborators) (s s1 : TIASurface) (shade : Bool)
    (h : s.producePixels c = some s1) :
    s.renderFrame c shade = some (s1.drawSurfaces shade) := by
  unfold TIASurface.renderFrame
  rw [h]

/-- The function `render` is `renderFrame` when no snapshot is pending. -/
theorem render_of_not_pending (c : Collaborators) (s : TIASurface) (shade : Bool)
    (h : s.mySaveSnapFlag = false) (s1 : TIASurface) (h1 : s.producePixels c = some s1)
    (hflag : s1.mySaveSnapFlag = s.mySaveSnapFlag) :
    s.render c shade = some (s1.drawSurfaces shade) := by
  unfold TIASurface.render
  rw [renderFrame_of_producePixels c s s1 shade h1]
  have : (s1.drawSurfaces shade).mySaveSnapFlag = false := by
    show s1.mySaveSnapFlag = false
    rw [hflag, h]
  simp only [this, Bool.false_eq_true, if_false]

theorem snapshotDraw_tiaPixels (s : TIASurface) : s.snapshotDraw.tiaPixels = s.tiaPixels := by
  unfold TIASurface.snapshotDraw
  split <;> rfl

/-- The pixels that `renderForSnapshot` leaves in filter `Normal` on a fitting
frame. -/
theorem renderForSnapshot_normal (c : Collaborators) (s : TIASurface)
    (hf : s.myFilter = Filter.Normal) (hfit : s.frameFits) :
    ∃ s1 : TIASurface, s.renderForSnapshot c = some s1 ∧
      ∀ x y, x < s.tiaWidth → y < s.tiaHeight →
        s1.tiaPixels[y * s.tiaPitch + x]? =
          colourAt s.myPalette s.tiaFrameBuffer (y * s.tiaWidth + x) := by
  obtain ⟨out, h1, -, h3⟩ := producePixels_normal c
    ({ s with mySaveSnapFlag := false } : TIASurface) hf hfit
  have h2 := renderFrame_of_producePixels c _ _ false h1
  have h4 : TIASurface.snapshotPixels c ({ s with mySaveSnapFlag := false } : TIASurface) =
      some ((({ ({ s with mySaveSnapFlag := false } : TIASurface) with tiaPixels := out } :
        TIASurface)).drawSurfaces false) := by
    unfold TIASurface.snapshotPixels
    rw [if_pos (Or.inl hf)]
    exact h2
  refine ⟨_, by unfold TIASurface.renderForSnapshot; rw [h4], ?_⟩
  intro x y hx hy
  rw [snapshotDraw_tiaPixels]
  exact (h3 x y hx hy).2

/-- The pixels that `render` leaves in filter `Normal` on a fitting frame,
whether or not a snapshot is pending. -/
theorem render_normal (c : Collaborators) (s : TIASurface) (shade : Bool)
    (hf : s.myFilter = Filter.Normal) (hfit : s.frameFits) :
    ∃ s1 : TIASurface, s.render c shade = some s1 ∧
      ∀ x y, x < s.tiaWidth → y < s.tiaHeight →
        (colourAt s.myPalette s.tiaFrameBuffer (y * s.tiaWidth + x)).isSome = true ∧
        s1.tiaPixels[y * s.tiaPitch + x]? =
          colourAt s.myPalette s.tiaFrameBuffer (y * s.tiaWidth + x) := by
  obtain ⟨out, h1, hlen, h3⟩ := producePixels_normal c s hf hfit
  have h2 := renderFrame_of_producePixels c _ _ shade h1
  unfold TIASurface.render
  rw [h2]
  simp only []
  by_cases hflag : s.mySaveSnapFlag = true
  · have e : (({ s with tiaPixels := out } : TIASurface).drawSurfaces shade).mySaveSnapFlag
        = true := hflag
    rw [if_pos e]
    by_cases hpng : c.pngSupport = true
    · rw [if_pos hpng]
      have hfit2 : TIASurface.frameFits
          { ({ (({ s with tiaPixels := out } : TIASurface).drawSurfaces shade) with
              mySaveSnapFlag := false } : TIASurface) with
            snapshots := (({ s with tiaPixels := out } : TIASurface).drawSurfaces
              shade).snapshots + 1 } := by
        refine ⟨hfit.1, hfit.2.1, hfit.2.2.1, hfit.2.2.2.1, ?_⟩
        show s.tiaHeight * s.tiaPitch ≤ out.length
        rw [hlen]
        exact hfit.2.2.2.2
      obtain ⟨s1, e1, e2⟩ := renderForSnapshot_normal c
        { ({ (({ s with tiaPixels := out } : TIASurface).drawSurfaces shade) with
              mySaveSnapFlag := false } : TIASurface) with
            snapshots := (({ s with tiaPixels := out } : TIASurface).drawSurfaces
              shade).snapshots + 1 } hf hfit2
      exact ⟨s1, e1, fun x y hx hy => ⟨(h3 x y hx hy).1, e2 x y hx hy⟩⟩
    · rw [if_neg hpng]
      exact ⟨_, rfl, h3⟩
  · have e : ¬ (({ s with tiaPixels := out } : TIASurface).drawSurfaces shade).mySaveSnapFlag
        = true := hflag
    rw [if_neg e]
    exact ⟨_, rfl, h3⟩

/-- C13: for every even frame width `w`, height `h`, pitch `>= w`, indexed frame
of at least `w * h` bytes that are palette indices, and TIA surface of
`h * pitch` pixels, `render` in filter `Normal` returns and has written
`out[y * pitch + x] = palette[frame[y * w + x]]` for all `x < w` and `y < h`
(with or without a pending snapshot); for the 2 x 1 frame `[0, 1]` with palette
`0 -> 0xFF0000, 1 -> 0x00FF00` the output is `[0xFF0000, 0x00FF00]`. -/
theorem render_normal_copies_palette :
    (∀ (c : Collaborators) (s : TIASurface) (shade : Bool),
      s.myFilter = Filter.Normal → s.frameFits →
      ∃ s1 : TIASurface, s.render c shade = some s1 ∧
        ∀ x y, x < s.tiaWidth → y < s.tiaHeight →
          ∃ b col, s.tiaFrameBuffer[y * s.tiaWidth + x]? = some b ∧
            s.myPalette[b]? = some col ∧
            s1.tiaPixels[y * s.tiaPitch + x]? = some col) ∧
    (twoByOne.render plainCollaborators false).map (fun s1 => s1.tiaPixels) =
      some [0xFF0000, 0x00FF00] := by
  refine ⟨?_, by decide⟩
  intro c s shade hf hfit
  obtain ⟨s1, h1, h2⟩ := render_normal c s shade hf hfit
  refine ⟨s1, h1, fun x y hx hy => ?_⟩
  obtain ⟨hsome, hpix⟩ := h2 x y hx hy
  obtain ⟨col, hcol⟩ := Option.isSome_iff_exists.mp hsome
  obtain ⟨b, hb, hc⟩ := (colourAt_eq_some _ _ _ _).mp hcol
  exact ⟨b, col, hb, hc, by rw [hpix, hcol]⟩

/-- Witness of C13 on the 2 x 1 scenario, with a snapshot pending and the shade
requested. -/
theorem render_normal_copies_palette_witness :
    ({ twoByOne with mySaveSnapFlag := true } : TIASurface).myFilter = Filter.Normal ∧
    ({ twoByOne with mySaveSnapFlag := true } : TIASurface).frameFits ∧
    ∃ s1 : TIASurface,
      ({ twoByOne with mySaveSnapFlag := true } : TIASurface).render plainCollaborators true
        = some s1 ∧
      ∀ x y, x < 2 → y < 1 →
        ∃ b col, [0, 1][y * 2 + x]? = some b ∧ [0xFF0000, 0x00FF00][b]? = some col ∧
          s1.tiaPixels[y * 2 + x]? = some col :=
  ⟨by decide, by decide,
   render_normal_copies_palette.1 plainCollaborators
     ({ twoByOne with mySaveSnapFlag := true } : TIASurface) true (by decide) (by decide)⟩

theorem visits_in_surface (s : TIASurface) (hev : s.tiaWidth % 2 = 0)
    (hwp : s.tiaWidth ≤ s.tiaPitch) (hout : s.tiaHeight * s.tiaPitch ≤ s.tiaPixels.length)
    (bp : Nat × Nat) (hbp : bp ∈ visits (s.tiaWidth / 2) s.tiaPitch s.tiaHeight 0 0) :
    bp.1 < s.tiaWidth * s.tiaHeight ∧ bp.2 < s.tiaPixels.length := by
  rw [mem_visits] at hbp
  obtain ⟨r, k, hr, hk, rfl⟩ := hbp
  rw [two_mul_half _ hev] at hk
  constructor
  · show 0 + r * (2 * (s.tiaWidth / 2)) + k < s.tiaWidth * s.tiaHeight
    rw [two_mul_half _ hev, Nat.zero_add]
    exact index_lt_of_row_col k r _ _ hk hr
  · show 0 + r * s.tiaPitch + k < s.tiaPixels.length
    have := index_lt_of_row_col k r s.tiaPitch s.tiaHeight (by omega) hr
    rw [Nat.mul_comm s.tiaPitch] at this
    omega

theorem not_visited_of_ge (s : TIASurface) (hev : s.tiaWidth % 2 = 0)
    (hwp : s.tiaWidth ≤ s.tiaPitch) (hout : s.tiaHeight * s.tiaPitch ≤ s.tiaPixels.length)
    (j : Nat) (hj : s.tiaWidth * s.tiaHeight ≤ j) :
    ∀ bp ∈ visits (s.tiaWidth / 2) s.tiaPitch s.tiaHeight 0 0, bp.1 ≠ j := by
  intro bp hbp
  have := (visits_in_surface s hev hwp hout bp hbp).1
  omega

theorem copy_n_eq (src dst : List Nat) (n : Nat) (h1 : n ≤ src.length) (h2 : n ≤ dst.length) :
    copy_n src n dst = some (src.take n ++ dst.drop n) := by
  unfold copy_n
  rw [if_pos ⟨h1, h2⟩]

/-- The copy that `render` makes before the update in the phosphor filters. -/
theorem pending_copy_eq (s : TIASurface) (n : Nat) (h1 : n ≤ s.myRGBFramebuffer.length)
    (h2 : n ≤ s.myPrevRGBFramebuffer.length) :
    (if s.mySaveSnapFlag then copy_n s.myRGBFramebuffer n s.myPrevRGBFramebuffer
      else some s.myPrevRGBFramebuffer) = some (s.prevAfterCopy n) := by
  unfold TIASurface.prevAfterCopy
  cases s.mySaveSnapFlag
  · rfl
  · simp only [if_true]
    exact copy_n_eq _ _ _ h1 h2

/-- The pixel production of filter `Phosphor` on a fitting frame with an
accumulation buffer of at least `width * height` entries. -/
theorem producePixels_phosphor (c : Collaborators) (s : TIASurface)
    (hf : s.myFilter = Filter.Phosphor) (hfit : s.frameFits)
    (hacc : s.tiaWidth * s.tiaHeight ≤ s.myRGBFramebuffer.length)
    (hprev : s.tiaWidth * s.tiaHeight ≤ s.myPrevRGBFramebuffer.length) :
    ∃ out rgb : List Nat,
      s.producePixels c = some { s with
        tiaPixels := out
        myRGBFramebuffer := rgb
        myPrevRGBFramebuffer := s.prevAfterCopy ((s.tiaWidth * s.tiaHeight) % 4294967296) } ∧
      out.length = s.tiaPixels.length ∧ rgb.length = s.myRGBFramebuffer.length ∧
      (∀ x y, x < s.tiaWidth → y < s.tiaHeight →
        ∃ col a, colourAt s.myPalette s.tiaFrameBuffer (y * s.tiaWidth + x) = some col ∧
          s.myRGBFramebuffer[y * s.tiaWidth + x]? = some a ∧
          out[y * s.tiaPitch + x]? = some (c.getPixel col a) ∧
          rgb[y * s.tiaWidth + x]? = some (c.getPixel col a)) ∧
      (∀ j, s.tiaWidth * s.tiaHeight ≤ j → rgb[j]? = s.myRGBFramebuffer[j]?) := by
  have hp : 2 * (s.tiaWidth / 2) ≤ s.tiaPitch := by
    rw [two_mul_half _ hfit.1]; exact hfit.2.1
  have hn : (s.tiaWidth * s.tiaHeight) % 4294967296 ≤ s.tiaWidth * s.tiaHeight :=
    Nat.mod_le _ _
  obtain ⟨out, rgb, h1, h2, h2', h3, -, h5⟩ := iterPixels_phosphor c.getPixel s.myPalette
    s.tiaFrameBuffer (visits (s.tiaWidth / 2) s.tiaPitch s.tiaHeight 0 0)
    (visits_sorted _ _ _ hp 0 0) s.tiaPixels s.myRGBFramebuffer (fun bp hbp => by
      obtain ⟨e1, e2, e3⟩ := visits_in_bounds s hfit bp hbp
      exact ⟨e2, by omega, e3⟩)
  refine ⟨out, rgb, ?_, h2, h2', ?_, ?_⟩
  · unfold TIASurface.producePixels
    have hne : ¬ s.myFilter = Filter.Normal := by rw [hf]; decide
    rw [if_neg hne, if_pos hf, pending_copy_eq s _ (by omega) (by omega), scanRows_eq_iter, h1]
  · intro x y hx hy
    exact h3 _ (pixel_mem_visits s hfit.1 x y hx hy)
  · intro j hj
    exact h5 j (not_visited_of_ge s hfit.1 hfit.2.1 hfit.2.2.2.2 j hj)

/-! ## Averaging for the snapshot -/

theorem pack_eq (r g b : Nat) (hg : g < 256) (hb : b < 256) :
    (r <<< 16) ||| (g <<< 8) ||| b = r * 65536 + g * 256 + b := by
  have h1 : (r <<< 16) ||| (g <<< 8) = 2 ^ 16 * r + g * 256 := by
    rw [Nat.shiftLeft_eq, Nat.shiftLeft_eq, Nat.mul_comm r (2 ^ 16)]
    exact (Nat.mul_add_lt_is_or (by omega) r).symm
  have h2 : 2 ^ 16 * r + g * 256 = 2 ^ 8 * (256 * r + g) := by omega
  rw [h1, h2, ← Nat.mul_add_lt_is_or (by omega) (256 * r + g)]
  omega

theorem chan_lt (c : Nat) : chanR c < 256 ∧ chanG c < 256 ∧ chanB c < 256 := by
  unfold chanR chanG chanB
  omega

/-- The channels of an averaged pixel are the means of the channels, rounded
down, and its top byte is 0. -/
theorem averageOf_channels (c p : Nat) :
    chanR (averageOf c p) = (chanR c + chanR p) / 2 ∧
    chanG (averageOf c p) = (chanG c + chanG p) / 2 ∧
    chanB (averageOf c p) = (chanB c + chanB p) / 2 ∧
    averageOf c p < 16777216 := by
  obtain ⟨hr, hg, hb⟩ := chan_lt c
  obtain ⟨hr', hg', hb'⟩ := chan_lt p
  have e : averageOf c p = ((chanR c + chanR p) / 2) * 65536 + ((chanG c + chanG p) / 2) * 256 +
      (chanB c + chanB p) / 2 := by
    unfold averageOf
    rw [Nat.mod_eq_of_lt (by omega : (chanR c + chanR p) / 2 < 256),
      Nat.mod_eq_of_lt (by omega : (chanG c + chanG p) / 2 < 256),
      Nat.mod_eq_of_lt (by omega : (chanB c + chanB p) / 2 < 256)]
    exact pack_eq _ _ _ (by omega) (by omega)
  have ha : (chanR c + chanR p) / 2 < 256 := by omega
  have hb2 : (chanG c + chanG p) / 2 < 256 := by omega
  have hd : (chanB c + chanB p) / 2 < 256 := by omega
  generalize (chanR c + chanR p) / 2 = a at e ha ⊢
  generalize (chanG c + chanG p) / 2 = g at e hb2 ⊢
  generalize (chanB c + chanB p) / 2 = d at e hd ⊢
  rw [e]
  unfold chanR chanG chanB
  rw [Nat.shiftRight_eq_div_pow, Nat.shiftRight_eq_div_pow]
  refine ⟨?_, ?_, ?_, ?_⟩ <;> omega

theorem averageBuffers_eq (rgb prev : List Nat) (i c p : Nat) (hc : rgb[i]? = some c)
    (hp : prev[i]? = some p) : averageBuffers rgb prev i = some (averageOf c p) := by
  unfold averageBuffers
  rw [hc, hp]
  rfl

theorem averageOf_isChannelMean (c p : Nat) : isChannelMean c p (averageOf c p) := by
  obtain ⟨h1, h2, h3, h4⟩ := averageOf_channels c p
  refine ⟨h1, h2, h3, ?_⟩
  rw [Nat.shiftRight_eq_div_pow]
  exact Nat.div_eq_of_lt h4

theorem runPixels_eq_iter {σ : Type} (act : Nat → Nat → σ → Option σ) (x : Nat) :
    ∀ (bufofs pos : Nat) (st : σ),
    runPixels act x bufofs pos st =
      match iterPixels act (runVisits x bufofs pos) st with
      | none => none
      | some st1 => some (st1, bufofs + x, pos + x) := by
  induction x with
  | zero => intro bufofs pos st; rfl
  | succ x ih =>
    intro bufofs pos st
    simp only [runPixels, runVisits, iterPixels]
    cases act bufofs pos st with
    | none => rfl
    | some st1 =>
      simp only []
      rw [ih (bufofs + 1) (pos + 1) st1]
      have e1 : bufofs + 1 + x = bufofs + (x + 1) := by omega
      have e2 : pos + 1 + x = pos + (x + 1) := by omega
      rw [e1, e2]

theorem runLines_eq_iter {σ : Type} (act : Nat → Nat → σ → Option σ) (outPitch y : Nat) :
    ∀ (bufofs pos : Nat) (st : σ),
    runLines act outPitch y bufofs pos st =
      iterPixels act (lineVisits outPitch y bufofs pos) st := by
  induction y with
  | zero => intro bufofs pos st; rfl
  | succ y ih =>
    intro bufofs pos st
    simp only [runLines, lineVisits]
    rw [runPixels_eq_iter, iterPixels_append]
    cases iterPixels act (runVisits outPitch bufofs pos) st with
    | none => rfl
    | some st1 => exact ih _ _ st1

theorem mem_runVisits (x : Nat) : ∀ (bufofs pos : Nat) (bp : Nat × Nat),
    bp ∈ runVisits x bufofs pos ↔ ∃ k, k < x ∧ bp = (bufofs + k, pos + k) := by
  induction x with
  | zero =>
    intro bufofs pos bp
    simp [runVisits]
  | succ x ih =>
    intro bufofs pos bp
    simp only [runVisits, List.mem_cons, ih]
    constructor
    · rintro (h | ⟨k, hk, h⟩)
      · exact ⟨0, by omega, by simpa using h⟩
      · exact ⟨k + 1, by omega, by rw [h]; congr 1 <;> omega⟩
    · rintro ⟨k, hk, h⟩
      cases k with
      | zero => left; simpa using h
      | succ k => right; exact ⟨k, by omega, by rw [h]; congr 1 <;> omega⟩

theorem mem_lineVisits (outPitch y : Nat) : ∀ (bufofs pos : Nat) (bp : Nat × Nat),
    bp ∈ lineVisits outPitch y bufofs pos ↔
      ∃ i, i < y * outPitch ∧ bp = (bufofs + i, pos + i) := by
  induction y with
  | zero =>
    intro bufofs pos bp
    simp [lineVisits]
  | succ y ih =>
    intro bufofs pos bp
    simp only [lineVisits, List.mem_append, mem_runVisits, ih]
    have e : (y + 1) * outPitch = y * outPitch + outPitch := by
      rw [Nat.add_mul, Nat.one_mul]
    constructor
    · rintro (⟨k, hk, h⟩ | ⟨i, hi, h⟩)
      · exact ⟨k, by omega, h⟩
      · exact ⟨outPitch + i, by omega, by rw [h]; congr 1 <;> omega⟩
    · rintro ⟨i, hi, h⟩
      rcases Nat.lt_or_ge i outPitch with h2 | h2
      · left; exact ⟨i, h2, h⟩
      · right; exact ⟨i - outPitch, by omega, by rw [h]; congr 1 <;> omega⟩

theorem runVisits_sorted (x : Nat) : ∀ (bufofs pos : Nat),
    (runVisits x bufofs pos).Pairwise visitLt := by
  induction x with
  | zero => intro bufofs pos; exact List.Pairwise.nil
  | succ x ih =>
    intro bufofs pos
    simp only [runVisits, List.pairwise_cons, mem_runVisits]
    refine ⟨?_, ih _ _⟩
    rintro a ⟨k, -, h⟩
    rw [h]; exact ⟨by simp; omega, by simp; omega⟩

theorem lineVisits_sorted (outPitch y : Nat) : ∀ (bufofs pos : Nat),
    (lineVisits outPitch y bufofs pos).Pairwise visitLt := by
  induction y with
  | zero => intro bufofs pos; exact List.Pairwise.nil
  | succ y ih =>
    intro bufofs pos
    simp only [lineVisits, List.pairwise_append]
    refine ⟨runVisits_sorted _ _ _, ih _ _, ?_⟩
    intro a ha b hb
    rw [mem_runVisits] at ha
    rw [mem_lineVisits] at hb
    obtain ⟨k, hk, rfl⟩ := ha
    obtain ⟨i, -, rfl⟩ := hb
    constructor
    · show bufofs + k < bufofs + outPitch + i
      omega
    · show pos + k < pos + outPitch + i
      omega

theorem averagePixel_eq (rgb prev : List Nat) (b pos : Nat) (out : List Nat) :
    averagePixel rgb prev b pos out =
      match averageBuffers rgb prev b with
      | none => none
      | some v => store out pos v := rfl

theorem averageBuffers_of_lt (rgb prev : List Nat) (i : Nat) (h1 : i < rgb.length)
    (h2 : i < prev.length) :
    ∃ cur prv, rgb[i]? = some cur ∧ prev[i]? = some prv ∧
      averageBuffers rgb prev i = some (averageOf cur prv) :=
  ⟨rgb[i], prev[i], List.getElem?_eq_getElem h1, List.getElem?_eq_getElem h2,
    averageBuffers_eq rgb prev i _ _ (List.getElem?_eq_getElem h1) (List.getElem?_eq_getElem h2)⟩

/-- The switch of `renderForSnapshot` in filter `Phosphor`: every pixel of the
frame is written with the average of the two buffers. -/
theorem snapshotPixels_phosphor (c : Collaborators) (s : TIASurface)
    (hf : s.myFilter = Filter.Phosphor) (hev : s.tiaWidth % 2 = 0)
    (hwp : s.tiaWidth ≤ s.tiaPitch) (hout : s.tiaHeight * s.tiaPitch ≤ s.tiaPixels.length)
    (hacc : s.tiaWidth * s.tiaHeight ≤ s.myRGBFramebuffer.length)
    (hprev : s.tiaWidth * s.tiaHeight ≤ s.myPrevRGBFramebuffer.length) :
    ∃ out : List Nat, s.snapshotPixels c = some { s with tiaPixels := out } ∧
      out.length = s.tiaPixels.length ∧
      ∀ x y, x < s.tiaWidth → y < s.tiaHeight →
        ∃ cur prv, s.myRGBFramebuffer[y * s.tiaWidth + x]? = some cur ∧
          s.myPrevRGBFramebuffer[y * s.tiaWidth + x]? = some prv ∧
          out[y * s.tiaPitch + x]? = some (averageOf cur prv) := by
  have hp : 2 * (s.tiaWidth / 2) ≤ s.tiaPitch := by
    rw [two_mul_half _ hev]; exact hwp
  obtain ⟨out, h1, h2, h3, -⟩ := iterPixels_store
    (averagePixel s.myRGBFramebuffer s.myPrevRGBFramebuffer)
    (averageBuffers s.myRGBFramebuffer s.myPrevRGBFramebuffer) (averagePixel_eq _ _)
    (visits (s.tiaWidth / 2) s.tiaPitch s.tiaHeight 0 0) (visits_sorted _ _ _ hp 0 0)
    s.tiaPixels (fun bp hbp => by
      obtain ⟨e1, e2⟩ := visits_in_surface s hev hwp hout bp hbp
      obtain ⟨cur, prv, -, -, e⟩ := averageBuffers_of_lt s.myRGBFramebuffer
        s.myPrevRGBFramebuffer bp.1 (by omega) (by omega)
      exact ⟨by rw [e]; rfl, e2⟩)
  refine ⟨out, ?_, h2, ?_⟩
  · unfold TIASurface.snapshotPixels
    have hne : ¬ (s.myFilter = Filter.Normal ∨ s.myFilter = Filter.BlarggNormal) := by
      rw [hf]; decide
    rw [if_neg hne, if_pos hf, scanRows_eq_iter, h1]
  · intro x y hx hy
    have hm := pixel_mem_visits s hev x y hx hy
    have hlt := (visits_in_surface s hev hwp hout _ hm).1
    obtain ⟨cur, prv, e1, e2, e⟩ := averageBuffers_of_lt s.myRGBFramebuffer
      s.myPrevRGBFramebuffer (y * s.tiaWidth + x) (by omega) (by omega)
    exact ⟨cur, prv, e1, e2, by rw [h3 _ hm, e]⟩

/-- The switch of `renderForSnapshot` in filter `BlarggPhosphor`: the first
`height * pitch` pixels are written with the average of the two buffers. -/
theorem snapshotPixels_blarggPhosphor (c : Collaborators) (s : TIASurface)
    (hf : s.myFilter = Filter.BlarggPhosphor)
    (hout : s.tiaHeight * s.tiaPitch ≤ s.tiaPixels.length)
    (hacc : s.tiaHeight * s.tiaPitch ≤ s.myRGBFramebuffer.length)
    (hprev : s.tiaHeight * s.tiaPitch ≤ s.myPrevRGBFramebuffer.length) :
    ∃ out : List Nat, s.snapshotPixels c = some { s with tiaPixels := out } ∧
      out.length = s.tiaPixels.length ∧
      ∀ i, i < s.tiaHeight * s.tiaPitch →
        ∃ cur prv, s.myRGBFramebuffer[i]? = some cur ∧
          s.myPrevRGBFramebuffer[i]? = some prv ∧
          out[i]? = some (averageOf cur prv) := by
  have hb : ∀ bp ∈ lineVisits s.tiaPitch s.tiaHeight 0 0,
      bp.1 < s.tiaHeight * s.tiaPitch ∧ bp.2 < s.tiaHeight * s.tiaPitch := by
    intro bp hbp
    rw [mem_lineVisits] at hbp
    obtain ⟨i, hi, rfl⟩ := hbp
    exact ⟨by show 0 + i < _; omega, by show 0 + i < _; omega⟩
  obtain ⟨out, h1, h2, h3, -⟩ := iterPixels_store
    (averagePixel s.myRGBFramebuffer s.myPrevRGBFramebuffer)
    (averageBuffers s.myRGBFramebuffer s.myPrevRGBFramebuffer) (averagePixel_eq _ _)
    (lineVisits s.tiaPitch s.tiaHeight 0 0) (lineVisits_sorted _ _ 0 0)
    s.tiaPixels (fun bp hbp => by
      obtain ⟨e1, e2⟩ := hb bp hbp
      obtain ⟨cur, prv, -, -, e⟩ := averageBuffers_of_lt s.myRGBFramebuffer
        s.myPrevRGBFramebuffer bp.1 (by omega) (by omega)
      exact ⟨by rw [e]; rfl, by omega⟩)
  refine ⟨out, ?_, h2, ?_⟩
  · unfold TIASurface.snapshotPixels
    have hne : ¬ (s.myFilter = Filter.Normal ∨ s.myFilter = Filter.BlarggNormal) := by
      rw [hf]; decide
    have hne2 : ¬ s.myFilter = Filter.Phosphor := by rw [hf]; decide
    rw [if_neg hne, if_neg hne2, if_pos hf, runLines_eq_iter, h1]
  · intro i hi
    have hm : (i, i) ∈ lineVisits s.tiaPitch s.tiaHeight 0 0 := by
      rw [mem_lineVisits]
      exact ⟨i, hi, by simp⟩
    obtain ⟨cur, prv, e1, e2, e⟩ := averageBuffers_of_lt s.myRGBFramebuffer
      s.myPrevRGBFramebuffer i (by omega) (by omega)
    exact ⟨cur, prv, e1, e2, by rw [h3 _ hm, e]⟩

/-! ## The function `render` -/

theorem render_pending (c : Collaborators) (s s1 : TIASurface) (shade : Bool)
    (h1 : s.renderFrame c shade = some s1) (hflag : s1.mySaveSnapFlag = true)
    (hpng : c.pngSupport = true) :
    s.render c shade =
      match s1.forSnapshot.snapshotPixels c with
      | none => none
      | some s2 => some s2.snapshotDraw := by
  unfold TIASurface.render
  rw [h1]
  simp only [hflag, hpng, if_true]
  rfl

theorem render_pending_no_png (c : Collaborators) (s s1 : TIASurface) (shade : Bool)
    (h1 : s.renderFrame c shade = some s1) (hflag : s1.mySaveSnapFlag = true)
    (hpng : c.pngSupport = false) :
    s.render c shade = some { s1 with mySaveSnapFlag := false } := by
  unfold TIASurface.render
  rw [h1]
  simp only [hflag, hpng, if_true, Bool.false_eq_true, if_false]

theorem render_not_pending (c : Collaborators) (s s1 : TIASurface) (shade : Bool)
    (h1 : s.renderFrame c shade = some s1) (hflag : s1.mySaveSnapFlag = false) :
    s.render c shade = some s1 := by
  unfold TIASurface.render
  rw [h1]
  simp only [hflag, Bool.false_eq_true, if_false]

theorem snapshotDraw_rgb (s : TIASurface) :
    s.snapshotDraw.myRGBFramebuffer = s.myRGBFramebuffer := by
  unfold TIASurface.snapshotDraw
  split <;> rfl

theorem snapshotDraw_prev (s : TIASurface) :
    s.snapshotDraw.myPrevRGBFramebuffer = s.myPrevRGBFramebuffer := by
  unfold TIASurface.snapshotDraw
  split <;> rfl

theorem prevAfterCopy_length (s : TIASurface) (n : Nat) (h1 : n ≤ s.myRGBFramebuffer.length)
    (h2 : n ≤ s.myPrevRGBFramebuffer.length) :
    (s.prevAfterCopy n).length = s.myPrevRGBFramebuffer.length := by
  unfold TIASurface.prevAfterCopy
  split
  · rw [List.length_append, List.length_take, List.length_drop]
    omega
  · rfl

/-- C14: for every even frame width `w`, height `h`, pitch `>= w`, frame of
palette indices, TIA surface of `h * pitch` pixels and accumulation buffer `A`
(the two buffers holding at least `w * h` entries), `render` in filter
`Phosphor` returns. In the state `s1` it has produced when it reaches its last
statement, and which it returns when no snapshot is pending, for all `x < w` and
`y < h`: `A'[y * w + x] = out[y * pitch + x] =
getPixel(palette[frame[y * w + x]], A[y * w + x])`, and the entries of `A'` at
indices `>= w * h` are those of `A`. The state `s2` it returns holds the same
accumulation buffer `A'` in every case. -/
theorem render_phosphor_blends (c : Collaborators) (s : TIASurface) (shade : Bool)
    (hf : s.myFilter = Filter.Phosphor) (hfit : s.frameFits)
    (hacc : s.tiaWidth * s.tiaHeight ≤ s.myRGBFramebuffer.length)
    (hprev : s.tiaWidth * s.tiaHeight ≤ s.myPrevRGBFramebuffer.length) :
    ∃ s1 s2 : TIASurface, s.renderFrame c shade = some s1 ∧ s.render c shade = some s2 ∧
      s2.myRGBFramebuffer = s1.myRGBFramebuffer ∧
      (s.mySaveSnapFlag = false → s2 = s1) ∧
      (∀ x y, x < s.tiaWidth → y < s.tiaHeight →
        ∃ b col a, s.tiaFrameBuffer[y * s.tiaWidth + x]? = some b ∧
          s.myPalette[b]? = some col ∧
          s.myRGBFramebuffer[y * s.tiaWidth + x]? = some a ∧
          s1.myRGBFramebuffer[y * s.tiaWidth + x]? = some (c.getPixel col a) ∧
          s1.tiaPixels[y * s.tiaPitch + x]? = some (c.getPixel col a)) ∧
      (∀ j, s.tiaWidth * s.tiaHeight ≤ j →
        s1.myRGBFramebuffer[j]? = s.myRGBFramebuffer[j]?) := by
  have hn : (s.tiaWidth * s.tiaHeight) % 4294967296 ≤ s.tiaWidth * s.tiaHeight :=
    Nat.mod_le _ _
  obtain ⟨out, rgb, h1, h2, h2', h3, h5⟩ := producePixels_phosphor c s hf hfit hacc hprev
  have hframe := renderFrame_of_producePixels c _ _ shade h1
  have hpix : ∀ x y, x < s.tiaWidth → y < s.tiaHeight →
      ∃ b col a, s.tiaFrameBuffer[y * s.tiaWidth + x]? = some b ∧
        s.myPalette[b]? = some col ∧
        s.myRGBFramebuffer[y * s.tiaWidth + x]? = some a ∧
        rgb[y * s.tiaWidth + x]? = some (c.getPixel col a) ∧
        out[y * s.tiaPitch + x]? = some (c.getPixel col a) := by
    intro x y hx hy
    obtain ⟨col, a, e1, e2, e3, e4⟩ := h3 x y hx hy
    obtain ⟨b, hb, hc⟩ := (colourAt_eq_some _ _ _ _).mp e1
    exact ⟨b, col, a, hb, hc, e2, e4, e3⟩
  by_cases hflag : s.mySaveSnapFlag = true
  · by_cases hpng : c.pngSupport = true
    · have hr := render_pending c s _ shade hframe hflag hpng
      obtain ⟨out2, e1, -, -⟩ := snapshotPixels_phosphor c
        (({ s with
            tiaPixels := out
            myRGBFramebuffer := rgb
            myPrevRGBFramebuffer :=
              s.prevAfterCopy ((s.tiaWidth * s.tiaHeight) % 4294967296) } :
          TIASurface).drawSurfaces shade).forSnapshot hf hfit.1 hfit.2.1
        (by show s.tiaHeight * s.tiaPitch ≤ out.length; rw [h2]; exact hfit.2.2.2.2)
        (by show s.tiaWidth * s.tiaHeight ≤ rgb.length; rw [h2']; exact hacc)
        (by
          show s.tiaWidth * s.tiaHeight ≤
            (s.prevAfterCopy ((s.tiaWidth * s.tiaHeight) % 4294967296)).length
          rw [prevAfterCopy_length s _ (by omega) (by omega)]
          exact hprev)
      rw [e1] at hr
      refine ⟨_, _, hframe, hr, ?_, ?_, hpix, h5⟩
      · rw [snapshotDraw_rgb]
        rfl
      · intro hnot
        rw [hnot] at hflag
        cases hflag
    · have hpng' : c.pngSupport = false := by
        cases h : c.pngSupport
        · rfl
        · exact absurd h hpng
      refine ⟨_, _, hframe, render_pending_no_png c s _ shade hframe hflag hpng', rfl, ?_,
        hpix, h5⟩
      intro hnot
      rw [hnot] at hflag
      cases hflag
  · have hflag' : s.mySaveSnapFlag = false := by
      cases h : s.mySaveSnapFlag
      · rfl
      · exact absurd h hflag
    exact ⟨_, _, hframe, render_not_pending c s _ shade hframe hflag', rfl, fun _ => rfl,
      hpix, h5⟩

/-- Witness of C14 on `phosphorSample`, with no snapshot pending. -/
theorem render_phosphor_blends_witness :
    phosphorSample.myFilter = Filter.Phosphor ∧ phosphorSample.frameFits ∧
    ∃ s1 s2 : TIASurface, phosphorSample.renderFrame plainCollaborators false = some s1 ∧
      phosphorSample.render plainCollaborators false = some s2 ∧
      s2.myRGBFramebuffer = s1.myRGBFramebuffer ∧
      (phosphorSample.mySaveSnapFlag = false → s2 = s1) ∧
      (∀ x y, x < phosphorSample.tiaWidth → y < phosphorSample.tiaHeight →
        ∃ b col a, phosphorSample.tiaFrameBuffer[y * phosphorSample.tiaWidth + x]? = some b ∧
          phosphorSample.myPalette[b]? = some col ∧
          phosphorSample.myRGBFramebuffer[y * phosphorSample.tiaWidth + x]? = some a ∧
          s1.myRGBFramebuffer[y * phosphorSample.tiaWidth + x]? =
            some (plainCollaborators.getPixel col a) ∧
          s1.tiaPixels[y * phosphorSample.tiaPitch + x]? =
            some (plainCollaborators.getPixel col a)) ∧
      (∀ j, phosphorSample.tiaWidth * phosphorSample.tiaHeight ≤ j →
        s1.myRGBFramebuffer[j]? = phosphorSample.myRGBFramebuffer[j]?) :=
  ⟨by decide, by decide,
   render_phosphor_blends plainCollaborators phosphorSample false (by decide) (by decide)
     (by decide) (by decide)⟩

theorem renderForSnapshot_of_snapshotPixels (c : Collaborators) (s s1 : TIASurface)
    (h : TIASurface.snapshotPixels c { s with mySaveSnapFlag := false } = some s1) :
    s.renderForSnapshot c = some s1.snapshotDraw := by
  unfold TIASurface.renderForSnapshot
  rw [h]

/-- C17: in the phosphor filters `renderForSnapshot` returns and has written the
50:50 per-channel mean of the current and the previous accumulation buffer:
each of the R, G and B channels of a written pixel is
`floor((current channel + previous channel) / 2)` and its top byte is 0. In
filter `Phosphor` with even width `w <= pitch` the pixel at `y * pitch + x`,
for `x < w` and `y < h`, is the mean of the entries `y * w + x`; in filter
`BlarggPhosphor` the pixel at `i < h * pitch` is the mean of the entries `i`.
The buffers hold at least the entries that are read and written. -/
theorem renderForSnapshot_averages :
    (∀ (c : Collaborators) (s : TIASurface), s.myFilter = Filter.Phosphor →
      s.tiaWidth % 2 = 0 → s.tiaWidth ≤ s.tiaPitch →
      s.tiaHeight * s.tiaPitch ≤ s.tiaPixels.length →
      s.tiaWidth * s.tiaHeight ≤ s.myRGBFramebuffer.length →
      s.tiaWidth * s.tiaHeight ≤ s.myPrevRGBFramebuffer.length →
      ∃ s1 : TIASurface, s.renderForSnapshot c = some s1 ∧
        ∀ x y, x < s.tiaWidth → y < s.tiaHeight →
          ∃ cur prv v, s.myRGBFramebuffer[y * s.tiaWidth + x]? = some cur ∧
            s.myPrevRGBFramebuffer[y * s.tiaWidth + x]? = some prv ∧
            s1.tiaPixels[y * s.tiaPitch + x]? = some v ∧ isChannelMean cur prv v) ∧
    (∀ (c : Collaborators) (s : TIASurface), s.myFilter = Filter.BlarggPhosphor →
      s.tiaHeight * s.tiaPitch ≤ s.tiaPixels.length →
      s.tiaHeight * s.tiaPitch ≤ s.myRGBFramebuffer.length →
      s.tiaHeight * s.tiaPitch ≤ s.myPrevRGBFramebuffer.length →
      ∃ s1 : TIASurface, s.renderForSnapshot c = some s1 ∧
        ∀ i, i < s.tiaHeight * s.tiaPitch →
          ∃ cur prv v, s.myRGBFramebuffer[i]? = some cur ∧
            s.myPrevRGBFramebuffer[i]? = some prv ∧
            s1.tiaPixels[i]? = some v ∧ isChannelMean cur prv v) := by
  constructor
  · intro c s hf hev hwp hout hacc hprev
    obtain ⟨out, h1, -, h3⟩ := snapshotPixels_phosphor c
      ({ s with mySaveSnapFlag := false } : TIASurface) hf hev hwp hout hacc hprev
    refine ⟨_, renderForSnapshot_of_snapshotPixels c s _ h1, ?_⟩
    intro x y hx hy
    obtain ⟨cur, prv, e1, e2, e3⟩ := h3 x y hx hy
    refine ⟨cur, prv, averageOf cur prv, e1, e2, ?_, averageOf_isChannelMean cur prv⟩
    rw [snapshotDraw_tiaPixels]
    exact e3
  · intro c s hf hout hacc hprev
    obtain ⟨out, h1, -, h3⟩ := snapshotPixels_blarggPhosphor c
      ({ s with mySaveSnapFlag := false } : TIASurface) hf hout hacc hprev
    refine ⟨_, renderForSnapshot_of_snapshotPixels c s _ h1, ?_⟩
    intro i hi
    obtain ⟨cur, prv, e1, e2, e3⟩ := h3 i hi
    refine ⟨cur, prv, averageOf cur prv, e1, e2, ?_, averageOf_isChannelMean cur prv⟩
    rw [snapshotDraw_tiaPixels]
    exact e3

/-- Witness of C17 on `phosphorSample` and `blarggSample`; the mean of
`0xFFFFFF` and `7` is `0x7F7F83`. -/
theorem renderForSnapshot_averages_witness :
    (∃ s1 : TIASurface, phosphorSample.renderForSnapshot plainCollaborators = some s1 ∧
      ∀ x y, x < phosphorSample.tiaWidth → y < phosphorSample.tiaHeight →
        ∃ cur prv v, phosphorSample.myRGBFramebuffer[y * phosphorSample.tiaWidth + x]? = some cur ∧
          phosphorSample.myPrevRGBFramebuffer[y * phosphorSample.tiaWidth + x]? = some prv ∧
          s1.tiaPixels[y * phosphorSample.tiaPitch + x]? = some v ∧ isChannelMean cur prv v) ∧
    (∃ s1 : TIASurface, blarggSample.renderForSnapshot plainCollaborators = some s1 ∧
      ∀ i, i < blarggSample.tiaHeight * blarggSample.tiaPitch →
        ∃ cur prv v, blarggSample.myRGBFramebuffer[i]? = some cur ∧
          blarggSample.myPrevRGBFramebuffer[i]? = some prv ∧
          s1.tiaPixels[i]? = some v ∧ isChannelMean cur prv v) ∧
    averageOf 0xFFFFFF 7 = 0x7F7F83 :=
  ⟨renderForSnapshot_averages.1 plainCollaborators phosphorSample (by decide) (by decide)
      (by decide) (by decide) (by decide) (by decide),
   renderForSnapshot_averages.2 plainCollaborators blarggSample (by decide) (by decide)
      (by decide) (by decide),
   by decide⟩

/-! ## What `render` and `renderForSnapshot` leave unchanged -/

theorem pending_copy_some (s : TIASurface) (n : Nat) (p : List Nat)
    (h : (if s.mySaveSnapFlag then copy_n s.myRGBFramebuffer n s.myPrevRGBFramebuffer
      else some s.myPrevRGBFramebuffer) = some p) :
    p = s.prevAfterCopy n ∧
      (s.mySaveSnapFlag = true → n ≤ s.myRGBFramebuffer.length ∧
        n ≤ s.myPrevRGBFramebuffer.length) := by
  unfold TIASurface.prevAfterCopy
  cases hflag : s.mySaveSnapFlag
  · rw [hflag] at h
    simp only [Bool.false_eq_true, if_false, Option.some.injEq] at h
    exact ⟨h.symm, fun e => by cases e⟩
  · rw [hflag] at h
    simp only [if_true] at h
    unfold copy_n at h
    split at h
    · next hb =>
      simp only [Option.some.injEq] at h
      exact ⟨by simp only [if_true]; exact h.symm, fun _ => hb⟩
    · cases h

/-- The state that the pixel production of `render` returns: the pixels, the
accumulation buffer and the previous buffer are the only fields that change,
and the previous buffer is `prevAfterProduce`. -/
theorem producePixels_shape (c : Collaborators) (s t : TIASurface)
    (h : s.producePixels c = some t) :
    (∃ out rgb : List Nat, t = { s with
      tiaPixels := out
      myRGBFramebuffer := rgb
      myPrevRGBFramebuffer := s.prevAfterProduce }) ∧
    (s.mySaveSnapFlag = true → s.copyCount ≤ s.myRGBFramebuffer.length ∧
      s.copyCount ≤ s.myPrevRGBFramebuffer.length) := by
  unfold TIASurface.producePixels at h
  unfold TIASurface.prevAfterProduce TIASurface.copyCount
  by_cases h1 : s.myFilter = Filter.Normal
  · have n2 : ¬ s.myFilter = Filter.Phosphor := by rw [h1]; decide
    have n4 : ¬ s.myFilter = Filter.BlarggPhosphor := by rw [h1]; decide
    rw [if_pos h1] at h
    rw [if_neg n2, if_neg n4, if_neg n2, if_neg n4]
    split at h
    · cases h
    · next out _ =>
      simp only [Option.some.injEq] at h
      exact ⟨⟨out, s.myRGBFramebuffer, h.symm⟩, fun _ => ⟨Nat.zero_le _, Nat.zero_le _⟩⟩
  · rw [if_neg h1] at h
    by_cases h2 : s.myFilter = Filter.Phosphor
    · rw [if_pos h2] at h
      rw [if_pos h2, if_pos h2]
      split at h
      · cases h
      · next prev hprev =>
        obtain ⟨e1, e2⟩ := pending_copy_some s _ prev hprev
        split at h
        · cases h
        · next out rgb _ =>
          simp only [Option.some.injEq] at h
          exact ⟨⟨out, rgb, by rw [← h, e1]⟩, e2⟩
    · rw [if_neg h2] at h
      rw [if_neg h2, if_neg h2]
      by_cases h3 : s.myFilter = Filter.BlarggNormal
      · have n4 : ¬ s.myFilter = Filter.BlarggPhosphor := by rw [h3]; decide
        rw [if_pos h3] at h
        rw [if_neg n4, if_neg n4]
        simp only [Option.some.injEq] at h
        exact ⟨⟨_, s.myRGBFramebuffer, h.symm⟩, fun _ => ⟨Nat.zero_le _, Nat.zero_le _⟩⟩
      · rw [if_neg h3] at h
        by_cases h4 : s.myFilter = Filter.BlarggPhosphor
        · rw [if_pos h4] at h
          rw [if_pos h4, if_pos h4]
          split at h
          · cases h
          · next prev hprev =>
            obtain ⟨e1, e2⟩ := pending_copy_some s _ prev hprev
            simp only [Option.some.injEq] at h
            exact ⟨⟨_, _, by rw [← h, e1]⟩, e2⟩
        · rw [if_neg h4] at h
          rw [if_neg h4, if_neg h4]
          simp only [Option.some.injEq] at h
          exact ⟨⟨s.tiaPixels, s.myRGBFramebuffer, h.symm⟩,
            fun _ => ⟨Nat.zero_le _, Nat.zero_le _⟩⟩

theorem prevAfterCopy_of_not_pending (s : TIASurface) (n : Nat)
    (h : s.mySaveSnapFlag = false) : s.prevAfterCopy n = s.myPrevRGBFramebuffer := by
  unfold TIASurface.prevAfterCopy
  rw [h]
  rfl

theorem prevAfterProduce_of_not_pending (s : TIASurface) (h : s.mySaveSnapFlag = false) :
    s.prevAfterProduce = s.myPrevRGBFramebuffer := by
  unfold TIASurface.prevAfterProduce
  rw [prevAfterCopy_of_not_pending s _ h, prevAfterCopy_of_not_pending s _ h]
  split
  · rfl
  · split <;> rfl

theorem prevAfterProduce_of_plain (s : TIASurface)
    (h : s.myFilter = Filter.Normal ∨ s.myFilter = Filter.BlarggNormal) :
    s.prevAfterProduce = s.myPrevRGBFramebuffer := by
  unfold TIASurface.prevAfterProduce
  have n2 : ¬ s.myFilter = Filter.Phosphor := by
    rcases h with h | h <;> rw [h] <;> decide
  have n4 : ¬ s.myFilter = Filter.BlarggPhosphor := by
    rcases h with h | h <;> rw [h] <;> decide
  rw [if_neg n2, if_neg n4]

/-- The fields that `renderFrame` changes besides the three buffers: the render
counters. -/
theorem renderFrame_effect (c : Collaborators) (s t : TIASurface) (shade : Bool)
    (h : s.renderFrame c shade = some t) :
    t.myFilter = s.myFilter ∧ t.mySaveSnapFlag = s.mySaveSnapFlag ∧
    t.snapshots = s.snapshots ∧ t.myScanlinesEnabled = s.myScanlinesEnabled ∧
    t.myPhosphorHandler = s.myPhosphorHandler ∧
    t.myPrevRGBFramebuffer = s.prevAfterProduce ∧
    t.tiaRenders = s.tiaRenders + 1 ∧
    t.sLineRenders = (if s.myScanlinesEnabled then s.sLineRenders + 1 else s.sLineRenders) ∧
    t.shadeRenders = (if shade then s.shadeRenders + 1 else s.shadeRenders) := by
  unfold TIASurface.renderFrame at h
  split at h
  · cases h
  · next u hu =>
    obtain ⟨⟨out, rgb, e⟩, -⟩ := producePixels_shape c s u hu
    simp only [Option.some.injEq] at h
    subst h
    subst e
    exact ⟨rfl, rfl, rfl, rfl, rfl, rfl, rfl, rfl, rfl⟩

/-- The effect of the switch of `renderForSnapshot`, entered with the flag
cleared: the previous buffer is kept, and in the filters without phosphor the
nested `render()` draws the TIA image and, if enabled, the scanlines. -/
theorem snapshotPixels_effect (c : Collaborators) (s t : TIASurface)
    (h : s.snapshotPixels c = some t) (hflag : s.mySaveSnapFlag = false) :
    t.myFilter = s.myFilter ∧ t.mySaveSnapFlag = false ∧
    t.snapshots = s.snapshots ∧ t.myScanlinesEnabled = s.myScanlinesEnabled ∧
    t.myPhosphorHandler = s.myPhosphorHandler ∧
    t.myPrevRGBFramebuffer = s.myPrevRGBFramebuffer ∧
    t.shadeRenders = s.shadeRenders ∧
    t.sLineRenders =
      (if (s.myFilter = Filter.Normal ∨ s.myFilter = Filter.BlarggNormal) ∧
          s.myScanlinesEnabled = true
        then s.sLineRenders + 1 else s.sLineRenders) := by
  unfold TIASurface.snapshotPixels at h
  by_cases hN : s.myFilter = Filter.Normal ∨ s.myFilter = Filter.BlarggNormal
  · rw [if_pos hN] at h
    obtain ⟨e1, e2, e3, e4, e5, e6, -, e8, e9⟩ := renderFrame_effect c s t false h
    refine ⟨e1, by rw [e2, hflag], e3, e4, e5, by rw [e6, prevAfterProduce_of_plain s hN],
      by rw [e9]; rfl, ?_⟩
    rw [e8]
    by_cases hs : s.myScanlinesEnabled = true
    · rw [if_pos hs, if_pos ⟨hN, hs⟩]
    · rw [if_neg hs, if_neg (fun hh => hs hh.2)]
  · rw [if_neg hN] at h
    have hsl : (if (s.myFilter = Filter.Normal ∨ s.myFilter = Filter.BlarggNormal) ∧
          s.myScanlinesEnabled = true
        then s.sLineRenders + 1 else s.sLineRenders) = s.sLineRenders :=
      if_neg (fun hh => hN hh.1)
    rw [hsl]
    by_cases h2 : s.myFilter = Filter.Phosphor
    · rw [if_pos h2] at h
      split at h
      · cases h
      · simp only [Option.some.injEq] at h
        subst h
        exact ⟨rfl, hflag, rfl, rfl, rfl, rfl, rfl, rfl⟩
    · rw [if_neg h2] at h
      by_cases h4 : s.myFilter = Filter.BlarggPhosphor
      · rw [if_pos h4] at h
        split at h
        · cases h
        · simp only [Option.some.injEq] at h
          subst h
          exact ⟨rfl, hflag, rfl, rfl, rfl, rfl, rfl, rfl⟩
      · rw [if_neg h4] at h
        simp only [Option.some.injEq] at h
        subst h
        exact ⟨rfl, hflag, rfl, rfl, rfl, rfl, rfl, rfl⟩

theorem snapshotDraw_effect (u : TIASurface) :
    u.snapshotDraw.myFilter = u.myFilter ∧
    u.snapshotDraw.mySaveSnapFlag = u.mySaveSnapFlag ∧
    u.snapshotDraw.snapshots = u.snapshots ∧
    u.snapshotDraw.shadeRenders = u.shadeRenders ∧
    u.snapshotDraw.sLineRenders = u.sLineRenders +
      (if u.myPhosphorHandler.myUsePhosphor = true ∧ u.myScanlinesEnabled = true
        then 1 else 0) := by
  unfold TIASurface.snapshotDraw
  by_cases hp : u.myPhosphorHandler.myUsePhosphor = true
  · rw [if_pos hp]
    refine ⟨rfl, rfl, rfl, rfl, ?_⟩
    show (if u.myScanlinesEnabled = true then u.sLineRenders + 1 else u.sLineRenders) = _
    by_cases hs : u.myScanlinesEnabled = true
    · rw [if_pos hs, if_pos ⟨hp, hs⟩]
    · rw [if_neg hs, if_neg (fun hh => hs hh.2)]
      rfl
  · rw [if_neg hp, if_neg (fun hh => hp hh.1)]
    exact ⟨rfl, rfl, rfl, rfl, rfl⟩

/-- The effect of `renderForSnapshot` on the flag, the counters and the previous
buffer. -/
theorem renderForSnapshot_effect (c : Collaborators) (s t : TIASurface)
    (h : s.renderForSnapshot c = some t) :
    t.myFilter = s.myFilter ∧ t.mySaveSnapFlag = false ∧ t.snapshots = s.snapshots ∧
    t.myPrevRGBFramebuffer = s.myPrevRGBFramebuffer ∧
    t.shadeRenders = s.shadeRenders ∧
    t.sLineRenders = s.sLineRenders +
      (if (s.myFilter = Filter.Normal ∨ s.myFilter = Filter.BlarggNormal) ∧
          s.myScanlinesEnabled = true then 1 else 0) +
      (if s.myPhosphorHandler.myUsePhosphor = true ∧ s.myScanlinesEnabled = true
        then 1 else 0) := by
  unfold TIASurface.renderForSnapshot at h
  split at h
  · cases h
  · next u hu =>
    obtain ⟨e1, e2, e3, e4, e5, e6, e7, e8⟩ := snapshotPixels_effect c _ u hu rfl
    simp only [Option.some.injEq] at h
    subst h
    change u.myFilter = s.myFilter at e1
    change u.snapshots = s.snapshots at e3
    change u.myScanlinesEnabled = s.myScanlinesEnabled at e4
    change u.myPhosphorHandler = s.myPhosphorHandler at e5
    change u.myPrevRGBFramebuffer = s.myPrevRGBFramebuffer at e6
    change u.shadeRenders = s.shadeRenders at e7
    change u.sLineRenders =
      (if (s.myFilter = Filter.Normal ∨ s.myFilter = Filter.BlarggNormal) ∧
          s.myScanlinesEnabled = true
        then s.sLineRenders + 1 else s.sLineRenders) at e8
    obtain ⟨d1, d2, d3, d4, d5⟩ := snapshotDraw_effect u
    refine ⟨by rw [d1, e1], by rw [d2, e2], by rw [d3, e3],
      by rw [snapshotDraw_prev, e6], by rw [d4, e7], ?_⟩
    rw [d5, e5, e4, e8]
    congr 1
    split <;> rfl

theorem renderFrame_copy_bounds (c : Collaborators) (s t : TIASurface) (shade : Bool)
    (h : s.renderFrame c shade = some t) (hflag : s.mySaveSnapFlag = true) :
    s.copyCount ≤ s.myRGBFramebuffer.length ∧ s.copyCount ≤ s.myPrevRGBFramebuffer.length := by
  unfold TIASurface.renderFrame at h
  split at h
  · cases h
  · next u hu => exact (producePixels_shape c s u hu).2 hflag

/-- The effect of `render` on the flag, the snapshot counter and the previous
buffer. -/
theorem render_effect (c : Collaborators) (s t : TIASurface) (shade : Bool)
    (h : s.render c shade = some t) :
    t.myFilter = s.myFilter ∧ t.mySaveSnapFlag = false ∧
    t.snapshots = s.snapshots +
      (if s.mySaveSnapFlag = true ∧ c.pngSupport = true then 1 else 0) ∧
    t.myPrevRGBFramebuffer = s.prevAfterProduce ∧
    (s.mySaveSnapFlag = true → s.copyCount ≤ s.myRGBFramebuffer.length ∧
      s.copyCount ≤ s.myPrevRGBFramebuffer.length) := by
  cases hframe : s.renderFrame c shade with
  | none =>
    unfold TIASurface.render at h
    rw [hframe] at h
    cases h
  | some s1 =>
    obtain ⟨e1, e2, e3, -, -, e6, -, -, -⟩ := renderFrame_effect c s s1 shade hframe
    have hb := renderFrame_copy_bounds c s s1 shade hframe
    by_cases hflag : s.mySaveSnapFlag = true
    · by_cases hpng : c.pngSupport = true
      · rw [render_pending c s s1 shade hframe (by rw [e2, hflag]) hpng] at h
        split at h
        · cases h
        · next u hu =>
          obtain ⟨d1, d2, d3, _, _, d6, _, _⟩ := snapshotPixels_effect c _ u hu rfl
          simp only [Option.some.injEq] at h
          subst h
          obtain ⟨f1, f2, f3, -, -⟩ := snapshotDraw_effect u
          refine ⟨by rw [f1, d1]; exact e1, by rw [f2, d2], ?_, ?_, hb⟩
          · rw [f3, d3, if_pos ⟨hflag, hpng⟩]
            show s1.snapshots + 1 = _
            rw [e3]
          · rw [snapshotDraw_prev, d6]
            exact e6
      · have hpng' : c.pngSupport = false := by
          cases hh : c.pngSupport
          · rfl
          · exact absurd hh hpng
        rw [render_pending_no_png c s s1 shade hframe (by rw [e2, hflag]) hpng'] at h
        simp only [Option.some.injEq] at h
        subst h
        exact ⟨e1, rfl, by rw [if_neg (fun hh => hpng hh.2)]; exact e3, e6, hb⟩
    · have hflag' : s.mySaveSnapFlag = false := by
        cases hh : s.mySaveSnapFlag
        · rfl
        · exact absurd hh hflag
      rw [render_not_pending c s s1 shade hframe (by rw [e2, hflag'])] at h
      simp only [Option.some.injEq] at h
      subst h
      exact ⟨e1, by rw [e2, hflag'], by rw [if_neg (fun hh => hflag hh.1)]; exact e3, e6, hb⟩

theorem prevAfterCopy_getElem (s : TIASurface) (n i : Nat) (hflag : s.mySaveSnapFlag = true)
    (hn : n ≤ s.myRGBFramebuffer.length) (hi : i < n) :
    ∃ a, s.myRGBFramebuffer[i]? = some a ∧ (s.prevAfterCopy n)[i]? = some a := by
  have hlt : i < s.myRGBFramebuffer.length := by omega
  refine ⟨s.myRGBFramebuffer[i], List.getElem?_eq_getElem hlt, ?_⟩
  unfold TIASurface.prevAfterCopy
  rw [hflag, if_pos rfl, List.getElem?_append_left (by rw [List.length_take]; omega),
    List.getElem?_take_of_lt hi, List.getElem?_eq_getElem hlt]

/-- C15: copy-before-update. When `render` returns with a snapshot pending at
entry, the previous buffer holds, in filter `Phosphor` at every index below
`w * h` and in filter `BlarggPhosphor` at every index below `h * pitch` (the
products fitting 32 bits), the entry that the accumulation buffer held before
this frame's update; when no snapshot is pending, or the filter is `Normal` or
`BlarggNormal`, `render` leaves the previous buffer as it was. -/
theorem render_copy_before_update (c : Collaborators) (s t : TIASurface) (shade : Bool)
    (h : s.render c shade = some t) :
    (s.mySaveSnapFlag = true → s.myFilter = Filter.Phosphor →
      s.tiaWidth * s.tiaHeight < 4294967296 →
      ∀ i, i < s.tiaWidth * s.tiaHeight →
        ∃ a, s.myRGBFramebuffer[i]? = some a ∧ t.myPrevRGBFramebuffer[i]? = some a) ∧
    (s.mySaveSnapFlag = true → s.myFilter = Filter.BlarggPhosphor →
      s.tiaHeight * s.tiaPitch < 4294967296 →
      ∀ i, i < s.tiaHeight * s.tiaPitch →
        ∃ a, s.myRGBFramebuffer[i]? = some a ∧ t.myPrevRGBFramebuffer[i]? = some a) ∧
    (s.mySaveSnapFlag = false ∨ s.myFilter = Filter.Normal ∨
        s.myFilter = Filter.BlarggNormal →
      t.myPrevRGBFramebuffer = s.myPrevRGBFramebuffer) := by
  obtain ⟨-, -, -, hprev, hb⟩ := render_effect c s t shade h
  rw [hprev]
  refine ⟨?_, ?_, ?_⟩
  · intro hflag hf hfit i hi
    have hcount : s.copyCount = s.tiaWidth * s.tiaHeight := by
      unfold TIASurface.copyCount
      rw [if_pos hf, Nat.mod_eq_of_lt hfit]
    have hprod : s.prevAfterProduce = s.prevAfterCopy (s.tiaWidth * s.tiaHeight) := by
      unfold TIASurface.prevAfterProduce
      rw [if_pos hf, Nat.mod_eq_of_lt hfit]
    rw [hprod]
    exact prevAfterCopy_getElem s _ i hflag (by rw [← hcount]; exact (hb hflag).1) hi
  · intro hflag hf hfit i hi
    have hne : ¬ s.myFilter = Filter.Phosphor := by rw [hf]; decide
    have hcount : s.copyCount = s.tiaHeight * s.tiaPitch := by
      unfold TIASurface.copyCount
      rw [if_neg hne, if_pos hf, Nat.mod_eq_of_lt hfit]
    have hprod : s.prevAfterProduce = s.prevAfterCopy (s.tiaHeight * s.tiaPitch) := by
      unfold TIASurface.prevAfterProduce
      rw [if_neg hne, if_pos hf, Nat.mod_eq_of_lt hfit]
    rw [hprod]
    exact prevAfterCopy_getElem s _ i hflag (by rw [← hcount]; exact (hb hflag).1) hi
  · rintro (hflag | hf | hf)
    · exact prevAfterProduce_of_not_pending s hflag
    · exact prevAfterProduce_of_plain s (Or.inl hf)
    · exact prevAfterProduce_of_plain s (Or.inr hf)

/-- Witness of C15 on `pendingPhosphorSample`: `render` returns and the first
two entries of the previous buffer (before: `[7, 7, 7]`) are the entries
`0xFFFFFF, 0x102030` of the accumulation buffer. -/
theorem render_copy_before_update_witness :
    (pendingPhosphorSample.render plainCollaborators false).map
        (fun t => t.myPrevRGBFramebuffer) = some [0xFFFFFF, 0x102030, 7] ∧
    ∀ t : TIASurface, pendingPhosphorSample.render plainCollaborators false = some t →
      ∀ i, i < pendingPhosphorSample.tiaWidth * pendingPhosphorSample.tiaHeight →
        ∃ a, pendingPhosphorSample.myRGBFramebuffer[i]? = some a ∧
          t.myPrevRGBFramebuffer[i]? = some a :=
  ⟨by decide, fun t ht =>
    (render_copy_before_update plainCollaborators pendingPhosphorSample t false ht).1
      (by decide) (by decide) (by decide)⟩

/-- C16: a snapshot request is consumed exactly once. Whatever the filter and the
pending flag at entry, when `render(shade)` returns the pending flag is false;
with `PNG_SUPPORT` defined `takeSnapshot` has been called once during that
render if the flag was set at entry and not at all otherwise; and a following
`render` with no new request calls it no more. -/
theorem snapshot_consumed_once (c : Collaborators) (s t : TIASurface) (shade : Bool)
    (hpng : c.pngSupport = true) (h : s.render c shade = some t) :
    t.mySaveSnapFlag = false ∧
    t.snapshots = s.snapshots + (if s.mySaveSnapFlag = true then 1 else 0) ∧
    (t.snapshots = s.snapshots + 1 ↔ s.mySaveSnapFlag = true) ∧
    ∀ (shade2 : Bool) (t2 : TIASurface), t.render c shade2 = some t2 →
      t2.snapshots = t.snapshots ∧ t2.mySaveSnapFlag = false := by
  obtain ⟨-, e2, e3, -, -⟩ := render_effect c s t shade h
  have e3' : t.snapshots = s.snapshots + (if s.mySaveSnapFlag = true then 1 else 0) := by
    rw [e3]
    by_cases hflag : s.mySaveSnapFlag = true
    · rw [if_pos ⟨hflag, hpng⟩, if_pos hflag]
    · rw [if_neg (fun hh => hflag hh.1), if_neg hflag]
  refine ⟨e2, e3', ?_, ?_⟩
  · rw [e3']
    by_cases hflag : s.mySaveSnapFlag = true
    · rw [if_pos hflag]
      exact ⟨fun _ => hflag, fun _ => rfl⟩
    · rw [if_neg hflag]
      exact ⟨fun hh => by omega, fun hh => absurd hh hflag⟩
  · intro shade2 t2 h2
    obtain ⟨-, d2, d3, -, -⟩ := render_effect c t t2 shade2 h2
    refine ⟨?_, d2⟩
    rw [d3, if_neg (fun hh => by rw [e2] at hh; cases hh.1)]
    rfl

/-- Witness of C16 on the 2 x 1 scenario with a snapshot pending: `render`
returns with one snapshot taken. -/
theorem snapshot_consumed_once_witness :
    (pendingTwoByOne.render plainCollaborators true).map
        (fun t => (t.mySaveSnapFlag, t.snapshots)) = some (false, 1) ∧
    ∀ t : TIASurface, pendingTwoByOne.render plainCollaborators true = some t →
      t.mySaveSnapFlag = false ∧
      t.snapshots = pendingTwoByOne.snapshots +
        (if pendingTwoByOne.mySaveSnapFlag = true then 1 else 0) ∧
      (t.snapshots = pendingTwoByOne.snapshots + 1 ↔ pendingTwoByOne.mySaveSnapFlag = true) ∧
      ∀ (shade2 : Bool) (t2 : TIASurface), t.render plainCollaborators shade2 = some t2 →
        t2.snapshots = t.snapshots ∧ t2.mySaveSnapFlag = false :=
  ⟨by decide, fun t ht =>
    snapshot_consumed_once plainCollaborators pendingTwoByOne t true rfl ht⟩

/-! ## Overlays drawn by `renderForSnapshot` -/

/-- C18, counterexample: in filter `Normal` with scanlines enabled
`renderForSnapshot` returns having rendered the scanline mask surface once. -/
theorem renderForSnapshot_draws_scanlines :
    scanlineSample.myScanlinesEnabled = true ∧ scanlineSample.sLineRenders = 0 ∧
    (scanlineSample.renderForSnapshot plainCollaborators).map (fun t => t.sLineRenders) =
      some 1 ∧
    ¬ (∀ t : TIASurface, scanlineSample.renderForSnapshot plainCollaborators = some t →
      t.sLineRenders = scanlineSample.sLineRenders) := by
  refine ⟨rfl, rfl, by decide, ?_⟩
  intro hall
  have hsome : ∃ t, scanlineSample.renderForSnapshot plainCollaborators = some t ∧
      t.sLineRenders = 1 := by
    cases h : scanlineSample.renderForSnapshot plainCollaborators with
    | none =>
      have : (scanlineSample.renderForSnapshot plainCollaborators).map
          (fun t => t.sLineRenders) = some 1 := by decide
      rw [h] at this
      cases this
    | some t =>
      have : (scanlineSample.renderForSnapshot plainCollaborators).map
          (fun t => t.sLineRenders) = some 1 := by decide
      rw [h] at this
      simp only [Option.map_some', Option.some.injEq] at this
      exact ⟨t, rfl, this⟩
  obtain ⟨t, ht, h1⟩ := hsome
  have h0 := hall t ht
  rw [h1] at h0
  cases h0

/-- C18, amended: `renderForSnapshot` never renders the shade surface; the
scanline mask surface it does render: in a state whose filter is one of the four
values and agrees with the phosphor handler, exactly once when scanlines are
enabled and not at all when they are disabled. -/
theorem renderForSnapshot_overlays (c : Collaborators) (s t : TIASurface)
    (hcons : s.consistent) (h : s.renderForSnapshot c = some t) :
    t.shadeRenders = s.shadeRenders ∧
    t.sLineRenders = s.sLineRenders + (if s.myScanlinesEnabled = true then 1 else 0) := by
  obtain ⟨-, -, -, -, e5, e6⟩ := renderForSnapshot_effect c s t h
  refine ⟨e5, ?_⟩
  rw [e6]
  obtain ⟨hleg, hbit⟩ := hcons
  by_cases hs : s.myScanlinesEnabled = true
  · rw [if_pos hs]
    rcases hleg with hf | hf | hf | hf
    · have hp : ¬ s.myPhosphorHandler.myUsePhosphor = true := by
        rw [← hbit, hf]; decide
      rw [if_pos ⟨Or.inl hf, hs⟩, if_neg (fun hh => hp hh.1)]
    · have hp : s.myPhosphorHandler.myUsePhosphor = true := by
        rw [← hbit, hf]; decide
      have hn : ¬ (s.myFilter = Filter.Normal ∨ s.myFilter = Filter.BlarggNormal) := by
        rw [hf]; decide
      rw [if_neg (fun hh => hn hh.1), if_pos ⟨hp, hs⟩]
    · have hp : ¬ s.myPhosphorHandler.myUsePhosphor = true := by
        rw [← hbit, hf]; decide
      rw [if_pos ⟨Or.inr hf, hs⟩, if_neg (fun hh => hp hh.1)]
    · have hp : s.myPhosphorHandler.myUsePhosphor = true := by
        rw [← hbit, hf]; decide
      have hn : ¬ (s.myFilter = Filter.Normal ∨ s.myFilter = Filter.BlarggNormal) := by
        rw [hf]; decide
      rw [if_neg (fun hh => hn hh.1), if_pos ⟨hp, hs⟩]
  · rw [if_neg hs, if_neg (fun hh => hs hh.2), if_neg (fun hh => hs hh.2)]

/-- Witness of the amended C18 on `phosphorSample` with scanlines enabled. -/
theorem renderForSnapshot_overlays_witness :
    (({ phosphorSample with myScanlinesEnabled := true } :
      TIASurface).renderForSnapshot plainCollaborators).isSome = true ∧
    ∀ t : TIASurface,
      ({ phosphorSample with myScanlinesEnabled := true } :
        TIASurface).renderForSnapshot plainCollaborators = some t →
      t.shadeRenders = 0 ∧ t.sLineRenders = 0 + (if true = true then 1 else 0) :=
  ⟨by decide, fun t ht =>
    renderForSnapshot_overlays plainCollaborators
      ({ phosphorSample with myScanlinesEnabled := true } : TIASurface) t
      ⟨by decide, by decide⟩ ht⟩

/-! ## Filter `Phosphor`: the state that `render` returns -/

theorem snapshotDraw_eq (s : TIASurface) :
    ∃ tr sl : Nat, s.snapshotDraw = { s with tiaRenders := tr, sLineRenders := sl } := by
  unfold TIASurface.snapshotDraw
  split
  · exact ⟨_, _, rfl⟩
  · exact ⟨s.tiaRenders, s.sLineRenders, rfl⟩

/-- The state that `render` returns in filter `Phosphor` on a fitting frame:
`rgb` is the accumulation buffer after the update and `out` the pixels written
by the update loop; a pending snapshot (taken with `PNG_SUPPORT`) then overwrites
the pixels with the average of `rgb` and the accumulation buffer before the
update. -/
theorem render_phosphor_core (c : Collaborators) (s : TIASurface) (shade : Bool)
    (hf : s.myFilter = Filter.Phosphor) (hfit : s.frameFits)
    (hacc : s.tiaWidth * s.tiaHeight ≤ s.myRGBFramebuffer.length)
    (hprev : s.tiaWidth * s.tiaHeight ≤ s.myPrevRGBFramebuffer.length)
    (hsmall : s.tiaWidth * s.tiaHeight < 4294967296) :
    ∃ (out rgb : List Nat) (s2 : TIASurface),
      s.render c shade = some s2 ∧
      s2.myRGBFramebuffer = rgb ∧ rgb.length = s.myRGBFramebuffer.length ∧
      s2.tiaPixels.length = s.tiaPixels.length ∧
      s2.myPrevRGBFramebuffer.length = s.myPrevRGBFramebuffer.length ∧
      s2.myFilter = s.myFilter ∧ s2.tiaWidth = s.tiaWidth ∧ s2.tiaHeight = s.tiaHeight ∧
      s2.tiaPitch = s.tiaPitch ∧ s2.myPalette = s.myPalette ∧ s2.mySaveSnapFlag = false ∧
      (∀ x y, x < s.tiaWidth → y < s.tiaHeight →
        ∃ col a, colourAt s.myPalette s.tiaFrameBuffer (y * s.tiaWidth + x) = some col ∧
          s.myRGBFramebuffer[y * s.tiaWidth + x]? = some a ∧
          out[y * s.tiaPitch + x]? = some (c.getPixel col a) ∧
          rgb[y * s.tiaWidth + x]? = some (c.getPixel col a)) ∧
      (∀ j, s.tiaWidth * s.tiaHeight ≤ j → rgb[j]? = s.myRGBFramebuffer[j]?) ∧
      (s.mySaveSnapFlag = false ∨ c.pngSupport = false → s2.tiaPixels = out) ∧
      (s.mySaveSnapFlag = true → c.pngSupport = true →
        ∀ x y, x < s.tiaWidth → y < s.tiaHeight →
          ∃ cur a, rgb[y * s.tiaWidth + x]? = some cur ∧
            s.myRGBFramebuffer[y * s.tiaWidth + x]? = some a ∧
            s2.tiaPixels[y * s.tiaPitch + x]? = some (averageOf cur a)) := by
  have hn : (s.tiaWidth * s.tiaHeight) % 4294967296 = s.tiaWidth * s.tiaHeight :=
    Nat.mod_eq_of_lt hsmall
  obtain ⟨out, rgb, h1, h2, h2', h3, h5⟩ := producePixels_phosphor c s hf hfit hacc hprev
  rw [hn] at h1
  have hframe := renderFrame_of_producePixels c _ _ shade h1
  have hplen := prevAfterCopy_length s (s.tiaWidth * s.tiaHeight) hacc hprev
  by_cases hflag : s.mySaveSnapFlag = true
  · by_cases hpng : c.pngSupport = true
    · obtain ⟨T, hT⟩ : ∃ T : TIASurface, T = (({ s with
            tiaPixels := out
            myRGBFramebuffer := rgb
            myPrevRGBFramebuffer := s.prevAfterCopy (s.tiaWidth * s.tiaHeight) } :
          TIASurface).drawSurfaces shade).forSnapshot := ⟨_, rfl⟩
      have hr : s.render c shade =
          match T.snapshotPixels c with
          | none => none
          | some s2 => some s2.snapshotDraw := by
        rw [hT]
        exact render_pending c s _ shade hframe hflag hpng
      obtain ⟨out2, e1, e2, e3⟩ := snapshotPixels_phosphor c T (by rw [hT]; exact hf)
        (by rw [hT]; exact hfit.1) (by rw [hT]; exact hfit.2.1)
        (by rw [hT]; show s.tiaHeight * s.tiaPitch ≤ out.length; rw [h2]; exact hfit.2.2.2.2)
        (by rw [hT]; show s.tiaWidth * s.tiaHeight ≤ rgb.length; rw [h2']; exact hacc)
        (by
          rw [hT]
          show s.tiaWidth * s.tiaHeight ≤ (s.prevAfterCopy (s.tiaWidth * s.tiaHeight)).length
          rw [hplen]
          exact hprev)
      rw [e1] at hr
      obtain ⟨tr, sl, hd⟩ := snapshotDraw_eq ({ T with tiaPixels := out2 } : TIASurface)
      have hr2 : s.render c shade =
          some { ({ T with tiaPixels := out2 } : TIASurface) with
            tiaRenders := tr, sLineRenders := sl } := by
        rw [← hd]
        exact hr
      subst hT
      refine ⟨out, rgb, _, hr2, rfl, h2', ?_, hplen, rfl, rfl, rfl, rfl, rfl, rfl, h3, h5, ?_, ?_⟩
      · show out2.length = s.tiaPixels.length
        rw [e2]
        exact h2
      · rintro (hnot | hnot)
        · rw [hnot] at hflag; cases hflag
        · rw [hnot] at hpng; cases hpng
      · intro _ _ x y hx hy
        obtain ⟨cur, prv, d1, d2, d3⟩ := e3 x y hx hy
        change rgb[y * s.tiaWidth + x]? = some cur at d1
        change (s.prevAfterCopy (s.tiaWidth * s.tiaHeight))[y * s.tiaWidth + x]? = some prv at d2
        change out2[y * s.tiaPitch + x]? = some (averageOf cur prv) at d3
        have hlt : y * s.tiaWidth + x < s.tiaWidth * s.tiaHeight :=
          index_lt_of_row_col x y _ _ hx hy
        obtain ⟨a, ha, hpa⟩ := prevAfterCopy_getElem s _ _ hflag hacc hlt
        rw [hpa, Option.some.injEq] at d2
        subst d2
        exact ⟨cur, a, d1, ha, d3⟩
    · have hpng' : c.pngSupport = false := by
        cases h : c.pngSupport
        · rfl
        · exact absurd h hpng
      refine ⟨out, rgb, _, render_pending_no_png c s _ shade hframe hflag hpng', rfl, h2', h2,
        hplen, rfl, rfl, rfl, rfl, rfl, rfl, h3, h5, fun _ => rfl, ?_⟩
      intro _ hh
      rw [hh] at hpng'
      cases hpng'
  · have hflag' : s.mySaveSnapFlag = false := by
      cases h : s.mySaveSnapFlag
      · rfl
      · exact absurd h hflag
    refine ⟨out, rgb, _, render_not_pending c s _ shade hframe hflag', rfl, h2', h2, hplen,
      rfl, rfl, rfl, rfl, rfl, hflag', h3, h5, fun _ => rfl, ?_⟩
    intro hh
    exact absurd hh hflag

/-! ## Persistence at blend level 100 -/

theorem blendChannel_full (new prev : Nat) : blendChannel 100 new prev = max new prev := by
  unfold blendChannel
  rw [Nat.mul_div_cancel _ (by decide : 0 < 100)]

theorem specGetPixel_full_channels (c p : Nat) :
    chanR (specGetPixel 100 c p) = max (chanR c) (chanR p) ∧
    chanG (specGetPixel 100 c p) = max (chanG c) (chanG p) ∧
    chanB (specGetPixel 100 c p) = max (chanB c) (chanB p) := by
  obtain ⟨hr, hg, hb⟩ := chan_lt c
  obtain ⟨hr', hg', hb'⟩ := chan_lt p
  unfold specGetPixel
  rw [blendChannel_full, blendChannel_full, blendChannel_full]
  have h1 : max (chanR c) (chanR p) < 256 := by omega
  have h2 : max (chanG c) (chanG p) < 256 := by omega
  have h3 : max (chanB c) (chanB p) < 256 := by omega
  generalize max (chanR c) (chanR p) = r at h1 ⊢
  generalize max (chanG c) (chanG p) = g at h2 ⊢
  generalize max (chanB c) (chanB p) = b at h3 ⊢
  unfold chanR chanG chanB
  rw [Nat.shiftRight_eq_div_pow, Nat.shiftRight_eq_div_pow]
  refine ⟨?_, ?_, ?_⟩ <;> omega

theorem chanLe_specGetPixel_full (c p : Nat) : chanLe p (specGetPixel 100 c p) := by
  obtain ⟨h1, h2, h3⟩ := specGetPixel_full_channels c p
  unfold chanLe
  rw [h1, h2, h3]
  exact ⟨Nat.le_max_right _ _, Nat.le_max_right _ _, Nat.le_max_right _ _⟩

theorem chanLe_trans {a b c : Nat} (h1 : chanLe a b) (h2 : chanLe b c) : chanLe a c :=
  ⟨Nat.le_trans h1.1 h2.1, Nat.le_trans h1.2.1 h2.2.1, Nat.le_trans h1.2.2 h2.2.2⟩

theorem chanLe_refl (a : Nat) : chanLe a a := ⟨Nat.le_refl _, Nat.le_refl _, Nat.le_refl _⟩

theorem specGetPixel_full_white (p : Nat) : specGetPixel 100 0xFFFFFF p = 0xFFFFFF := by
  obtain ⟨hr, hg, hb⟩ := chan_lt p
  unfold specGetPixel
  rw [blendChannel_full, blendChannel_full, blendChannel_full]
  have e1 : chanR 0xFFFFFF = 255 := by decide
  have e2 : chanG 0xFFFFFF = 255 := by decide
  have e3 : chanB 0xFFFFFF = 255 := by decide
  rw [e1, e2, e3]
  omega

theorem specGetPixel_full_over_white (c : Nat) (hc : c = 0x000000) :
    specGetPixel 100 c 0xFFFFFF = 0xFFFFFF := by
  subst hc
  decide

/-- One step in filter `Phosphor`: `render` returns, the pipeline stays ready,
and every pixel of the frame is blended into the accumulation buffer; the
output pixel is the blended pixel or, when the snapshot path has run, its
average with the accumulation entry before the update. -/
theorem renderStep_phosphor (c : Collaborators) (s : TIASurface) (st : FrameStep)
    (hready : s.phosphorReady) (hok : s.frameOk st.frame) :
    ∃ t : TIASurface, TIASurface.render c (s.nextFrame st) st.shade = some t ∧
      t.phosphorReady ∧ t.tiaWidth = s.tiaWidth ∧ t.tiaHeight = s.tiaHeight ∧
      t.tiaPitch = s.tiaPitch ∧ t.myPalette = s.myPalette ∧ t.mySaveSnapFlag = false ∧
      ∀ x y, x < s.tiaWidth → y < s.tiaHeight →
        ∃ col a, colourAt s.myPalette st.frame (y * s.tiaWidth + x) = some col ∧
          s.myRGBFramebuffer[y * s.tiaWidth + x]? = some a ∧
          t.myRGBFramebuffer[y * s.tiaWidth + x]? = some (c.getPixel col a) ∧
          (t.tiaPixels[y * s.tiaPitch + x]? = some (c.getPixel col a) ∨
            t.tiaPixels[y * s.tiaPitch + x]? = some (averageOf (c.getPixel col a) a)) := by
  obtain ⟨hf, hev, hwp, hout, hacc, hprev, hsmall⟩ := hready
  obtain ⟨out, rgb, t, h1, h2, h3, h4, h5, h6, h7, h8, h9, h10, h11, h12, -, h14, h15⟩ :=
    render_phosphor_core c (s.nextFrame st) st.shade hf ⟨hev, hwp, hok.1, hok.2, hout⟩
      hacc hprev hsmall
  change t.myFilter = s.myFilter at h6
  change t.tiaWidth = s.tiaWidth at h7
  change t.tiaHeight = s.tiaHeight at h8
  change t.tiaPitch = s.tiaPitch at h9
  change t.myPalette = s.myPalette at h10
  change rgb.length = s.myRGBFramebuffer.length at h3
  change t.tiaPixels.length = s.tiaPixels.length at h4
  change t.myPrevRGBFramebuffer.length = s.myPrevRGBFramebuffer.length at h5
  refine ⟨t, h1, ?_, h7, h8, h9, h10, h11, ?_⟩
  · refine ⟨by rw [h6]; exact hf, by rw [h7]; exact hev, by rw [h7, h9]; exact hwp,
      by rw [h8, h9, h4]; exact hout, by rw [h7, h8, h2, h3]; exact hacc,
      by rw [h7, h8, h5]; exact hprev, by rw [h7, h8]; exact hsmall⟩
  · intro x y hx hy
    obtain ⟨col, a, e1, e2, e3, e4⟩ := h12 x y hx hy
    change colourAt s.myPalette st.frame (y * s.tiaWidth + x) = some col at e1
    change s.myRGBFramebuffer[y * s.tiaWidth + x]? = some a at e2
    change out[y * s.tiaPitch + x]? = some (c.getPixel col a) at e3
    change rgb[y * s.tiaWidth + x]? = some (c.getPixel col a) at e4
    refine ⟨col, a, e1, e2, by rw [h2]; exact e4, ?_⟩
    by_cases hflag : (s.nextFrame st).mySaveSnapFlag = true
    · by_cases hpng : c.pngSupport = true
      · right
        obtain ⟨cur, a', d1, d2, d3⟩ := h15 hflag hpng x y hx hy
        change rgb[y * s.tiaWidth + x]? = some cur at d1
        change s.myRGBFramebuffer[y * s.tiaWidth + x]? = some a' at d2
        change t.tiaPixels[y * s.tiaPitch + x]? = some (averageOf cur a') at d3
        rw [e4, Option.some.injEq] at d1
        rw [e2, Option.some.injEq] at d2
        rw [← d1, ← d2] at d3
        exact d3
      · left
        have hpng' : c.pngSupport = false := by
          cases h : c.pngSupport
          · rfl
          · exact absurd h hpng
        rw [h14 (Or.inr hpng')]
        exact e3
    · left
      have hflag' : (s.nextFrame st).mySaveSnapFlag = false := by
        cases h : (s.nextFrame st).mySaveSnapFlag
        · rfl
        · exact absurd h hflag
      rw [h14 (Or.inl hflag')]
      exact e3

theorem row_col_of_index (i w h : Nat) (hi : i < w * h) :
    ∃ x y, x < w ∧ y < h ∧ i = y * w + x := by
  have hw : 0 < w := by
    rcases Nat.eq_zero_or_pos w with h0 | h0
    · rw [h0, Nat.zero_mul] at hi
      exact absurd hi (Nat.not_lt_zero _)
    · exact h0
  refine ⟨i % w, i / w, Nat.mod_lt _ hw, ?_, ?_⟩
  · rw [Nat.div_lt_iff_lt_mul hw, Nat.mul_comm]
    exact hi
  · rw [Nat.mul_comm]
    exact (Nat.div_add_mod i w).symm

/-- Successive renders in filter `Phosphor` at blend level 100: every call
returns and no channel of an accumulation entry below `w * h` decreases. -/
theorem renderSteps_phosphor_monotone (c : Collaborators)
    (hg : c.getPixel = specGetPixel 100) (steps : List FrameStep) :
    ∀ s : TIASurface, s.phosphorReady → (∀ st ∈ steps, s.frameOk st.frame) →
      ∃ t : TIASurface, s.renderSteps c steps = some t ∧ t.phosphorReady ∧
        t.tiaWidth = s.tiaWidth ∧ t.tiaHeight = s.tiaHeight ∧ t.myPalette = s.myPalette ∧
        ∀ i, i < s.tiaWidth * s.tiaHeight →
          ∃ a b, s.myRGBFramebuffer[i]? = some a ∧ t.myRGBFramebuffer[i]? = some b ∧
            chanLe a b := by
  induction steps with
  | nil =>
    intro s hready _
    refine ⟨s, rfl, hready, rfl, rfl, rfl, ?_⟩
    intro i hi
    have hlt : i < s.myRGBFramebuffer.length := by
      have := hready.2.2.2.2.1
      omega
    exact ⟨_, _, List.getElem?_eq_getElem hlt, List.getElem?_eq_getElem hlt, chanLe_refl _⟩
  | cons st rest ih =>
    intro s hready hok
    obtain ⟨t1, h1, hr1, hw1, hh1, -, hp1, -, hpix⟩ :=
      renderStep_phosphor c s st hready (hok st (List.mem_cons_self _ _))
    have hok1 : ∀ st' ∈ rest, t1.frameOk st'.frame := by
      intro st' hst'
      have := hok st' (List.mem_cons_of_mem _ hst')
      unfold TIASurface.frameOk at this ⊢
      rw [hw1, hh1, hp1]
      exact this
    obtain ⟨t, h2, hr2, hw2, hh2, hp2, hmono⟩ := ih t1 hr1 hok1
    refine ⟨t, ?_, hr2, by rw [hw2, hw1], by rw [hh2, hh1], by rw [hp2, hp1], ?_⟩
    · simp only [TIASurface.renderSteps, h1]
      exact h2
    · intro i hi
      obtain ⟨x, y, hx, hy, rfl⟩ := row_col_of_index i _ _ hi
      obtain ⟨col, a, -, e2, e3, -⟩ := hpix x y hx hy
      obtain ⟨a1, b, d1, d2, d3⟩ := hmono (y * s.tiaWidth + x) (by rw [hw1, hh1]; exact hi)
      rw [e3, Option.some.injEq] at d1
      subst d1
      refine ⟨a, b, e2, d2, chanLe_trans ?_ d3⟩
      rw [hg]
      exact chanLe_specGetPixel_full col a

theorem averageOf_white : averageOf 0xFFFFFF 0xFFFFFF = 0xFFFFFF := by decide

/-- C19: with `getPixel` the declared algorithm of the specification at level 100
(each channel the greater of the new and the previous channel), successive
renders in filter `Phosphor` (even `w`, buffers holding the frame) all return
and never decrease an R, G or B channel of an accumulation entry below `w * h`;
and after rendering a frame whose pixel is `0xFFFFFF` and then a frame whose
pixel at the same position is `0x000000`, the output at that position is
`0xFFFFFF`, whether or not snapshots are requested. -/
theorem phosphor_full_persistence :
    (∀ (c : Collaborators) (s : TIASurface) (steps : List FrameStep),
      c.getPixel = specGetPixel 100 → s.phosphorReady →
      (∀ st ∈ steps, s.frameOk st.frame) →
      ∃ t : TIASurface, s.renderSteps c steps = some t ∧
        ∀ i, i < s.tiaWidth * s.tiaHeight →
          ∃ a b, s.myRGBFramebuffer[i]? = some a ∧ t.myRGBFramebuffer[i]? = some b ∧
            chanR a ≤ chanR b ∧ chanG a ≤ chanG b ∧ chanB a ≤ chanB b) ∧
    (∀ (c : Collaborators) (s : TIASurface) (st1 st2 : FrameStep) (x y : Nat),
      c.getPixel = specGetPixel 100 → s.phosphorReady →
      s.frameOk st1.frame → s.frameOk st2.frame → x < s.tiaWidth → y < s.tiaHeight →
      colourAt s.myPalette st1.frame (y * s.tiaWidth + x) = some 0xFFFFFF →
      colourAt s.myPalette st2.frame (y * s.tiaWidth + x) = some 0x000000 →
      ∃ t : TIASurface, s.renderSteps c [st1, st2] = some t ∧
        t.tiaPixels[y * s.tiaPitch + x]? = some 0xFFFFFF) := by
  constructor
  · intro c s steps hg hready hok
    obtain ⟨t, h1, -, -, -, -, hmono⟩ := renderSteps_phosphor_monotone c hg steps s hready hok
    exact ⟨t, h1, hmono⟩
  · intro c s st1 st2 x y hg hready hok1 hok2 hx hy hc1 hc2
    obtain ⟨t1, h1, hr1, hw1, hh1, hpitch1, hp1, -, hpix1⟩ :=
      renderStep_phosphor c s st1 hready hok1
    have hok2' : t1.frameOk st2.frame := by
      unfold TIASurface.frameOk at hok2 ⊢
      rw [hw1, hh1, hp1]
      exact hok2
    obtain ⟨t2, h2, -, -, -, -, -, -, hpix2⟩ := renderStep_phosphor c t1 st2 hr1 hok2'
    refine ⟨t2, ?_, ?_⟩
    · simp only [TIASurface.renderSteps, h1, h2]
    · obtain ⟨col1, a, e1, -, e3, -⟩ := hpix1 x y hx hy
      rw [hc1, Option.some.injEq] at e1
      subst e1
      rw [hg, specGetPixel_full_white] at e3
      obtain ⟨col2, a2, d1, d2, -, d4⟩ := hpix2 x y (by rw [hw1]; exact hx) (by rw [hh1]; exact hy)
      rw [hw1, hp1, hc2, Option.some.injEq] at d1
      rw [hw1, e3, Option.some.injEq] at d2
      subst d2
      rw [hpitch1, hg, specGetPixel_full_over_white col2 d1.symm, averageOf_white] at d4
      rcases d4 with d4 | d4 <;> exact d4

/-- Witness of C19 on `persistenceSample`: a white frame and then a black one,
each with a snapshot requested. -/
theorem phosphor_full_persistence_witness :
    (∃ t : TIASurface,
      persistenceSample.renderSteps fullPersistence
        [⟨[1, 1], false, true⟩, ⟨[0, 0], true, true⟩] = some t ∧
      ∀ i, i < persistenceSample.tiaWidth * persistenceSample.tiaHeight →
        ∃ a b, persistenceSample.myRGBFramebuffer[i]? = some a ∧
          t.myRGBFramebuffer[i]? = some b ∧
          chanR a ≤ chanR b ∧ chanG a ≤ chanG b ∧ chanB a ≤ chanB b) ∧
    (∃ t : TIASurface,
      persistenceSample.renderSteps fullPersistence
        [⟨[1, 1], false, true⟩, ⟨[0, 0], true, true⟩] = some t ∧
      t.tiaPixels[0 * persistenceSample.tiaPitch + 1]? = some 0xFFFFFF) :=
  ⟨phosphor_full_persistence.1 fullPersistence persistenceSample
      [⟨[1, 1], false, true⟩, ⟨[0, 0], true, true⟩] rfl (by decide) (by decide),
   phosphor_full_persistence.2 fullPersistence persistenceSample ⟨[1, 1], false, true⟩
      ⟨[0, 0], true, true⟩ 1 0 rfl (by decide) (by decide) (by decide) (by decide) (by decide)
      (by decide) (by decide)⟩

/-! ## Filter `Phosphor` at blend level 0 and filter `Normal` -/

theorem phosphorPixel_level0 (g : Nat → Nat → Nat) (hg : ∀ col p, g col p = col)
    (palette tiaIn : List Nat) (b pos : Nat) (out rgb : List Nat) (hb : b < rgb.length) :
    (normalPixel palette tiaIn b pos out = none →
      phosphorPixel g palette tiaIn b pos (out, rgb) = none) ∧
    (∀ out1, normalPixel palette tiaIn b pos out = some out1 →
      ∃ rgb1 : List Nat, rgb1.length = rgb.length ∧
        phosphorPixel g palette tiaIn b pos (out, rgb) = some (out1, rgb1)) := by
  have hp : rgb[b]? = some rgb[b] := List.getElem?_eq_getElem hb
  unfold phosphorPixel normalPixel
  cases tiaIn[b]? with
  | none => exact ⟨fun _ => rfl, fun out1 h => by cases h⟩
  | some byte =>
    simp only []
    cases palette[byte]? with
    | none => exact ⟨fun _ => rfl, fun out1 h => by cases h⟩
    | some col =>
      simp only [hp, hg]
      unfold store
      by_cases hpos : pos < out.length
      · refine ⟨fun h => ?_, fun out1 h => ?_⟩
        · rw [if_pos hpos] at h
          cases h
        · rw [if_pos hpos, Option.some.injEq] at h
          refine ⟨rgb.set b col, List.length_set _ _ _, ?_⟩
          rw [if_pos hpos, if_pos hb, h]
      · refine ⟨fun _ => ?_, fun out1 h => ?_⟩
        · rw [if_neg hpos]
        · rw [if_neg hpos] at h
          cases h

/-- With `getPixel(new, prev) = new` the pixel statements of filter `Phosphor`
write the pixels that those of filter `Normal` write, and fault where they
fault, as long as the offsets are inside the accumulation buffer. -/
theorem iterPixels_phosphor_level0 (g : Nat → Nat → Nat) (hg : ∀ col p, g col p = col)
    (palette tiaIn : List Nat) (l : List (Nat × Nat)) :
    ∀ out rgb : List Nat, (∀ bp ∈ l, bp.1 < rgb.length) →
      (iterPixels (phosphorPixel g palette tiaIn) l (out, rgb)).map Prod.fst =
        iterPixels (normalPixel palette tiaIn) l out := by
  induction l with
  | nil => intro out rgb _; rfl
  | cons a l ih =>
    intro out rgb h
    obtain ⟨h1, h2⟩ := phosphorPixel_level0 g hg palette tiaIn a.1 a.2 out rgb
      (h a (List.mem_cons_self _ _))
    simp only [iterPixels]
    cases hn : normalPixel palette tiaIn a.1 a.2 out with
    | none =>
      rw [h1 hn]
      rfl
    | some out1 =>
      obtain ⟨rgb1, hlen, e⟩ := h2 out1 hn
      rw [e]
      exact ih out1 rgb1 (fun bp hbp => by
        rw [hlen]
        exact h bp (List.mem_cons_of_mem _ hbp))

theorem visits_bufofs_lt (w outPitch h : Nat) (bp : Nat × Nat)
    (hbp : bp ∈ visits (w / 2) outPitch h 0 0) : bp.1 < w * h := by
  rw [mem_visits] at hbp
  obtain ⟨r, k, hr, hk, rfl⟩ := hbp
  show 0 + r * (2 * (w / 2)) + k < w * h
  have h1 := index_lt_of_row_col k r (2 * (w / 2)) h hk hr
  have h2 : 2 * (w / 2) * h ≤ w * h := Nat.mul_le_mul_right _ (by omega)
  omega

theorem render_eq_renderFrame (c : Collaborators) (s : TIASurface) (shade : Bool)
    (hflag : s.mySaveSnapFlag = false) : s.render c shade = s.renderFrame c shade := by
  cases h : s.renderFrame c shade with
  | none =>
    unfold TIASurface.render
    rw [h]
  | some s1 =>
    have e := (renderFrame_effect c s s1 shade h).2.1
    exact render_not_pending c s s1 shade h (by rw [e, hflag])

/-- The pixels produced in filter `Phosphor` with `getPixel(new, prev) = new` and
in filter `Normal`. -/
theorem producePixels_level0 (c : Collaborators) (s : TIASurface)
    (hg : ∀ col p, c.getPixel col p = col)
    (hacc : s.tiaWidth * s.tiaHeight ≤ s.myRGBFramebuffer.length)
    (hprev : s.tiaWidth * s.tiaHeight ≤ s.myPrevRGBFramebuffer.length) :
    (TIASurface.producePixels c { s with myFilter := Filter.Phosphor }).map
        (fun t => t.tiaPixels) =
      (TIASurface.producePixels c { s with myFilter := Filter.Normal }).map
        (fun t => t.tiaPixels) := by
  have hn : (s.tiaWidth * s.tiaHeight) % 4294967296 ≤ s.tiaWidth * s.tiaHeight :=
    Nat.mod_le _ _
  have hsim := iterPixels_phosphor_level0 c.getPixel hg s.myPalette s.tiaFrameBuffer
    (visits (s.tiaWidth / 2) s.tiaPitch s.tiaHeight 0 0) s.tiaPixels s.myRGBFramebuffer
    (fun bp hbp => by
      have := visits_bufofs_lt s.tiaWidth s.tiaPitch s.tiaHeight bp hbp
      omega)
  have hcopy := pending_copy_eq ({ s with myFilter := Filter.Phosphor } : TIASurface)
    ((s.tiaWidth * s.tiaHeight) % 4294967296)
    (by show _ ≤ s.myRGBFramebuffer.length; omega)
    (by show _ ≤ s.myPrevRGBFramebuffer.length; omega)
  have hP : TIASurface.producePixels c { s with myFilter := Filter.Phosphor } =
      match scanRows (phosphorPixel c.getPixel s.myPalette s.tiaFrameBuffer) s.tiaWidth
          s.tiaPitch s.tiaHeight 0 0 (s.tiaPixels, s.myRGBFramebuffer) with
      | none => none
      | some (out, rgb) =>
        some { ({ s with myFilter := Filter.Phosphor } : TIASurface) with
          tiaPixels := out
          myRGBFramebuffer := rgb
          myPrevRGBFramebuffer :=
            TIASurface.prevAfterCopy { s with myFilter := Filter.Phosphor }
              ((s.tiaWidth * s.tiaHeight) % 4294967296) } := by
    unfold TIASurface.producePixels
    rw [if_neg (by decide : ¬ Filter.Phosphor = Filter.Normal), if_pos rfl]
    show (match (if s.mySaveSnapFlag = true then
        copy_n s.myRGBFramebuffer ((s.tiaWidth * s.tiaHeight) % 4294967296)
          s.myPrevRGBFramebuffer
      else some s.myPrevRGBFramebuffer) with
      | none => none
      | some prev => _) = _
    change (if s.mySaveSnapFlag = true then
        copy_n s.myRGBFramebuffer ((s.tiaWidth * s.tiaHeight) % 4294967296)
          s.myPrevRGBFramebuffer
      else some s.myPrevRGBFramebuffer) = _ at hcopy
    rw [hcopy]
  have hN : TIASurface.producePixels c { s with myFilter := Filter.Normal } =
      match scanRows (normalPixel s.myPalette s.tiaFrameBuffer) s.tiaWidth s.tiaPitch
          s.tiaHeight 0 0 s.tiaPixels with
      | none => none
      | some out => some { ({ s with myFilter := Filter.Normal } : TIASurface) with
          tiaPixels := out } := by
    unfold TIASurface.producePixels
    rw [if_pos rfl]
  rw [hP, hN, scanRows_eq_iter, scanRows_eq_iter, ← hsim]
  cases iterPixels (phosphorPixel c.getPixel s.myPalette s.tiaFrameBuffer)
      (visits (s.tiaWidth / 2) s.tiaPitch s.tiaHeight 0 0) (s.tiaPixels, s.myRGBFramebuffer) with
  | none => rfl
  | some st => rfl

theorem renderFrame_map_tiaPixels (c : Collaborators) (s : TIASurface) (shade : Bool) :
    (s.renderFrame c shade).map (fun t => t.tiaPixels) =
      (s.producePixels c).map (fun t => t.tiaPixels) := by
  unfold TIASurface.renderFrame
  cases s.producePixels c with
  | none => rfl
  | some s1 => rfl

/-- C20: at level 0, where `getPixel(new, prev) = new`, `render` in filter
`Phosphor` produces exactly the pixel buffer that `render` in filter `Normal`
produces, and faults exactly where it faults, for every width, height, pitch,
frame, palette and contents of the accumulation buffer (which, like the
previous buffer, holds at least `w * h` entries): so for the pixel production
and drawing of `render` in every state, and for the whole of `render` when no
snapshot is pending. -/
theorem phosphor_level0_refines_normal (c : Collaborators) (s : TIASurface) (shade : Bool)
    (hg : ∀ col p, c.getPixel col p = col)
    (hacc : s.tiaWidth * s.tiaHeight ≤ s.myRGBFramebuffer.length)
    (hprev : s.tiaWidth * s.tiaHeight ≤ s.myPrevRGBFramebuffer.length) :
    (TIASurface.renderFrame c { s with myFilter := Filter.Phosphor } shade).map
        (fun t => t.tiaPixels) =
      (TIASurface.renderFrame c { s with myFilter := Filter.Normal } shade).map
        (fun t => t.tiaPixels) ∧
    (s.mySaveSnapFlag = false →
      (TIASurface.render c { s with myFilter := Filter.Phosphor } shade).map
          (fun t => t.tiaPixels) =
        (TIASurface.render c { s with myFilter := Filter.Normal } shade).map
          (fun t => t.tiaPixels)) := by
  have h1 : (TIASurface.renderFrame c { s with myFilter := Filter.Phosphor } shade).map
        (fun t => t.tiaPixels) =
      (TIASurface.renderFrame c { s with myFilter := Filter.Normal } shade).map
        (fun t => t.tiaPixels) := by
    rw [renderFrame_map_tiaPixels, renderFrame_map_tiaPixels]
    exact producePixels_level0 c s hg hacc hprev
  refine ⟨h1, fun hflag => ?_⟩
  rw [render_eq_renderFrame c ({ s with myFilter := Filter.Phosphor } : TIASurface) shade hflag,
    render_eq_renderFrame c ({ s with myFilter := Filter.Normal } : TIASurface) shade hflag]
  exact h1

/-- Witness of C20 on `phosphorSample`, whose accumulation buffer holds stale
pixels: both filters produce `[0xFF0000, 0x00FF00]`. -/
theorem phosphor_level0_refines_normal_witness :
    (TIASurface.render plainCollaborators
        { phosphorSample with myFilter := Filter.Phosphor } false).map
        (fun t => t.tiaPixels) = some [0xFF0000, 0x00FF00] ∧
    (TIASurface.render plainCollaborators
        { phosphorSample with myFilter := Filter.Phosphor } false).map
        (fun t => t.tiaPixels) =
      (TIASurface.render plainCollaborators
        { phosphorSample with myFilter := Filter.Normal } false).map
        (fun t => t.tiaPixels) :=
  ⟨by decide,
   (phosphor_level0_refines_normal plainCollaborators phosphorSample false
      (fun _ _ => rfl) (by decide) (by decide)).2 rfl⟩

/-! ## Cycling with an arbitrary direction argument -/

theorem clampw_bounds (v lower upper : Int) (h : lower ≤ upper) :
    lower ≤ BSPF.clampw v lower upper ∧ BSPF.clampw v lower upper ≤ upper := by
  unfold BSPF.clampw
  split
  · exact ⟨h, le_refl _⟩
  · split
    · exact ⟨le_refl _, h⟩
    · constructor <;> omega

/-- A match of the stored name at a loop counter inside the list selects one of
the four masks, whatever the direction. -/
theorem maskHit_in_list (s : TIASurface) (direction i : Int) (h0 : 0 ≤ i) (h4 : i < 4) :
    ∃ (m : Nat) (name : String), m < 4 ∧ s.Masks[m]? = some name ∧
      s.maskHit direction i =
        some ((m : Int), if direction = 0 then s else s.storeMask name) := by
  have hlen : s.Masks.length = 4 := rfl
  by_cases hd : direction = 0
  · obtain ⟨k, hk⟩ := Int.eq_ofNat_of_zero_le h0
    have hk4 : k < 4 := by omega
    refine ⟨k, s.Masks[k], hk4, List.getElem?_eq_getElem (by omega), ?_⟩
    unfold TIASurface.maskHit
    rw [if_neg (by simpa using hd), if_pos hd, hk]
  · have hb := clampw_bounds (wrapInt32 (i + direction)) 0 ((NumMasks : Int) - 1) (by decide)
    generalize hj : BSPF.clampw (wrapInt32 (i + direction)) 0 ((NumMasks : Int) - 1) = j at hb
    have hN : ((NumMasks : Nat) : Int) = 4 := rfl
    obtain ⟨k, hk⟩ := Int.eq_ofNat_of_zero_le hb.1
    have hk4 : k < 4 := by omega
    have hidx : indexInt s.Masks j = some s.Masks[k] := by
      unfold indexInt
      rw [if_pos hb.1, hk, Int.toNat_ofNat]
      exact List.getElem?_eq_getElem (by omega)
    refine ⟨k, s.Masks[k], hk4, List.getElem?_eq_getElem (by omega), ?_⟩
    unfold TIASurface.maskHit
    rw [if_pos hd, hj, hidx, if_neg hd, hk]

/-- The loop of `scanlineMaskType` over a tail of `Masks` that holds the stored
name selects one of the four masks, whatever the direction. -/
theorem scanlineMaskLoop_in_list (s : TIASurface) (direction : Int) (rest : List String) :
    ∀ i : Int, 0 ≤ i → i + (rest.length : Int) ≤ 4 → s.settings.tvScanmask ∈ rest →
      ∃ (m : Nat) (name : String), m < 4 ∧ s.Masks[m]? = some name ∧
        s.scanlineMaskLoop direction rest i =
          some ((m : Int), if direction = 0 then s else s.storeMask name) := by
  induction rest with
  | nil => intro i _ _ hmem; cases hmem
  | cons mask rest ih =>
    intro i h0 h4 hmem
    simp only [List.length_cons, Nat.cast_add, Nat.cast_one] at h4
    by_cases hm : mask = s.settings.tvScanmask
    · rw [scanlineMaskLoop_head s direction mask rest i hm]
      exact maskHit_in_list s direction i h0 (by omega)
    · have hrest : s.settings.tvScanmask ∈ rest := by
        rcases List.mem_cons.mp hmem with h | h
        · exact absurd h.symm hm
        · exact h
      obtain ⟨m, name, h1, h2, h3⟩ := ih (i + 1) (by omega) (by omega) hrest
      refine ⟨m, name, h1, h2, ?_⟩
      rw [TIASurface.scanlineMaskLoop, if_neg hm]
      exact h3

/-- The index that `changeNTSC` computes from a stored preset in `0..5` is in
`0..5`, whatever the direction. -/
theorem changeNTSCIndex_in_table (preset direction : Int) (h0 : 0 ≤ preset) (h5 : preset ≤ 5) :
    0 ≤ changeNTSCIndex preset direction ∧ changeNTSCIndex preset direction ≤ 5 := by
  obtain ⟨k, hk⟩ := Int.eq_ofNat_of_zero_le h0
  have hk5 : k ≤ 5 := by omega
  subst hk
  unfold changeNTSCIndex
  by_cases h1 : direction = 1
  · rw [if_pos h1]
    interval_cases k <;> decide
  · rw [if_neg h1]
    by_cases h2 : direction = -1
    · rw [if_pos h2]
      interval_cases k <;> decide
    · rw [if_neg h2]
      omega

/-- C25: for every direction argument the cycling operations stay inside their
lists. With a stored mask name that is one of the four setting names,
`scanlineMaskType` returns one of the four masks and, for a direction other than
0, stores the name of that mask (direction 0 stores nothing). With a stored
preset in `0..5`, `changeNTSC` indexes the table `PRESETS` inside its bounds,
returns, and selects and persists one of the six presets. -/
theorem cycling_stays_in_lists (s : TIASurface) (direction : Int) :
    (s.settings.tvScanmask ∈ s.Masks →
      ∃ (m : Nat) (name : String), m < 4 ∧ s.Masks[m]? = some name ∧
        s.scanlineMaskType direction =
          some ((m : Int), if direction = 0 then s else s.storeMask name)) ∧
    (0 ≤ s.settings.tvFilter → s.settings.tvFilter ≤ 5 →
      ∃ (q : Nat) (p : Int), q < 6 ∧ changeNTSCIndex s.settings.tvFilter direction = (q : Int) ∧
        PRESETS[q]? = some p ∧ p ∈ PRESETS ∧
        s.changeNTSC direction = some (s.setNTSC p) ∧
        (s.setNTSC p).settings.tvFilter = p) := by
  constructor
  · intro hmem
    have hlen : (0 : Int) + (s.Masks.length : Int) ≤ 4 := by
      have : s.Masks.length = 4 := rfl
      omega
    exact scanlineMaskLoop_in_list s direction s.Masks 0 (le_refl _) hlen hmem
  · intro h0 h5
    obtain ⟨hb0, hb5⟩ := changeNTSCIndex_in_table s.settings.tvFilter direction h0 h5
    obtain ⟨q, hq⟩ := Int.eq_ofNat_of_zero_le hb0
    have hq6 : q < PRESETS.length := by
      show q < 6
      omega
    have hget : PRESETS[q]? = some PRESETS[q] := List.getElem?_eq_getElem hq6
    refine ⟨q, PRESETS[q], hq6, hq, hget, List.getElem_mem _, ?_, rfl⟩
    apply changeNTSC_eq
    rw [hq]
    unfold indexInt
    rw [if_pos (Int.natCast_nonneg q), Int.toNat_ofNat]
    exact hget

/-- Witness of C25 on `sample` with `"mame"` stored and preset 5, at direction 7:
the mask wraps to Standard, the preset stays Custom. -/
theorem cycling_stays_in_lists_witness :
    (∃ (m : Nat) (name : String), m < 4 ∧ (sample.storeMask "mame").Masks[m]? = some name ∧
        (sample.storeMask "mame").scanlineMaskType 7 =
          some ((m : Int), if (7 : Int) = 0 then sample.storeMask "mame"
            else (sample.storeMask "mame").storeMask name)) ∧
    (sample.storeMask "mame").scanlineMaskType 7 =
      some (0, (sample.storeMask "mame").storeMask "standard") ∧
    (∃ (q : Nat) (p : Int), q < 6 ∧
        changeNTSCIndex (sample.storeMask "mame").settings.tvFilter 7 = (q : Int) ∧
        PRESETS[q]? = some p ∧ p ∈ PRESETS ∧
        (sample.storeMask "mame").changeNTSC 7 = some ((sample.storeMask "mame").setNTSC p) ∧
        ((sample.storeMask "mame").setNTSC p).settings.tvFilter = p) :=
  ⟨(cycling_stays_in_lists (sample.storeMask "mame") 7).1 (by decide), by decide,
   (cycling_stays_in_lists (sample.storeMask "mame") 7).2 (by decide) (by decide)⟩

/-! ## The call `setNTSC` and the filter bits -/

theorem or_keeps_phosphor (f : Nat) : ((f ||| 0x10) % 256) &&& 0x01 = f &&& 0x01 := by
  apply Nat.eq_of_testBit_eq
  intro i
  rw [Nat.testBit_and, Nat.testBit_and, show (256 : Nat) = 2 ^ 8 from rfl,
    Nat.testBit_mod_two_pow, Nat.testBit_or]
  cases i with
  | zero => simp
  | succ n =>
    have : Nat.testBit 1 (n + 1) = false := by
      rw [Nat.testBit_succ]; simp
    rw [this]; simp

theorem and_keeps_phosphor (f : Nat) : ((f &&& 0x01) % 256) &&& 0x01 = f &&& 0x01 := by
  simp only [Nat.and_one_is_mod]
  omega

theorem enableNTSC_phosphorBit (s : TIASurface) (enable : Bool) :
    Filter.phosphorBit (s.enableNTSC enable).myFilter = Filter.phosphorBit s.myFilter := by
  unfold Filter.phosphorBit
  rw [enableNTSC_myFilter]
  cases enable
  · simp only [Bool.false_eq_true, if_false]
    rw [and_keeps_phosphor]
  · simp only [if_true]
    rw [or_keeps_phosphor]

/-- C26: for every preset `p`, in particular each of the six of the preset list,
and every prior filter value, `setNTSC(p)` leaves the composite bit `0x10` of
the filter set if and only if `p` is not Off, keeps the phosphor bit `0x01` as
it was, and persists `tv.filter = p`. -/
theorem setNTSC_composite_iff_not_off (s : TIASurface) (p : Int) :
    (Filter.compositeBit (s.setNTSC p).myFilter = true ↔ p ≠ Preset.OFF) ∧
    (s.setNTSC p).ntscEnabled = decide (p ≠ Preset.OFF) ∧
    Filter.phosphorBit (s.setNTSC p).myFilter = Filter.phosphorBit s.myFilter ∧
    (s.setNTSC p).settings.tvFilter = p := by
  have h := setNTSC_ntscEnabled s p
  refine ⟨?_, h, ?_, rfl⟩
  · have h2 : Filter.compositeBit (s.setNTSC p).myFilter = decide (p ≠ Preset.OFF) := h
    rw [h2]
    simp
  · rw [setNTSC_myFilter]
    exact enableNTSC_phosphorBit s _

/-- Witness of C26 on `sample`, in filter `Phosphor`: `setNTSC(RGB)` gives filter
`BlarggPhosphor` and persists RGB; `setNTSC(OFF)` gives back `Phosphor`. -/
theorem setNTSC_composite_iff_not_off_witness :
    (sample.setNTSC Preset.RGB).myFilter = Filter.BlarggPhosphor ∧
    ((sample.setNTSC Preset.RGB).setNTSC Preset.OFF).myFilter = Filter.Phosphor ∧
    (Filter.compositeBit (sample.setNTSC Preset.RGB).myFilter = true ↔
      Preset.RGB ≠ Preset.OFF) ∧
    (sample.setNTSC Preset.RGB).settings.tvFilter = Preset.RGB :=
  ⟨by decide, by decide, (setNTSC_composite_iff_not_off sample Preset.RGB).1,
   (setNTSC_composite_iff_not_off sample Preset.RGB).2.2.2⟩

/-! ## The step of the scanline intensity -/

theorem toInt32_add_wrapped (a : Nat) (d : Int) (ha : a ≤ 100)
    (hlo : -1073741824 < d) (hhi : d < 1073741824) (hsum : (a : Int) + 2 * d < 2147483648) :
    toInt32 ((a + toUInt32 (wrapInt32 (d * 2))) % 4294967296) = (a : Int) + 2 * d := by
  have hw : wrapInt32 (d * 2) = d * 2 := by
    unfold wrapInt32 toInt32 toUInt32
    split <;> omega
  rw [hw]
  have hu : ((toUInt32 (d * 2) : Nat) : Int) = (d * 2) % 4294967296 := by
    unfold toUInt32
    exact Int.toNat_of_nonneg (Int.emod_nonneg _ (by decide))
  generalize toUInt32 (d * 2) = u at hu
  by_cases hs : 0 ≤ (a : Int) + 2 * d
  · have hn : (((a + u) % 4294967296 : Nat) : Int) = (a : Int) + 2 * d := by omega
    generalize (a + u) % 4294967296 = n at hn
    unfold toInt32
    split <;> omega
  · have hn : (((a + u) % 4294967296 : Nat) : Int) = (a : Int) + 2 * d + 4294967296 := by omega
    generalize (a + u) % 4294967296 = n at hn
    unfold toInt32
    split <;> omega

/-- Counterexample to C27 as stated: at intensity 100 and direction `2^30 - 1`
the sum `100 + 2 * d` exceeds the largest `Int32`; the cast makes it negative and
the stored intensity is 0, whereas `clamp(100 + 2 * d, 0, 100)` is 100. -/
theorem changeScanlineIntensity_wraps :
    (({ fresh with mySLineSurface := { attr := { blendalpha := 100 } } } :
      TIASurface).changeScanlineIntensity 1073741823).settings.tvScanlines = 0 ∧
    BSPF.clamp ((100 : Int) + 2 * 1073741823) 0 100 = 100 ∧
    ¬ (∀ (s : TIASurface) (d : Int), s.mySLineSurface.attr.blendalpha ≤ 100 →
        -1073741824 < d → d < 1073741824 →
        (s.changeScanlineIntensity d).settings.tvScanlines =
          BSPF.clamp ((s.mySLineSurface.attr.blendalpha : Int) + 2 * d) 0 100) := by
  have h1 : (({ fresh with mySLineSurface := { attr := { blendalpha := 100 } } } :
      TIASurface).changeScanlineIntensity 1073741823).settings.tvScanlines = 0 := by
    rw [(changeScanlineIntensity_value _ _).1]
    decide
  refine ⟨h1, by decide, fun h => ?_⟩
  have h2 := h ({ fresh with mySLineSurface := { attr := { blendalpha := 100 } } } : TIASurface)
    1073741823 (by decide) (by decide) (by decide)
  rw [h1] at h2
  revert h2
  decide

/-- C27, amended: for every blend alpha `a` in `0..100` of the mask surface (the
current intensity the function reads) and every direction `d` with
`|d| < 2^30` and `a + 2 * d < 2^31`, `changeScanlineIntensity` stores
`clamp(a + 2 * d, 0, 100)`, computed over the integers, in `tv.scanlines` and in
the blend alpha; when `a + 2 * d` is negative the stored value is 0, and when it
exceeds 100 the stored value is 100. -/
theorem changeScanlineIntensity_exact (s : TIASurface) (d : Int)
    (ha : s.mySLineSurface.attr.blendalpha ≤ 100)
    (hlo : -1073741824 < d) (hhi : d < 1073741824)
    (hsum : (s.mySLineSurface.attr.blendalpha : Int) + 2 * d < 2147483648) :
    (s.changeScanlineIntensity d).settings.tvScanlines =
      BSPF.clamp ((s.mySLineSurface.attr.blendalpha : Int) + 2 * d) 0 100 ∧
    ((s.changeScanlineIntensity d).mySLineSurface.attr.blendalpha : Int) =
      BSPF.clamp ((s.mySLineSurface.attr.blendalpha : Int) + 2 * d) 0 100 ∧
    ((s.mySLineSurface.attr.blendalpha : Int) + 2 * d < 0 →
      (s.changeScanlineIntensity d).settings.tvScanlines = 0) ∧
    ((s.mySLineSurface.attr.blendalpha : Int) + 2 * d > 100 →
      (s.changeScanlineIntensity d).settings.tvScanlines = 100) := by
  obtain ⟨hv, hb⟩ := changeScanlineIntensity_value s d
  rw [toInt32_add_wrapped _ d ha hlo hhi hsum] at hv
  refine ⟨hv, hb.trans hv, fun hneg => ?_, fun hbig => ?_⟩
  · rw [hv]
    unfold BSPF.clamp
    rw [if_pos hneg]
  · rw [hv]
    unfold BSPF.clamp
    rw [if_neg (by omega), if_pos hbig]

/-- Witness of C27 on `fresh` with the mask surface at intensity 4 and direction
`-3`: the stored value is 0. -/
theorem changeScanlineIntensity_exact_witness :
    (({ fresh with mySLineSurface := { attr := { blendalpha := 4 } } } :
      TIASurface).changeScanlineIntensity (-3)).settings.tvScanlines = 0 :=
  (changeScanlineIntensity_exact
    ({ fresh with mySLineSurface := { attr := { blendalpha := 4 } } } : TIASurface) (-3)
    (by decide) (by decide) (by decide) (by decide)).2.2.1 (by decide)

/-! ## Bounds of the pattern tables -/

/-- C28: for each of the four mask kinds `m` with declared size `Sizes[m]`, the
table `Pattern[m]` has `tileHeight * repeatCount` rows and every row has
`tileWidth` entries; so for every surface width, every TIA height and every
buffer index `i` the row index `(i / width) % (tileHeight * repeatCount)` and
the column index `i % tileWidth` address an existing texel, which is the value
written to `data[i]`, and `createScanlineSurface` returns in every state. -/
theorem pattern_lookups_in_bounds (m : Nat) (size : PatternSize)
    (hsz : Sizes[m]? = some size) :
    ∃ tile, Pattern[m]? = some tile ∧ tile.length = size.height * size.hRepeats ∧
      (∀ row ∈ tile, row.length = size.width) ∧
      (∀ width i : Nat, ∃ row v,
        (i / width) % (size.height * size.hRepeats) < tile.length ∧
        tile[(i / width) % (size.height * size.hRepeats)]? = some row ∧
        i % size.width < row.length ∧ row[i % size.width]? = some v ∧
        texel m size width i = some v) ∧
      ∀ s : TIASurface, ∃ t, s.createScanlineSurface = some t := by
  have hm : m < 4 := by
    by_contra hc
    have : Sizes[m]? = none := by
      apply List.getElem?_eq_none
      simp only [Sizes, List.length_cons, List.length_nil]
      omega
    rw [this] at hsz
    cases hsz
  have hcore : ∃ tile, Pattern[m]? = some tile ∧ tile.length = size.height * size.hRepeats ∧
      (∀ row ∈ tile, row.length = size.width) ∧ 0 < size.width ∧
      0 < size.height * size.hRepeats := by
    interval_cases m <;> simp only [Sizes, List.getElem?_cons_zero, List.getElem?_cons_succ,
      Option.some.injEq] at hsz <;> subst hsz <;> exact ⟨_, rfl, by decide, by decide,
        by decide, by decide⟩
  obtain ⟨tile, htile, hlen, hrows, hw, hh⟩ := hcore
  refine ⟨tile, htile, hlen, hrows, fun width i => ?_, fun s => ?_⟩
  · have hr : (i / width) % (size.height * size.hRepeats) < tile.length := by
      rw [hlen]
      exact Nat.mod_lt _ hh
    have hrow : (tile[(i / width) % (size.height * size.hRepeats)]).length = size.width :=
      hrows _ (List.getElem_mem _)
    have hc : i % size.width < (tile[(i / width) % (size.height * size.hRepeats)]).length := by
      rw [hrow]
      exact Nat.mod_lt _ hw
    refine ⟨tile[(i / width) % (size.height * size.hRepeats)],
      (tile[(i / width) % (size.height * size.hRepeats)])[i % size.width], hr,
      List.getElem?_eq_getElem hr, hc, List.getElem?_eq_getElem hc, ?_⟩
    unfold texel
    simp only [htile, List.getElem?_eq_getElem hr, List.getElem?_eq_getElem hc]
  · obtain ⟨_, _, _, _, _, h⟩ := createScanlineSurface_returns s
    exact ⟨_, h⟩

/-- Witness of C28 at the mask MAME (`Sizes[3]`, a tile of 3 x 4 texels repeated
3 times): the table has 12 rows of 3 entries. -/
theorem pattern_lookups_in_bounds_witness :
    ∃ tile, Pattern[3]? = some tile ∧ tile.length = 4 * 3 ∧
      (∀ row ∈ tile, row.length = 3) ∧
      (∀ width i : Nat, ∃ row v,
        (i / width) % (4 * 3) < tile.length ∧
        tile[(i / width) % (4 * 3)]? = some row ∧
        i % 3 < row.length ∧ row[i % 3]? = some v ∧
        texel 3 ⟨3, 4, 3⟩ width i = some v) ∧
      ∀ s : TIASurface, ∃ t, s.createScanlineSurface = some t :=
  pattern_lookups_in_bounds 3 ⟨3, 4, 3⟩ rfl

/-! ## Scanline intensity and the compositing of the mask surface -/

/-- The number of times `render` draws the scanline mask surface. -/
theorem render_sLineRenders (c : Collaborators) (s t : TIASurface) (shade : Bool)
    (h : s.render c shade = some t) :
    (s.myScanlinesEnabled = false → t.sLineRenders = s.sLineRenders) ∧
    (s.myScanlinesEnabled = true → s.sLineRenders + 1 ≤ t.sLineRenders) ∧
    (s.mySaveSnapFlag = false →
      t.sLineRenders = s.sLineRenders + (if s.myScanlinesEnabled = true then 1 else 0)) := by
  cases hframe : s.renderFrame c shade with
  | none =>
    unfold TIASurface.render at h
    rw [hframe] at h
    cases h
  | some s1 =>
    obtain ⟨e1, e2, -, e4, -, -, -, e8, -⟩ := renderFrame_effect c s s1 shade hframe
    have e8' : s1.sLineRenders =
        s.sLineRenders + (if s.myScanlinesEnabled = true then 1 else 0) := by
      rw [e8]
      split <;> rfl
    by_cases hflag : s.mySaveSnapFlag = true
    · have hnf : ¬ s.mySaveSnapFlag = false := by rw [hflag]; decide
      by_cases hpng : c.pngSupport = true
      · rw [render_pending c s s1 shade hframe (by rw [e2, hflag]) hpng] at h
        split at h
        · cases h
        · next u hu =>
          obtain ⟨-, -, -, d4, -, -, -, d8⟩ := snapshotPixels_effect c _ u hu rfl
          simp only [Option.some.injEq] at h
          subst h
          obtain ⟨-, -, -, -, f5⟩ := snapshotDraw_effect u
          change u.myScanlinesEnabled = s1.myScanlinesEnabled at d4
          change u.sLineRenders =
            (if (s1.myFilter = Filter.Normal ∨ s1.myFilter = Filter.BlarggNormal) ∧
                s1.myScanlinesEnabled = true
              then s1.sLineRenders + 1 else s1.sLineRenders) at d8
          rw [f5, d4, d8, e4, e8']
          refine ⟨fun hs => ?_, fun hs => ?_, fun hh => absurd hh hnf⟩
          · rw [hs]
            simp
          · split <;> split <;> omega
      · have hpng' : c.pngSupport = false := by
          cases hh : c.pngSupport
          · rfl
          · exact absurd hh hpng
        rw [render_pending_no_png c s s1 shade hframe (by rw [e2, hflag]) hpng'] at h
        simp only [Option.some.injEq] at h
        subst h
        refine ⟨fun hs => ?_, fun hs => ?_, fun hh => absurd hh hnf⟩
        · show s1.sLineRenders = s.sLineRenders
          rw [e8', hs]
          simp
        · show s.sLineRenders + 1 ≤ s1.sLineRenders
          rw [e8', if_pos hs]
    · have hflag' : s.mySaveSnapFlag = false := by
        cases hh : s.mySaveSnapFlag
        · rfl
        · exact absurd hh hflag
      rw [render_not_pending c s s1 shade hframe (by rw [e2, hflag'])] at h
      simp only [Option.some.injEq] at h
      subst h
      rw [e8']
      refine ⟨fun hs => ?_, fun hs => ?_, fun _ => rfl⟩
      · rw [hs]
        simp
      · rw [if_pos hs]

theorem enableNTSC_scanlines (s : TIASurface) (enable : Bool) :
    (s.enableNTSC enable).settings = s.settings ∧
    (s.enableNTSC enable).myScanlinesEnabled = decide (s.settings.tvScanlines > 0) ∧
    (s.enableNTSC enable).mySLineSurface.attr.blending = decide (s.settings.tvScanlines > 0) ∧
    (s.enableNTSC enable).mySLineSurface.attr.blendalpha = toUInt32 s.settings.tvScanlines :=
  ⟨rfl, rfl, rfl, rfl⟩

/-- C21: the scanline mask surface is composited if and only if the scanline
intensity is greater than 0. After `enableNTSC` and after
`changeScanlineIntensity` the flag `myScanlinesEnabled` and the blending flag of
the mask surface are true exactly when the stored `tv.scanlines` is `> 0`, and
the blend alpha of the mask surface is the stored value as `uInt32`, hence equal
to it whenever the stored value is not negative, which is always so after
`changeScanlineIntensity`. When `render` returns, it has drawn the mask surface
if and only if the flag was true (once when no snapshot is pending). -/
theorem scanlines_follow_intensity (s : TIASurface) :
    (∀ enable : Bool,
      ((s.enableNTSC enable).myScanlinesEnabled = true ↔
        0 < (s.enableNTSC enable).settings.tvScanlines) ∧
      ((s.enableNTSC enable).mySLineSurface.attr.blending = true ↔
        0 < (s.enableNTSC enable).settings.tvScanlines) ∧
      (s.enableNTSC enable).mySLineSurface.attr.blendalpha =
        toUInt32 (s.enableNTSC enable).settings.tvScanlines ∧
      (0 ≤ (s.enableNTSC enable).settings.tvScanlines →
        (s.enableNTSC enable).settings.tvScanlines < 4294967296 →
        (((s.enableNTSC enable).mySLineSurface.attr.blendalpha : Nat) : Int) =
          (s.enableNTSC enable).settings.tvScanlines)) ∧
    (∀ direction : Int,
      ((s.changeScanlineIntensity direction).myScanlinesEnabled = true ↔
        0 < (s.changeScanlineIntensity direction).settings.tvScanlines) ∧
      ((s.changeScanlineIntensity direction).mySLineSurface.attr.blending = true ↔
        0 < (s.changeScanlineIntensity direction).settings.tvScanlines) ∧
      (((s.changeScanlineIntensity direction).mySLineSurface.attr.blendalpha : Nat) : Int) =
        (s.changeScanlineIntensity direction).settings.tvScanlines) ∧
    (∀ (c : Collaborators) (shade : Bool) (t : TIASurface), s.render c shade = some t →
      (s.sLineRenders < t.sLineRenders ↔ s.myScanlinesEnabled = true) ∧
      (s.mySaveSnapFlag = false →
        t.sLineRenders = s.sLineRenders + (if s.myScanlinesEnabled = true then 1 else 0))) := by
  have hen : ∀ (u : TIASurface) (enable : Bool),
      ((u.enableNTSC enable).myScanlinesEnabled = true ↔
        0 < (u.enableNTSC enable).settings.tvScanlines) ∧
      ((u.enableNTSC enable).mySLineSurface.attr.blending = true ↔
        0 < (u.enableNTSC enable).settings.tvScanlines) := by
    intro u enable
    obtain ⟨e1, e2, e3, -⟩ := enableNTSC_scanlines u enable
    rw [e1, e2, e3]
    simp
  refine ⟨fun enable => ?_, fun direction => ?_, fun c shade t h => ?_⟩
  · obtain ⟨e1, -, -, e4⟩ := enableNTSC_scanlines s enable
    refine ⟨(hen s enable).1, (hen s enable).2, by rw [e4, e1], fun h0 h1 => ?_⟩
    rw [e4, e1]
    rw [e1] at h0 h1
    exact toUInt32_of_small _ h0 h1
  · refine ⟨?_, ?_, (changeScanlineIntensity_value s direction).2⟩
    · unfold TIASurface.changeScanlineIntensity
      exact (hen _ _).1
    · unfold TIASurface.changeScanlineIntensity
      exact (hen _ _).2
  · obtain ⟨h1, h2, h3⟩ := render_sLineRenders c s t shade h
    refine ⟨⟨fun hlt => ?_, fun hs => ?_⟩, h3⟩
    · cases hs : s.myScanlinesEnabled
      · rw [h1 hs] at hlt
        exact absurd hlt (Nat.lt_irrefl _)
      · rfl
    · have := h2 hs
      omega

/-- Witness of C21 on the 2 x 1 scenario after `changeScanlineIntensity(5)`: the
stored intensity is 100, and `render` returns with the mask surface drawn once. -/
theorem scanlines_follow_intensity_witness :
    (twoByOne.changeScanlineIntensity 5).settings.tvScanlines = 100 ∧
    (twoByOne.changeScanlineIntensity 5).myScanlinesEnabled = true ∧
    ((twoByOne.changeScanlineIntensity 5).render plainCollaborators false).map
      (fun t => t.sLineRenders) = some 1 ∧
    ∀ t : TIASurface, (twoByOne.changeScanlineIntensity 5).render plainCollaborators false = some t →
      ((twoByOne.changeScanlineIntensity 5).sLineRenders < t.sLineRenders ↔
        (twoByOne.changeScanlineIntensity 5).myScanlinesEnabled = true) :=
  ⟨by decide, by decide, by decide, fun t ht =>
    ((scanlines_follow_intensity (twoByOne.changeScanlineIntensity 5)).2.2
      plainCollaborators false t ht).1⟩

/-! ## Only the Custom preset is edited -/

theorem setNTSC_custom (s : TIASurface) :
    (s.setNTSC Preset.CUSTOM).settings.tvFilter = Preset.CUSTOM ∧
    (s.setNTSC Preset.CUSTOM).ntscEnabled = true ∧
    Filter.compositeBit (s.setNTSC Preset.CUSTOM).myFilter = true ∧
    (s.setNTSC Preset.CUSTOM).ntscPreset = Preset.CUSTOM ∧
    (s.setNTSC Preset.CUSTOM).ntscAdjustables = s.ntscAdjustables := by
  have h := setNTSC_ntscEnabled s Preset.CUSTOM
  have hne : Preset.CUSTOM ≠ Preset.OFF := by decide
  rw [decide_eq_true hne] at h
  refine ⟨rfl, h, h, setNTSC_ntscPreset s _ hne, ?_⟩
  unfold TIASurface.setNTSC
  rw [if_neg hne]
  rfl

/-- C22: only the Custom preset is edited. For every state, whatever preset was
active (Off included), each of `setNTSCAdjustable`, `changeNTSCAdjustable` and
`changeCurrentNTSCAdjustable` first selects Custom: the call on the NTSC filter
that edits an adjustable is made on the state `setNTSC(CUSTOM)` leaves, in which
the persisted and the loaded preset are Custom and composite filtering is
enabled; and with a `saveConfig` that leaves the key `tv.filter` the same holds
of the state the operation returns. -/
theorem adjustables_edit_custom_only (n : AdjustableCalls) (s : TIASurface)
    (hsave : ∀ (a : List Int) (st : Settings), (n.saveConfig a st).tvFilter = st.tvFilter)
    (adjustable direction : Int) :
    ((s.setNTSC Preset.CUSTOM).settings.tvFilter = Preset.CUSTOM ∧
      (s.setNTSC Preset.CUSTOM).ntscPreset = Preset.CUSTOM ∧
      Filter.compositeBit (s.setNTSC Preset.CUSTOM).myFilter = true) ∧
    ((s.setNTSCAdjustable n direction).ntscAdjustables =
        n.selectAdjustable direction (s.setNTSC Preset.CUSTOM).ntscAdjustables ∧
      (s.setNTSCAdjustable n direction).settings.tvFilter = Preset.CUSTOM ∧
      (s.setNTSCAdjustable n direction).ntscPreset = Preset.CUSTOM ∧
      (s.setNTSCAdjustable n direction).ntscEnabled = true ∧
      Filter.compositeBit (s.setNTSCAdjustable n direction).myFilter = true) ∧
    ((s.changeNTSCAdjustable n adjustable direction).ntscAdjustables =
        n.changeAdjustable adjustable direction (s.setNTSC Preset.CUSTOM).ntscAdjustables ∧
      (s.changeNTSCAdjustable n adjustable direction).settings.tvFilter = Preset.CUSTOM ∧
      (s.changeNTSCAdjustable n adjustable direction).ntscPreset = Preset.CUSTOM ∧
      (s.changeNTSCAdjustable n adjustable direction).ntscEnabled = true ∧
      Filter.compositeBit (s.changeNTSCAdjustable n adjustable direction).myFilter = true) ∧
    ((s.changeCurrentNTSCAdjustable n direction).ntscAdjustables =
        n.changeCurrentAdjustable direction (s.setNTSC Preset.CUSTOM).ntscAdjustables ∧
      (s.changeCurrentNTSCAdjustable n direction).settings.tvFilter = Preset.CUSTOM ∧
      (s.changeCurrentNTSCAdjustable n direction).ntscPreset = Preset.CUSTOM ∧
      (s.changeCurrentNTSCAdjustable n direction).ntscEnabled = true ∧
      Filter.compositeBit (s.changeCurrentNTSCAdjustable n direction).myFilter = true) := by
  obtain ⟨h1, h2, h3, h4, -⟩ := setNTSC_custom s
  refine ⟨⟨h1, h4, h3⟩, ⟨rfl, h1, h4, h2, h3⟩, ⟨rfl, ?_, h4, h2, h3⟩, ⟨rfl, ?_, h4, h2, h3⟩⟩
  · show (n.saveConfig _ (s.setNTSC Preset.CUSTOM).settings).tvFilter = Preset.CUSTOM
    rw [hsave]
    exact h1
  · show (n.saveConfig _ (s.setNTSC Preset.CUSTOM).settings).tvFilter = Preset.CUSTOM
    rw [hsave]
    exact h1

/-- Witness of C22 on `rgbSample`, where the preset RGB is selected: after
`changeNTSCAdjustable(1, +5)` the persisted preset is Custom. -/
theorem adjustables_edit_custom_only_witness :
    rgbSample.settings.tvFilter = Preset.RGB ∧
    (rgbSample.changeNTSCAdjustable plainAdjustables 1 5).ntscAdjustables = [1, 55, 60] ∧
    (rgbSample.changeNTSCAdjustable plainAdjustables 1 5).settings.tvFilter = Preset.CUSTOM ∧
    (rgbSample.changeNTSCAdjustable plainAdjustables 1 5).ntscEnabled = true :=
  ⟨by decide, by decide,
   (adjustables_edit_custom_only plainAdjustables rgbSample (fun _ _ => rfl) 1 5).2.2.1.2.1,
   (adjustables_edit_custom_only plainAdjustables rgbSample (fun _ _ => rfl) 1 5).2.2.1.2.2.2.1⟩

/-! ## Filter `Normal` at any width -/

/-- Every pair visited by the row loops of a frame that the buffers hold is
inside the frame buffer, has a colour, and is inside the TIA surface. -/
theorem visits_in_bounds_any (s : TIASurface) (hfit : s.frameHolds) (bp : Nat × Nat)
    (hbp : bp ∈ visits (s.tiaWidth / 2) s.tiaPitch s.tiaHeight 0 0) :
    (colourAt s.myPalette s.tiaFrameBuffer bp.1).isSome = true ∧
    bp.2 < s.tiaPixels.length := by
  obtain ⟨hwp, hfr, hpal, hout⟩ := hfit
  rw [mem_visits] at hbp
  obtain ⟨r, k, hr, hk, rfl⟩ := hbp
  have he : 2 * (s.tiaWidth / 2) ≤ s.tiaWidth := by omega
  have h1 : 0 + r * (2 * (s.tiaWidth / 2)) + k < s.tiaWidth * s.tiaHeight := by
    have h := index_lt_of_row_col k r _ s.tiaHeight hk hr
    have h' : 2 * (s.tiaWidth / 2) * s.tiaHeight ≤ s.tiaWidth * s.tiaHeight :=
      Nat.mul_le_mul_right _ he
    omega
  have h2 : 0 + r * s.tiaPitch + k < s.tiaPixels.length := by
    have := index_lt_of_row_col k r s.tiaPitch s.tiaHeight (by omega) hr
    rw [Nat.mul_comm s.tiaPitch] at this
    omega
  refine ⟨?_, h2⟩
  have hlt : 0 + r * (2 * (s.tiaWidth / 2)) + k < s.tiaFrameBuffer.length := by omega
  show (colourAt s.myPalette s.tiaFrameBuffer (0 + r * (2 * (s.tiaWidth / 2)) + k)).isSome = true
  unfold colourAt
  rw [List.getElem?_eq_getElem hlt]
  simp only []
  have hb := hpal _ (List.getElem_mem hlt)
  rw [List.getElem?_eq_getElem hb]
  rfl

/-- The pixel production of filter `Normal` at any width: with
`e = 2 * (width / 2)`, the pixels of the columns `x < e` are written, row `y`
being read from offset `y * e`, and every other pixel is left as it was. -/
theorem producePixels_normal_any (c : Collaborators) (s : TIASurface)
    (hf : s.myFilter = Filter.Normal) (hfit : s.frameHolds) :
    ∃ out : List Nat, s.producePixels c = some { s with tiaPixels := out } ∧
      out.length = s.tiaPixels.length ∧
      (∀ x y, x < 2 * (s.tiaWidth / 2) → y < s.tiaHeight →
        (colourAt s.myPalette s.tiaFrameBuffer (y * (2 * (s.tiaWidth / 2)) + x)).isSome = true ∧
        out[y * s.tiaPitch + x]? =
          colourAt s.myPalette s.tiaFrameBuffer (y * (2 * (s.tiaWidth / 2)) + x)) ∧
      (∀ j, (∀ x y, x < 2 * (s.tiaWidth / 2) → y < s.tiaHeight → j ≠ y * s.tiaPitch + x) →
        out[j]? = s.tiaPixels[j]?) := by
  have hp : 2 * (s.tiaWidth / 2) ≤ s.tiaPitch := by
    have := hfit.1
    omega
  obtain ⟨out, h1, h2, h3, h4⟩ := iterPixels_store (normalPixel s.myPalette s.tiaFrameBuffer)
    (colourAt s.myPalette s.tiaFrameBuffer) (normalPixel_eq _ _)
    (visits (s.tiaWidth / 2) s.tiaPitch s.tiaHeight 0 0) (visits_sorted _ _ _ hp 0 0)
    s.tiaPixels (fun bp hbp => visits_in_bounds_any s hfit bp hbp)
  refine ⟨out, ?_, h2, ?_, ?_⟩
  · unfold TIASurface.producePixels
    rw [if_pos hf, scanRows_eq_iter, h1]
  · intro x y hx hy
    have hm : (y * (2 * (s.tiaWidth / 2)) + x, y * s.tiaPitch + x) ∈
        visits (s.tiaWidth / 2) s.tiaPitch s.tiaHeight 0 0 := by
      rw [mem_visits]
      exact ⟨y, x, hy, hx, by rw [Nat.zero_add, Nat.zero_add]⟩
    exact ⟨(visits_in_bounds_any s hfit _ hm).1, h3 _ hm⟩
  · intro j hj
    apply h4
    intro bp hbp
    rw [mem_visits] at hbp
    obtain ⟨r, k, hr, hk, rfl⟩ := hbp
    intro e
    apply hj k r hk hr
    rw [← e]
    show 0 + r * s.tiaPitch + k = r * s.tiaPitch + k
    rw [Nat.zero_add]

/-- The pixels that `renderForSnapshot` leaves in filter `Normal` at any width. -/
theorem renderForSnapshot_normal_any (c : Collaborators) (s : TIASurface)
    (hf : s.myFilter = Filter.Normal) (hfit : s.frameHolds) :
    ∃ s1 : TIASurface, s.renderForSnapshot c = some s1 ∧
      (∀ x y, x < 2 * (s.tiaWidth / 2) → y < s.tiaHeight →
        s1.tiaPixels[y * s.tiaPitch + x]? =
          colourAt s.myPalette s.tiaFrameBuffer (y * (2 * (s.tiaWidth / 2)) + x)) ∧
      (∀ j, (∀ x y, x < 2 * (s.tiaWidth / 2) → y < s.tiaHeight → j ≠ y * s.tiaPitch + x) →
        s1.tiaPixels[j]? = s.tiaPixels[j]?) := by
  obtain ⟨out, h1, -, h3, h4⟩ := producePixels_normal_any c
    ({ s with mySaveSnapFlag := false } : TIASurface) hf hfit
  have h2 := renderFrame_of_producePixels c _ _ false h1
  have h5 : TIASurface.snapshotPixels c ({ s with mySaveSnapFlag := false } : TIASurface) =
      some ((({ ({ s with mySaveSnapFlag := false } : TIASurface) with tiaPixels := out } :
        TIASurface)).drawSurfaces false) := by
    unfold TIASurface.snapshotPixels
    rw [if_pos (Or.inl hf)]
    exact h2
  refine ⟨_, by unfold TIASurface.renderForSnapshot; rw [h5], ?_, ?_⟩
  · intro x y hx hy
    rw [snapshotDraw_tiaPixels]
    exact (h3 x y hx hy).2
  · intro j hj
    rw [snapshotDraw_tiaPixels]
    exact h4 j hj

/-- The pixels that `render` leaves in filter `Normal` at any width, whether or
not a snapshot is pending. -/
theorem render_normal_any (c : Collaborators) (s : TIASurface) (shade : Bool)
    (hf : s.myFilter = Filter.Normal) (hfit : s.frameHolds) :
    ∃ s1 : TIASurface, s.render c shade = some s1 ∧
      (∀ x y, x < 2 * (s.tiaWidth / 2) → y < s.tiaHeight →
        (colourAt s.myPalette s.tiaFrameBuffer (y * (2 * (s.tiaWidth / 2)) + x)).isSome = true ∧
        s1.tiaPixels[y * s.tiaPitch + x]? =
          colourAt s.myPalette s.tiaFrameBuffer (y * (2 * (s.tiaWidth / 2)) + x)) ∧
      (∀ j, (∀ x y, x < 2 * (s.tiaWidth / 2) → y < s.tiaHeight → j ≠ y * s.tiaPitch + x) →
        s1.tiaPixels[j]? = s.tiaPixels[j]?) := by
  obtain ⟨out, h1, hlen, h3, h4⟩ := producePixels_normal_any c s hf hfit
  have h2 := renderFrame_of_producePixels c _ _ shade h1
  unfold TIASurface.render
  rw [h2]
  simp only []
  by_cases hflag : s.mySaveSnapFlag = true
  · have e : (({ s with tiaPixels := out } : TIASurface).drawSurfaces shade).mySaveSnapFlag
        = true := hflag
    rw [if_pos e]
    by_cases hpng : c.pngSupport = true
    · rw [if_pos hpng]
      have hfit2 : TIASurface.frameHolds
          { ({ (({ s with tiaPixels := out } : TIASurface).drawSurfaces shade) with
              mySaveSnapFlag := false } : TIASurface) with
            snapshots := (({ s with tiaPixels := out } : TIASurface).drawSurfaces
              shade).snapshots + 1 } := by
        refine ⟨hfit.1, hfit.2.1, hfit.2.2.1, ?_⟩
        show s.tiaHeight * s.tiaPitch ≤ out.length
        rw [hlen]
        exact hfit.2.2.2
      obtain ⟨s1, e1, e2, e3⟩ := renderForSnapshot_normal_any c
        { ({ (({ s with tiaPixels := out } : TIASurface).drawSurfaces shade) with
              mySaveSnapFlag := false } : TIASurface) with
            snapshots := (({ s with tiaPixels := out } : TIASurface).drawSurfaces
              shade).snapshots + 1 } hf hfit2
      refine ⟨s1, e1, fun x y hx hy => ⟨(h3 x y hx hy).1, e2 x y hx hy⟩, fun j hj => ?_⟩
      rw [e3 j hj]
      exact h4 j hj
    · rw [if_neg hpng]
      exact ⟨_, rfl, h3, h4⟩
  · have e : ¬ (({ s with tiaPixels := out } : TIASurface).drawSurfaces shade).mySaveSnapFlag
        = true := hflag
    rw [if_neg e]
    exact ⟨_, rfl, h3, h4⟩

/-- Counterexample to C23 as stated: on the frame of 3 x 2 pixels of
`threeByTwo` filter `Normal` leaves the last column unwritten and reads the
second row from offset 2, not 3: the output is `[100, 101, 0, 102, 103, 0]`,
whereas a 1:1 copy is `[100, 101, 102, 103, 104, 105]`. -/
theorem render_normal_odd_width :
    threeByTwo.myFilter = Filter.Normal ∧ threeByTwo.frameHolds ∧
    (threeByTwo.render plainCollaborators false).map (fun t => t.tiaPixels) =
      some [100, 101, 0, 102, 103, 0] ∧
    ¬ (∀ (c : Collaborators) (s : TIASurface) (shade : Bool),
      s.myFilter = Filter.Normal → s.frameHolds →
      ∃ s1 : TIASurface, s.render c shade = some s1 ∧
        ∀ x y, x < s.tiaWidth → y < s.tiaHeight →
          ∃ b col, s.tiaFrameBuffer[y * s.tiaWidth + x]? = some b ∧
            s.myPalette[b]? = some col ∧
            s1.tiaPixels[y * s.tiaPitch + x]? = some col) := by
  have hev : (threeByTwo.render plainCollaborators false).map (fun t => t.tiaPixels) =
      some [100, 101, 0, 102, 103, 0] := by decide
  refine ⟨by decide, by decide, hev, fun hall => ?_⟩
  obtain ⟨s1, h1, h2⟩ := hall plainCollaborators threeByTwo false (by decide) (by decide)
  rw [h1] at hev
  simp only [Option.map_some', Option.some.injEq] at hev
  obtain ⟨b, col, hb, hc, hp⟩ := h2 2 0 (by decide) (by decide)
  rw [hev] at hp
  have hb' : b = 2 := by
    have : threeByTwo.tiaFrameBuffer[0 * threeByTwo.tiaWidth + 2]? = some 2 := by decide
    rw [this] at hb
    exact (Option.some.inj hb).symm
  subst hb'
  have hc' : col = 102 := by
    have : threeByTwo.myPalette[2]? = some 102 := by decide
    rw [this] at hc
    exact (Option.some.inj hc).symm
  subst hc'
  revert hp
  decide

/-- C23, amended: filter `Normal` copies each scanline in pairs of pixels. For
every frame width `w` (even or odd), height `h`, pitch `>= w`, indexed frame of
at least `w * h` bytes that are palette indices, and TIA surface of `h * pitch`
pixels, `render` returns and, with `e = 2 * (w / 2)`, has written
`out[y * pitch + x] = palette[frame[y * e + x]]` for all `x < e` and `y < h`
and has left every other pixel as it was. For an even `w` this is the 1:1 copy
`out[y * pitch + x] = palette[frame[y * w + x]]` for all `x < w`; for an odd `w`
column `w - 1` of every row keeps its prior contents and row `y` is read from
frame offset `y * (w - 1)`. -/
theorem render_normal_copies_pairs (c : Collaborators) (s : TIASurface) (shade : Bool)
    (hf : s.myFilter = Filter.Normal) (hfit : s.frameHolds) :
    ∃ s1 : TIASurface, s.render c shade = some s1 ∧
      (∀ x y, x < 2 * (s.tiaWidth / 2) → y < s.tiaHeight →
        ∃ b col, s.tiaFrameBuffer[y * (2 * (s.tiaWidth / 2)) + x]? = some b ∧
          s.myPalette[b]? = some col ∧
          s1.tiaPixels[y * s.tiaPitch + x]? = some col) ∧
      (∀ j, (∀ x y, x < 2 * (s.tiaWidth / 2) → y < s.tiaHeight → j ≠ y * s.tiaPitch + x) →
        s1.tiaPixels[j]? = s.tiaPixels[j]?) ∧
      (s.tiaWidth % 2 = 0 → ∀ x y, x < s.tiaWidth → y < s.tiaHeight →
        ∃ b col, s.tiaFrameBuffer[y * s.tiaWidth + x]? = some b ∧
          s.myPalette[b]? = some col ∧
          s1.tiaPixels[y * s.tiaPitch + x]? = some col) ∧
      (s.tiaWidth % 2 = 1 → ∀ x y, x < s.tiaWidth - 1 → y < s.tiaHeight →
        ∃ b col, s.tiaFrameBuffer[y * (s.tiaWidth - 1) + x]? = some b ∧
          s.myPalette[b]? = some col ∧
          s1.tiaPixels[y * s.tiaPitch + x]? = some col) ∧
      (s.tiaWidth % 2 = 1 → ∀ y, y < s.tiaHeight →
        s1.tiaPixels[y * s.tiaPitch + (s.tiaWidth - 1)]? =
          s.tiaPixels[y * s.tiaPitch + (s.tiaWidth - 1)]?) := by
  obtain ⟨s1, h1, h2, h3⟩ := render_normal_any c s shade hf hfit
  have hpix : ∀ x y, x < 2 * (s.tiaWidth / 2) → y < s.tiaHeight →
      ∃ b col, s.tiaFrameBuffer[y * (2 * (s.tiaWidth / 2)) + x]? = some b ∧
        s.myPalette[b]? = some col ∧
        s1.tiaPixels[y * s.tiaPitch + x]? = some col := by
    intro x y hx hy
    obtain ⟨hsome, hp⟩ := h2 x y hx hy
    obtain ⟨col, hcol⟩ := Option.isSome_iff_exists.mp hsome
    obtain ⟨b, hb, hc⟩ := (colourAt_eq_some _ _ _ _).mp hcol
    exact ⟨b, col, hb, hc, by rw [hp, hcol]⟩
  refine ⟨s1, h1, hpix, h3, fun hev x y hx hy => ?_, fun hodd x y hx hy => ?_,
    fun hodd y hy => ?_⟩
  · have e : 2 * (s.tiaWidth / 2) = s.tiaWidth := two_mul_half _ hev
    have := hpix x y (by rw [e]; exact hx) hy
    rw [e] at this
    exact this
  · have e : 2 * (s.tiaWidth / 2) = s.tiaWidth - 1 := by omega
    have := hpix x y (by rw [e]; exact hx) hy
    rw [e] at this
    exact this
  · apply h3
    intro x y' hx hy' e
    have hw := hfit.1
    have hx' : x < s.tiaPitch := by omega
    have hlast : s.tiaWidth - 1 < s.tiaPitch := by omega
    have d1 : (y * s.tiaPitch + (s.tiaWidth - 1)) / s.tiaPitch = y := by
      rw [Nat.mul_comm, Nat.mul_add_div (by omega), Nat.div_eq_of_lt hlast, Nat.add_zero]
    have d2 : (y' * s.tiaPitch + x) / s.tiaPitch = y' := by
      rw [Nat.mul_comm, Nat.mul_add_div (by omega), Nat.div_eq_of_lt hx', Nat.add_zero]
    have hy_eq : y = y' := by rw [← d1, ← d2, e]
    subst hy_eq
    omega

/-- Witness of C23, amended, on the frame of 3 x 2 pixels of `threeByTwo`. -/
theorem render_normal_copies_pairs_witness :
    threeByTwo.myFilter = Filter.Normal ∧ threeByTwo.frameHolds ∧
    ∃ s1 : TIASurface, threeByTwo.render plainCollaborators false = some s1 ∧
      (∀ x y, x < 2 * (3 / 2) → y < 2 →
        ∃ b col, [0, 1, 2, 3, 4, 5][y * (2 * (3 / 2)) + x]? = some b ∧
          [100, 101, 102, 103, 104, 105][b]? = some col ∧
          s1.tiaPixels[y * 3 + x]? = some col) :=
  ⟨by decide, by decide,
   (render_normal_copies_pairs plainCollaborators threeByTwo false (by decide)
      (by decide)).imp (fun _ h => ⟨h.1, h.2.1⟩)⟩

/-! ## Filter `Normal` keeps no history -/

theorem producePixels_normal_eq (c : Collaborators) (s : TIASurface)
    (hf : s.myFilter = Filter.Normal) :
    s.producePixels c =
      (scanRows (normalPixel s.myPalette s.tiaFrameBuffer) s.tiaWidth s.tiaPitch
        s.tiaHeight 0 0 s.tiaPixels).map (fun out => { s with tiaPixels := out }) := by
  unfold TIASurface.producePixels
  rw [if_pos hf]
  cases scanRows (normalPixel s.myPalette s.tiaFrameBuffer) s.tiaWidth s.tiaPitch
    s.tiaHeight 0 0 s.tiaPixels <;> rfl

theorem renderFrame_normal_eq (c : Collaborators) (s : TIASurface) (shade : Bool)
    (hf : s.myFilter = Filter.Normal) :
    s.renderFrame c shade =
      (scanRows (normalPixel s.myPalette s.tiaFrameBuffer) s.tiaWidth s.tiaPitch
        s.tiaHeight 0 0 s.tiaPixels).map
        (fun out => ({ s with tiaPixels := out } : TIASurface).drawSurfaces shade) := by
  unfold TIASurface.renderFrame
  rw [producePixels_normal_eq c s hf]
  cases scanRows (normalPixel s.myPalette s.tiaFrameBuffer) s.tiaWidth s.tiaPitch
    s.tiaHeight 0 0 s.tiaPixels <;> rfl

/-- In filter `Normal` the part of `render` before the snapshot block neither
reads nor writes the accumulation buffer and the previous buffer. -/
theorem renderFrame_withHistory (c : Collaborators) (s : TIASurface) (shade : Bool)
    (hf : s.myFilter = Filter.Normal) (rgb prev : List Nat) :
    (s.withHistory rgb prev).renderFrame c shade =
      (s.renderFrame c shade).map (fun t => t.withHistory rgb prev) := by
  rw [renderFrame_normal_eq c s shade hf, renderFrame_normal_eq c (s.withHistory rgb prev) shade hf]
  show (scanRows (normalPixel s.myPalette s.tiaFrameBuffer) s.tiaWidth s.tiaPitch
        s.tiaHeight 0 0 s.tiaPixels).map _ = _
  cases scanRows (normalPixel s.myPalette s.tiaFrameBuffer) s.tiaWidth s.tiaPitch
    s.tiaHeight 0 0 s.tiaPixels <;> rfl

theorem renderFrame_normal_history (c : Collaborators) (s t : TIASurface) (shade : Bool)
    (hf : s.myFilter = Filter.Normal) (h : s.renderFrame c shade = some t) :
    t.myRGBFramebuffer = s.myRGBFramebuffer ∧
    t.myPrevRGBFramebuffer = s.myPrevRGBFramebuffer ∧ t.myFilter = Filter.Normal ∧
    t.mySaveSnapFlag = s.mySaveSnapFlag := by
  rw [renderFrame_normal_eq c s shade hf] at h
  cases hs : scanRows (normalPixel s.myPalette s.tiaFrameBuffer) s.tiaWidth s.tiaPitch
    s.tiaHeight 0 0 s.tiaPixels with
  | none => rw [hs] at h; cases h
  | some out =>
    rw [hs] at h
    simp only [Option.map_some', Option.some.injEq] at h
    subst h
    exact ⟨rfl, rfl, hf, rfl⟩

theorem snapshotDraw_withHistory (s : TIASurface) (rgb prev : List Nat) :
    (s.withHistory rgb prev).snapshotDraw = s.snapshotDraw.withHistory rgb prev := by
  unfold TIASurface.snapshotDraw
  show (if s.myPhosphorHandler.myUsePhosphor = true then _ else _) = _
  split <;> rfl

theorem renderForSnapshot_normal_eq (c : Collaborators) (s : TIASurface)
    (hf : s.myFilter = Filter.Normal) :
    s.renderForSnapshot c =
      (TIASurface.renderFrame c { s with mySaveSnapFlag := false } false).map
        (fun t => t.snapshotDraw) := by
  unfold TIASurface.renderForSnapshot TIASurface.snapshotPixels
  rw [if_pos (Or.inl hf)]
  cases TIASurface.renderFrame c { s with mySaveSnapFlag := false } false <;> rfl

theorem renderForSnapshot_withHistory (c : Collaborators) (s : TIASurface)
    (hf : s.myFilter = Filter.Normal) (rgb prev : List Nat) :
    (s.withHistory rgb prev).renderForSnapshot c =
      (s.renderForSnapshot c).map (fun t => t.withHistory rgb prev) := by
  rw [renderForSnapshot_normal_eq c s hf,
    renderForSnapshot_normal_eq c (s.withHistory rgb prev) hf]
  have h := renderFrame_withHistory c ({ s with mySaveSnapFlag := false } : TIASurface) false hf
    rgb prev
  have e : ({ s.withHistory rgb prev with mySaveSnapFlag := false } : TIASurface) =
      ({ s with mySaveSnapFlag := false } : TIASurface).withHistory rgb prev := rfl
  rw [e, h]
  cases TIASurface.renderFrame c { s with mySaveSnapFlag := false } false with
  | none => rfl
  | some t =>
    simp only [Option.map_some', Option.some.injEq]
    exact snapshotDraw_withHistory t rgb prev

theorem renderForSnapshot_normal_history (c : Collaborators) (s t : TIASurface)
    (hf : s.myFilter = Filter.Normal) (h : s.renderForSnapshot c = some t) :
    t.myRGBFramebuffer = s.myRGBFramebuffer ∧
    t.myPrevRGBFramebuffer = s.myPrevRGBFramebuffer := by
  rw [renderForSnapshot_normal_eq c s hf] at h
  cases hs : TIASurface.renderFrame c { s with mySaveSnapFlag := false } false with
  | none => rw [hs] at h; cases h
  | some u =>
    rw [hs] at h
    simp only [Option.map_some', Option.some.injEq] at h
    subst h
    obtain ⟨e1, e2, -, -⟩ := renderFrame_normal_history c
      ({ s with mySaveSnapFlag := false } : TIASurface) u false hf hs
    exact ⟨by rw [snapshotDraw_rgb, e1], by rw [snapshotDraw_prev, e2]⟩

/-- In filter `Normal` the function `render` neither reads nor writes the
accumulation buffer and the previous buffer. -/
theorem render_withHistory (c : Collaborators) (s : TIASurface) (shade : Bool)
    (hf : s.myFilter = Filter.Normal) (rgb prev : List Nat) :
    (s.withHistory rgb prev).render c shade =
      (s.render c shade).map (fun t => t.withHistory rgb prev) := by
  unfold TIASurface.render
  rw [renderFrame_withHistory c s shade hf rgb prev]
  cases hs : s.renderFrame c shade with
  | none => rfl
  | some s1 =>
    obtain ⟨-, -, hf1, -⟩ := renderFrame_normal_history c s s1 shade hf hs
    simp only [Option.map_some']
    show (if s1.mySaveSnapFlag = true then _ else _) = _
    by_cases hflag : s1.mySaveSnapFlag = true
    · rw [if_pos hflag, if_pos hflag]
      by_cases hpng : c.pngSupport = true
      · rw [if_pos hpng, if_pos hpng]
        unfold TIASurface.takeSnapshot
        exact renderForSnapshot_withHistory c
          ({ ({ s1 with mySaveSnapFlag := false } : TIASurface) with
            snapshots := s1.snapshots + 1 } : TIASurface) hf1 rgb prev
      · rw [if_neg hpng, if_neg hpng]
        rfl
    · rw [if_neg hflag, if_neg hflag]
      rfl

theorem render_normal_history (c : Collaborators) (s t : TIASurface) (shade : Bool)
    (hf : s.myFilter = Filter.Normal) (h : s.render c shade = some t) :
    t.myRGBFramebuffer = s.myRGBFramebuffer ∧
    t.myPrevRGBFramebuffer = s.myPrevRGBFramebuffer := by
  unfold TIASurface.render at h
  cases hs : s.renderFrame c shade with
  | none => rw [hs] at h; cases h
  | some s1 =>
    obtain ⟨e1, e2, hf1, -⟩ := renderFrame_normal_history c s s1 shade hf hs
    rw [hs] at h
    simp only [] at h
    by_cases hflag : s1.mySaveSnapFlag = true
    · rw [if_pos hflag] at h
      by_cases hpng : c.pngSupport = true
      · rw [if_pos hpng] at h
        unfold TIASurface.takeSnapshot at h
        obtain ⟨d1, d2⟩ := renderForSnapshot_normal_history c
          ({ ({ s1 with mySaveSnapFlag := false } : TIASurface) with
            snapshots := s1.snapshots + 1 } : TIASurface) t hf1 h
        exact ⟨d1.trans e1, d2.trans e2⟩
      · rw [if_neg hpng] at h
        simp only [Option.some.injEq] at h
        subst h
        exact ⟨e1, e2⟩
    · rw [if_neg hflag] at h
      simp only [Option.some.injEq] at h
      subst h
      exact ⟨e1, e2⟩

/-- C24: filter `Normal` keeps no history. For every frame, palette and prior
state, when `render` returns in filter `Normal` the accumulation buffer and the
previous buffer are as they were; a run on a state that differs only in those
two buffers returns exactly when the run on `s` does, in the same state up to
those buffers, so it writes the same output; and `render` does return when the
buffers hold the frame. -/
theorem render_normal_no_history (c : Collaborators) (s : TIASurface) (shade : Bool)
    (hf : s.myFilter = Filter.Normal) :
    (∀ t : TIASurface, s.render c shade = some t →
      t.myRGBFramebuffer = s.myRGBFramebuffer ∧
      t.myPrevRGBFramebuffer = s.myPrevRGBFramebuffer) ∧
    (∀ rgb prev : List Nat,
      (s.withHistory rgb prev).render c shade =
        (s.render c shade).map (fun t => t.withHistory rgb prev)) ∧
    (∀ rgb prev : List Nat,
      ((s.withHistory rgb prev).render c shade).map (fun t => t.tiaPixels) =
        (s.render c shade).map (fun t => t.tiaPixels)) ∧
    (s.frameHolds → ∃ t : TIASurface, s.render c shade = some t) := by
  refine ⟨fun t h => render_normal_history c s t shade hf h,
    fun rgb prev => render_withHistory c s shade hf rgb prev, fun rgb prev => ?_, fun hfit => ?_⟩
  · rw [render_withHistory c s shade hf rgb prev]
    cases s.render c shade <;> rfl
  · obtain ⟨t, h, -⟩ := render_normal_any c s shade hf hfit
    exact ⟨t, h⟩

/-- Witness of C24 on the 2 x 1 scenario with a snapshot pending: with stale
buffers `[1, 2]` and `[3, 4]` the output is `[0xFF0000, 0x00FF00]` and the
buffers are as before. -/
theorem render_normal_no_history_witness :
    ((pendingTwoByOne.withHistory [1, 2] [3, 4]).render plainCollaborators true).map
      (fun t => (t.tiaPixels, t.myRGBFramebuffer, t.myPrevRGBFramebuffer)) =
        some ([0xFF0000, 0x00FF00], [1, 2], [3, 4]) ∧
    ((pendingTwoByOne.withHistory [1, 2] [3, 4]).render plainCollaborators true).map
      (fun t => t.tiaPixels) =
    (pendingTwoByOne.render plainCollaborators true).map (fun t => t.tiaPixels) :=
  ⟨by decide,
   (render_normal_no_history plainCollaborators pendingTwoByOne true (by decide)).2.2.1
     [1, 2] [3, 4]⟩

/-! ## The base surface -/

theorem basePixel_eq (palette tiaIn : List Nat) (tiaw y x ptr : Nat) (buf : List Nat) :
    basePixel palette tiaIn tiaw y x ptr buf =
      match colourAt palette tiaIn ((y * tiaw) % 4294967296 + x / 2) with
      | none => none
      | some v => store buf ptr v := by
  unfold basePixel colourAt
  cases tiaIn[(y * tiaw) % 4294967296 + x / 2]? with
  | none => rfl
  | some byte => rfl

/-- The inner loop of `baseSurface`: `n` pixels are written from `buf_ptr` on,
one for each column from `x` on. -/
theorem baseRow_spec (palette tiaIn : List Nat) (tiaw y : Nat) (n : Nat) :
    ∀ (x ptr : Nat) (buf : List Nat),
      (∀ k, k < n →
        (colourAt palette tiaIn ((y * tiaw) % 4294967296 + (x + k) / 2)).isSome = true) →
      ptr + n ≤ buf.length →
      ∃ buf1, baseRow palette tiaIn tiaw y n x ptr buf = some (buf1, ptr + n) ∧
        buf1.length = buf.length ∧
        (∀ k, k < n → buf1[ptr + k]? =
          colourAt palette tiaIn ((y * tiaw) % 4294967296 + (x + k) / 2)) ∧
        (∀ j, j < ptr ∨ ptr + n ≤ j → buf1[j]? = buf[j]?) := by
  induction n with
  | zero =>
    intro x ptr buf _ _
    exact ⟨buf, rfl, rfl, fun k hk => absurd hk (Nat.not_lt_zero _), fun _ _ => rfl⟩
  | succ n ih =>
    intro x ptr buf hcol hlen
    have h0 := hcol 0 (Nat.succ_pos _)
    rw [Nat.add_zero] at h0
    obtain ⟨v, hv⟩ := Option.isSome_iff_exists.mp h0
    have hptr : ptr < buf.length := by omega
    have hstep : basePixel palette tiaIn tiaw y x ptr buf = some (buf.set ptr v) := by
      rw [basePixel_eq, hv]
      simp only [store, hptr, if_true]
    obtain ⟨buf1, e1, e2, e3, e4⟩ := ih (x + 1) (ptr + 1) (buf.set ptr v)
      (fun k hk => by
        have := hcol (k + 1) (Nat.succ_lt_succ hk)
        rw [show x + (k + 1) = x + 1 + k by omega] at this
        exact this)
      (by rw [List.length_set]; omega)
    refine ⟨buf1, ?_, ?_, ?_, ?_⟩
    · simp only [baseRow, hstep]
      rw [e1, show ptr + 1 + n = ptr + (n + 1) by omega]
    · rw [e2, List.length_set]
    · intro k hk
      cases k with
      | zero =>
        rw [Nat.add_zero, Nat.add_zero, e4 ptr (Or.inl (Nat.lt_succ_self _)),
          List.getElem?_set_self hptr, hv]
      | succ k =>
        have := e3 k (Nat.lt_of_succ_lt_succ hk)
        rw [show ptr + 1 + k = ptr + (k + 1) by omega,
          show x + 1 + k = x + (k + 1) by omega] at this
        exact this
    · intro j hj
      have hne : ptr ≠ j := by omega
      rw [e4 j (by omega), List.getElem?_set_ne hne]

/-- The outer loop of `baseSurface`: `n` rows of `width` pixels are written from
`buf_ptr` on, one for each row from `y` on. -/
theorem baseRows_spec (palette tiaIn : List Nat) (tiaw width : Nat) (n : Nat) :
    ∀ (y ptr : Nat) (buf : List Nat),
      (∀ r k, r < n → k < width →
        (colourAt palette tiaIn (((y + r) * tiaw) % 4294967296 + k / 2)).isSome = true) →
      ptr + n * width ≤ buf.length →
      ∃ buf1, baseRows palette tiaIn tiaw width n y ptr buf = some buf1 ∧
        buf1.length = buf.length ∧
        (∀ r k, r < n → k < width → buf1[ptr + r * width + k]? =
          colourAt palette tiaIn (((y + r) * tiaw) % 4294967296 + k / 2)) ∧
        (∀ j, j < ptr ∨ ptr + n * width ≤ j → buf1[j]? = buf[j]?) := by
  induction n with
  | zero =>
    intro y ptr buf _ _
    exact ⟨buf, rfl, rfl, fun r k hr => absurd hr (Nat.not_lt_zero _), fun _ _ => rfl⟩
  | succ n ih =>
    intro y ptr buf hcol hlen
    have hmul : (n + 1) * width = width + n * width := by
      rw [Nat.add_mul, Nat.one_mul, Nat.add_comm]
    rw [hmul] at hlen
    obtain ⟨buf0, d1, d2, d3, d4⟩ := baseRow_spec palette tiaIn tiaw y width 0 ptr buf
      (fun k hk => by
        have := hcol 0 k (Nat.succ_pos _) hk
        rw [Nat.add_zero] at this
        rw [Nat.zero_add]
        exact this)
      (by omega)
    obtain ⟨buf1, e1, e2, e3, e4⟩ := ih (y + 1) (ptr + width) buf0
      (fun r k hr hk => by
        have := hcol (r + 1) k (Nat.succ_lt_succ hr) hk
        rw [show y + (r + 1) = y + 1 + r by omega] at this
        exact this)
      (by rw [d2]; omega)
    refine ⟨buf1, ?_, ?_, ?_, ?_⟩
    · simp only [baseRows, d1]
      exact e1
    · rw [e2, d2]
    · intro r k hr hk
      cases r with
      | zero =>
        rw [Nat.zero_mul, Nat.add_zero, Nat.add_zero, e4 (ptr + k) (Or.inl (by omega))]
        have := d3 k hk
        rw [Nat.zero_add] at this
        exact this
      | succ r =>
        have := e3 r k (Nat.lt_of_succ_lt_succ hr) hk
        rw [show ptr + width + r * width + k = ptr + (r + 1) * width + k by
            rw [Nat.add_mul, Nat.one_mul]; omega,
          show y + 1 + r = y + (r + 1) by omega] at this
        exact this
    · intro j hj
      rw [hmul] at hj
      rw [e4 j (by omega), d4 j (by omega)]

/-- C29: `baseSurface` fills the base surface with the TIA frame scaled 2x
horizontally. For every TIA width `w` and height `h` with `2 * w` and
`2 * w * h` inside 32 bits, frame of at least `w * h` bytes that are palette
indices, and base surface of at least `2 * w * h` pixels, it returns, sets the
rectangle to `(0, 0, 2 * w, h)` and has written
`buffer[y * 2w + x] = palette[frame[y * w + x / 2]]` for all `x < 2 * w` and
`y < h`, so the pixels `2k` and `2k + 1` of every row are equal; the pixels
from `2 * w * h` on and the rest of the state are left as they were. -/
theorem baseSurface_scales_2x (s : TIASurface) (hfit : s.baseFits) :
    ∃ buf : List Nat,
      s.baseSurface = some (⟨0, 0, 2 * s.tiaWidth, s.tiaHeight⟩, { s with basePixels := buf }) ∧
      buf.length = s.basePixels.length ∧
      (∀ x y, x < 2 * s.tiaWidth → y < s.tiaHeight →
        ∃ b col, s.tiaFrameBuffer[y * s.tiaWidth + x / 2]? = some b ∧
          s.myPalette[b]? = some col ∧
          buf[y * (2 * s.tiaWidth) + x]? = some col) ∧
      (∀ k y, k < s.tiaWidth → y < s.tiaHeight →
        buf[y * (2 * s.tiaWidth) + 2 * k]? = buf[y * (2 * s.tiaWidth) + (2 * k + 1)]?) ∧
      (∀ j, 2 * s.tiaWidth * s.tiaHeight ≤ j → buf[j]? = s.basePixels[j]?) := by
  obtain ⟨hw, hwh, hfr, hpal, hbuf⟩ := hfit
  have hwidth : (s.tiaWidth * 2) % 4294967296 = 2 * s.tiaWidth := by
    rw [Nat.mul_comm]
    exact Nat.mod_eq_of_lt hw
  have hidx : ∀ x y, x < 2 * s.tiaWidth → y < s.tiaHeight →
      y * s.tiaWidth + x / 2 < s.tiaWidth * s.tiaHeight :=
    fun x y hx hy => index_lt_of_row_col (x / 2) y _ _ (by omega) hy
  have hrow : ∀ y, y < s.tiaHeight → (y * s.tiaWidth) % 4294967296 = y * s.tiaWidth := by
    intro y hy
    apply Nat.mod_eq_of_lt
    have h1 : y * s.tiaWidth ≤ s.tiaHeight * s.tiaWidth := Nat.mul_le_mul_right _ (le_of_lt hy)
    have h2 : s.tiaHeight * s.tiaWidth ≤ 2 * s.tiaWidth * s.tiaHeight := by
      rw [Nat.mul_comm s.tiaHeight, Nat.mul_assoc]
      exact Nat.le_mul_of_pos_left _ (by decide)
    omega
  have hcol : ∀ x y, x < 2 * s.tiaWidth → y < s.tiaHeight →
      ∃ b col, s.tiaFrameBuffer[y * s.tiaWidth + x / 2]? = some b ∧
        s.myPalette[b]? = some col ∧
        colourAt s.myPalette s.tiaFrameBuffer (y * s.tiaWidth + x / 2) = some col := by
    intro x y hx hy
    have hlt : y * s.tiaWidth + x / 2 < s.tiaFrameBuffer.length :=
      lt_of_lt_of_le (hidx x y hx hy) hfr
    have hb := hpal _ (List.getElem_mem hlt)
    refine ⟨_, _, List.getElem?_eq_getElem hlt, List.getElem?_eq_getElem hb, ?_⟩
    rw [colourAt_eq_some]
    exact ⟨_, List.getElem?_eq_getElem hlt, List.getElem?_eq_getElem hb⟩
  obtain ⟨buf, e1, e2, e3, e4⟩ := baseRows_spec s.myPalette s.tiaFrameBuffer s.tiaWidth
    (2 * s.tiaWidth) s.tiaHeight 0 0 s.basePixels
    (fun r k hr hk => by
      rw [Nat.zero_add, hrow r hr]
      obtain ⟨_, _, _, _, h⟩ := hcol k r hk hr
      rw [h]
      rfl)
    (by rw [Nat.zero_add, Nat.mul_comm]; exact hbuf)
  have hpix : ∀ x y, x < 2 * s.tiaWidth → y < s.tiaHeight →
      ∃ b col, s.tiaFrameBuffer[y * s.tiaWidth + x / 2]? = some b ∧
        s.myPalette[b]? = some col ∧
        buf[y * (2 * s.tiaWidth) + x]? = some col := by
    intro x y hx hy
    obtain ⟨b, col, hb, hc, h⟩ := hcol x y hx hy
    refine ⟨b, col, hb, hc, ?_⟩
    have := e3 y x hy hx
    rw [Nat.zero_add, Nat.zero_add, hrow y hy, h] at this
    exact this
  refine ⟨buf, ?_, e2, hpix, ?_, ?_⟩
  · unfold TIASurface.baseSurface
    simp only [hwidth, e1]
  · intro k y hk hy
    obtain ⟨b1, c1, hb1, hc1, h1⟩ := hpix (2 * k) y (by omega) hy
    obtain ⟨b2, c2, hb2, hc2, h2⟩ := hpix (2 * k + 1) y (by omega) hy
    rw [show (2 * k + 1) / 2 = k by omega] at hb2
    rw [show 2 * k / 2 = k by omega, hb2] at hb1
    cases Option.some.inj hb1
    rw [hc2] at hc1
    cases Option.some.inj hc1
    rw [h1, h2]
  · intro j hj
    apply e4
    right
    rw [Nat.zero_add, Nat.mul_comm]
    exact hj

/-- Witness of C29 on the 2 x 1 scenario: the base surface becomes
`[0xFF0000, 0xFF0000, 0x00FF00, 0x00FF00]` and the rectangle `(0, 0, 4, 1)`. -/
theorem baseSurface_scales_2x_witness :
    baseSample.baseFits ∧
    baseSample.baseSurface.map (fun r => (r.1, r.2.basePixels)) =
      some (⟨0, 0, 4, 1⟩, [0xFF0000, 0xFF0000, 0x00FF00, 0x00FF00]) ∧
    ∃ buf : List Nat,
      baseSample.baseSurface =
        some (⟨0, 0, 2 * baseSample.tiaWidth, baseSample.tiaHeight⟩,
          { baseSample with basePixels := buf }) ∧
      buf.length = baseSample.basePixels.length :=
  ⟨by decide, by decide,
   (baseSurface_scales_2x baseSample (by decide)).imp (fun _ h => ⟨h.1, h.2.1⟩)⟩

/-! ## The search loop of `Widget::setFocusForChain` -/

theorem clearFocus_flagEnabled (emitFocusEvents : Bool) (heap : Nat → Widget) (tmp a : Nat) :
    ((clearFocus emitFocusEvents heap tmp) a).flagEnabled = (heap a).flagEnabled := by
  unfold clearFocus
  split
  · by_cases h : a = tmp
    · subst h
      rw [Function.update_same]
      cases emitFocusEvents
      · rfl
      · simp only [if_true]
        unfold Widget.lostFocus
        split <;> rfl
    · rw [Function.update_noteq h]
  · rfl

/-- The first loop leaves the flag `FLAG_ENABLED` of every widget as it was. -/
theorem clearFocusLoop_flagEnabled (wid : Nat) (emitFocusEvents : Bool) (l : List Nat) :
    ∀ (i pos : Int) (heap : Nat → Widget) (a : Nat),
      ((clearFocusLoop wid emitFocusEvents l i pos heap).2 a).flagEnabled =
        (heap a).flagEnabled := by
  induction l with
  | nil => intro i pos heap a; rfl
  | cons tmp rest ih =>
    intro i pos heap a
    rw [clearFocusLoop, ih, clearFocus_flagEnabled]

/-- The first loop leaves `pos` as it was when `wid` is not met. -/
theorem clearFocusLoop_pos_of_not_mem (wid : Nat) (emitFocusEvents : Bool) (l : List Nat) :
    ∀ (i pos : Int) (heap : Nat → Widget), wid ∉ l →
      (clearFocusLoop wid emitFocusEvents l i pos heap).1 = pos := by
  induction l with
  | nil => intro i pos heap _; rfl
  | cons tmp rest ih =>
    intro i pos heap h
    have h1 : wid ≠ tmp := fun e => h (e ▸ List.mem_cons_self _ _)
    have h2 : wid ∉ rest := fun e => h (List.mem_cons_of_mem _ e)
    rw [clearFocusLoop, ih _ _ _ h2, if_neg h1]

/-- The first loop leaves in `pos` the last index at which `wid` occurs. -/
theorem clearFocusLoop_pos_of_last (wid : Nat) (emitFocusEvents : Bool) (l : List Nat) :
    ∀ (p : Nat) (i pos : Int) (heap : Nat → Widget), l[p]? = some wid →
      (∀ j, p < j → l[j]? ≠ some wid) →
      (clearFocusLoop wid emitFocusEvents l i pos heap).1 = i + (p : Int) := by
  induction l with
  | nil => intro p i pos heap h _; simp at h
  | cons tmp rest ih =>
    intro p i pos heap hp hlast
    cases p with
    | zero =>
      have htmp : wid = tmp := by
        simp only [List.getElem?_cons_zero, Option.some.injEq] at hp
        exact hp.symm
      have hrest : wid ∉ rest := by
        intro hmem
        obtain ⟨j, hj, hget⟩ := List.getElem_of_mem hmem
        apply hlast (j + 1) (Nat.succ_pos _)
        rw [List.getElem?_cons_succ, List.getElem?_eq_getElem hj, hget]
      rw [clearFocusLoop, clearFocusLoop_pos_of_not_mem _ _ _ _ _ _ hrest, if_pos htmp]
      simp
    | succ p =>
      rw [List.getElem?_cons_succ] at hp
      have hlast' : ∀ j, p < j → rest[j]? ≠ some wid := by
        intro j hj
        have := hlast (j + 1) (Nat.succ_lt_succ hj)
        rw [List.getElem?_cons_succ] at this
        exact this
      rw [clearFocusLoop, ih p _ _ _ hp hlast']
      push_cast
      omega

theorem add_mod_cases (p t n : Nat) (hp : p < n) (ht : t ≤ n) :
    (p + t) % n = if p + t < n then p + t else p + t - n := by
  split
  · next h => exact Nat.mod_eq_of_lt h
  · next h =>
    rw [Nat.mod_eq_sub_mod (by omega)]
    exact Nat.mod_eq_of_lt (by omega)

theorem wrapInt32_of_small (v : Int) (h0 : -2147483648 ≤ v) (h1 : v < 2147483648) :
    wrapInt32 v = v := by
  unfold wrapInt32 toInt32 toUInt32
  split <;> omega

/-- A step forward from a position inside the array, with wraparound. -/
theorem focusStep_forward (n x : Nat) (hn : n < 2147483648) (hx : x < n) :
    focusStep (n : Int) 1 (x : Int) = (((x + 1) % n : Nat) : Int) := by
  unfold focusStep
  rw [if_neg (by decide), if_pos rfl, wrapInt32_of_small _ (by omega) (by omega),
    add_mod_cases x 1 n hx (by omega)]
  split <;> split <;> omega

/-- A step backward from a position inside the array, with wraparound. -/
theorem focusStep_backward (n x : Nat) (hn : n < 2147483648) (hx : x < n) :
    focusStep (n : Int) (-1) (x : Int) = (((x + (n - 1)) % n : Nat) : Int) := by
  unfold focusStep
  rw [if_pos rfl, wrapInt32_of_small _ (by omega) (by omega),
    wrapInt32_of_small _ (by omega) (by omega), add_mod_cases x (n - 1) n hx (by omega)]
  split <;> split <;> omega

theorem focusStep_other (size direction pos : Int) (h1 : direction ≠ 1) (h2 : direction ≠ -1) :
    focusStep size direction pos = pos := by
  unfold focusStep
  rw [if_neg h2, if_neg h1]

theorem indexInt_natCast {α : Type} (xs : List α) (x : Nat) :
    indexInt xs (x : Int) = xs[x]? := by
  unfold indexInt
  rw [if_pos (Int.natCast_nonneg x), Int.toNat_ofNat]

/-- The search loop along a walk `g` through the array that comes back to its
start `g 0` after `arr.length` steps and not before: entered after `m` steps
with at least `arr.length - m` rounds left, it stops after `k` more rounds, at
the first enabled widget of the walk or back at the start. -/
theorem focusSearch_walk (heap : Nat → Widget) (arr : List Nat) (direction : Int)
    (g : Nat → Nat)
    (hstep : ∀ m, m < arr.length →
      focusStep (arr.length : Int) direction ((g m : Nat) : Int) = ((g (m + 1) : Nat) : Int))
    (hne : ∀ m, 0 < m → m < arr.length → g m ≠ g 0)
    (hn : g arr.length = g 0)
    (hlt : ∀ m, g m < arr.length) :
    ∀ (d m : Nat), m + d = arr.length → 1 ≤ d → ∀ fuel, d ≤ fuel →
      ∃ k, focusSearch heap arr (arr.length : Int) direction ((g 0 : Nat) : Int) fuel
          ((g m : Nat) : Int) = some (((g (m + k) : Nat) : Int), k) ∧
        1 ≤ k ∧ m + k ≤ arr.length ∧
        (∀ j w, m + 1 ≤ j → j < m + k → arr[g j]? = some w →
          (heap w).flagEnabled = false) ∧
        (m + k < arr.length → ∃ w, arr[g (m + k)]? = some w ∧ (heap w).flagEnabled = true) := by
  intro d
  induction d with
  | zero => intro m _ h1; exact absurd h1 (by decide)
  | succ d ih =>
    intro m hm _ fuel hfuel
    obtain ⟨f, rfl⟩ : ∃ f, fuel = f + 1 := ⟨fuel - 1, by omega⟩
    have hmlt : m < arr.length := by omega
    rw [focusSearch, hstep m hmlt]
    by_cases hd : d = 0
    · have hback : g (m + 1) = g 0 := by
        rw [show m + 1 = arr.length by omega]
        exact hn
      rw [if_pos (by rw [hback])]
      refine ⟨1, rfl, le_refl _, by omega, fun j w h1 h2 => ?_, fun h => ?_⟩
      · omega
      · omega
    · have hne1 : ¬ ((g 0 : Nat) : Int) = ((g (m + 1) : Nat) : Int) := by
        intro e
        exact hne (m + 1) (Nat.succ_pos _) (by omega) (Int.ofNat_inj.mp e).symm
      have hb : g (m + 1) < arr.length := hlt (m + 1)
      rw [if_neg hne1, indexInt_natCast, List.getElem?_eq_getElem hb]
      simp only []
      cases hen : (heap arr[g (m + 1)]).flagEnabled
      · simp only [Bool.not_false, if_true]
        obtain ⟨k, e1, e2, e3, e4, e5⟩ := ih (m + 1) (by omega) (by omega) f (by omega)
        rw [e1]
        refine ⟨k + 1, ?_, by omega, by omega, fun j w h1 h2 hw => ?_, fun h => ?_⟩
        · simp only [Option.map_some', show m + (k + 1) = m + 1 + k by omega]
        · by_cases hj : j = m + 1
          · subst hj
            rw [List.getElem?_eq_getElem (hlt (m + 1)), Option.some.injEq] at hw
            rw [← hw]
            exact hen
          · exact e4 j w (by omega) (by omega) hw
        · rw [show m + (k + 1) = m + 1 + k by omega]
          exact e5 (by omega)
      · simp only [Bool.not_true, Bool.false_eq_true, if_false]
        refine ⟨1, rfl, le_refl _, by omega, fun j w h1 h2 => ?_, fun _ => ?_⟩
        · omega
        · exact ⟨_, List.getElem?_eq_getElem (hlt (m + 1)), hen⟩

/-- The search going forward from `p`, run on widgets `heap`. -/
theorem focusSearch_forward (heap : Nat → Widget) (arr : List Nat) (p fuel : Nat)
    (hlen : arr.length < 2147483648) (hp : p < arr.length) (hfuel : arr.length ≤ fuel) :
    ∃ k, focusSearch heap arr (arr.length : Int) 1 (p : Int) fuel (p : Int) =
        some ((((p + k) % arr.length : Nat) : Int), k) ∧
      firstEnabledForward heap arr p ((p + k) % arr.length) k := by
  have hpos : 0 < arr.length := by omega
  have h := focusSearch_walk heap arr 1 (fun m => (p + m) % arr.length)
    (fun m _ => by
      show focusStep _ 1 (((p + m) % arr.length : Nat) : Int) = _
      rw [focusStep_forward _ _ hlen (Nat.mod_lt _ hpos), Nat.mod_add_mod]
      rfl)
    (fun m h0 hm => by
      show (p + m) % arr.length ≠ (p + 0) % arr.length
      rw [add_mod_cases p m _ hp (by omega), Nat.add_zero, Nat.mod_eq_of_lt hp]
      split <;> omega)
    (by
      show (p + arr.length) % arr.length = (p + 0) % arr.length
      rw [Nat.add_mod_right, Nat.add_zero])
    (fun m => Nat.mod_lt _ hpos)
    arr.length 0 (Nat.zero_add _) hpos fuel hfuel
  obtain ⟨k, e1, e2, e3, e4, e5⟩ := h
  have hg0 : (p + 0) % arr.length = p := by rw [Nat.add_zero, Nat.mod_eq_of_lt hp]
  simp only [hg0, Nat.zero_add] at e1 e3 e4 e5
  exact ⟨k, e1, e2, e3, rfl, fun j w h1 h2 hw => e4 j w h1 h2 hw, e5⟩

/-- The search going backward from `p`, run on widgets `heap`. -/
theorem focusSearch_backward (heap : Nat → Widget) (arr : List Nat) (p fuel : Nat)
    (hlen : arr.length < 2147483648) (hp : p < arr.length) (hfuel : arr.length ≤ fuel) :
    ∃ k, focusSearch heap arr (arr.length : Int) (-1) (p : Int) fuel (p : Int) =
        some ((((p + (arr.length - k)) % arr.length : Nat) : Int), k) ∧
      firstEnabledBackward heap arr p ((p + (arr.length - k)) % arr.length) k := by
  have hpos : 0 < arr.length := by omega
  have h := focusSearch_walk heap arr (-1) (fun m => (p + (arr.length - m)) % arr.length)
    (fun m hm => by
      show focusStep _ (-1) (((p + (arr.length - m)) % arr.length : Nat) : Int) =
        (((p + (arr.length - (m + 1))) % arr.length : Nat) : Int)
      rw [focusStep_backward _ _ hlen (Nat.mod_lt _ hpos), Nat.mod_add_mod,
        show p + (arr.length - m) + (arr.length - 1) =
          p + (arr.length - (m + 1)) + arr.length by omega, Nat.add_mod_right])
    (fun m h0 hm => by
      show (p + (arr.length - m)) % arr.length ≠ (p + (arr.length - 0)) % arr.length
      rw [add_mod_cases p (arr.length - m) _ hp (by omega), Nat.sub_zero, Nat.add_mod_right,
        Nat.mod_eq_of_lt hp]
      split <;> omega)
    (by
      show (p + (arr.length - arr.length)) % arr.length = (p + (arr.length - 0)) % arr.length
      rw [Nat.sub_self, Nat.sub_zero, Nat.add_mod_right, Nat.add_zero])
    (fun m => Nat.mod_lt _ hpos)
    arr.length 0 (Nat.zero_add _) hpos fuel hfuel
  obtain ⟨k, e1, e2, e3, e4, e5⟩ := h
  have hg0 : (p + (arr.length - 0)) % arr.length = p := by
    rw [Nat.sub_zero, Nat.add_mod_right, Nat.mod_eq_of_lt hp]
  simp only [hg0, Nat.zero_add] at e1 e3 e4 e5
  exact ⟨k, e1, e2, e3, rfl, fun j w h1 h2 hw => e4 j w h1 h2 hw, e5⟩

theorem toInt32_of_lt (n : Nat) (h : n < 2147483648) : toInt32 n = (n : Int) := by
  unfold toInt32
  rw [Nat.mod_eq_of_lt (by omega), if_pos h]

/-- The function past its first loop, when `wid` occurs in the array, `p` being
the last index at which it does: the search is entered at `p` on the widgets
the first loop leaves. -/
theorem setFocusForChain_found (heap : Nat → Widget) (arr : List Nat) (wid : Nat)
    (direction : Int) (emitFocusEvents : Bool) (fuel p : Nat)
    (hlen : arr.length < 2147483648) (hp : arr[p]? = some wid)
    (hlast : ∀ j, p < j → arr[j]? ≠ some wid) (q k w : Nat)
    (hsearch : focusSearch (clearFocusLoop wid emitFocusEvents arr 0 (-1) heap).2 arr
      (arr.length : Int) direction (p : Int) fuel (p : Int) = some ((q : Int), k))
    (hw : arr[q]? = some w) :
    ∃ heap1, setFocusForChain heap arr wid direction emitFocusEvents fuel =
      some (some w, heap1) := by
  have hpos := clearFocusLoop_pos_of_last wid emitFocusEvents arr p 0 (-1) heap hp hlast
  rw [Int.zero_add] at hpos
  unfold setFocusForChain
  simp only [toInt32_of_lt _ hlen, Int.toNat_ofNat, List.take_length, hpos]
  rw [if_neg (by omega), hsearch]
  simp only [indexInt_natCast, hw]
  exact ⟨_, rfl⟩

/-- Counterexample to C30 as stated: in the array `[7, 8, 7, 9]` of enabled
widgets the widget 7 is at index 0; the first enabled widget met going forward
from index 0 is 8, but the first loop leaves `pos` at the last index of 7,
index 2, and the function returns the widget 9. -/
theorem setFocusForChain_duplicate :
    [7, 8, 7, 9][0]? = some 7 ∧
    (setFocusForChain allEnabled [7, 8, 7, 9] 7 1 false 4).map Prod.fst = some (some 9) ∧
    (∀ q k, firstEnabledForward allEnabled [7, 8, 7, 9] 0 q k → [7, 8, 7, 9][q]? = some 8) ∧
    ¬ (∀ (heap : Nat → Widget) (arr : List Nat) (wid p : Nat), arr[p]? = some wid →
        ∃ q k w, firstEnabledForward heap arr p q k ∧ arr[q]? = some w ∧
          (setFocusForChain heap arr wid 1 false arr.length).map Prod.fst = some (some w)) := by
  have hev : (setFocusForChain allEnabled [7, 8, 7, 9] 7 1 false 4).map Prod.fst =
      some (some 9) := by decide
  have hfirst : ∀ q k, firstEnabledForward allEnabled [7, 8, 7, 9] 0 q k →
      [7, 8, 7, 9][q]? = some 8 := by
    intro q k h
    obtain ⟨h1, -, h3, h4, -⟩ := h
    have hk : k = 1 := by
      by_contra hne
      have := h4 1 8 (le_refl _) (by omega) (by decide)
      revert this
      decide
    subst hk
    rw [h3]
    decide
  refine ⟨rfl, hev, hfirst, fun hall => ?_⟩
  obtain ⟨q, k, w, h1, h2, h3⟩ := hall allEnabled [7, 8, 7, 9] 7 0 rfl
  rw [hfirst q k h1] at h2
  cases Option.some.inj h2
  have h4 : (setFocusForChain allEnabled [7, 8, 7, 9] 7 1 false 4).map Prod.fst =
      some (some 8) := h3
  rw [hev] at h4
  revert h4
  decide

/-- C30, amended: for every widget array of fewer than `2^31` entries that
contains `wid`, with `p` the last index at which `wid` occurs (the index the
first loop leaves in `pos`), and every direction, the search loop of
`setFocusForChain` ends within `size` rounds (any allowance of at least `size`
rounds gives the result) after `k <= size` rounds at an index `q`, and the
function returns the widget `arr[q]`: for direction `+1` (respectively `-1`) `q`
is the index of the first enabled widget met going forward (respectively
backward) from `p` with wraparound, or `p` itself, after `size` rounds, when no
other widget is enabled; for any other direction `q = p` after one round and
`wid` is returned. When `wid` is not in the array the function returns null. -/
theorem setFocusForChain_search (heap : Nat → Widget) (arr : List Nat) (wid : Nat)
    (direction : Int) (emitFocusEvents : Bool) (fuel : Nat)
    (hlen : arr.length < 2147483648) (hfuel : arr.length ≤ fuel) :
    (∀ p : Nat, arr[p]? = some wid → (∀ j, p < j → arr[j]? ≠ some wid) →
      ∃ (q k w : Nat) (heap1 : Nat → Widget),
        focusSearch (clearFocusLoop wid emitFocusEvents arr 0 (-1) heap).2 arr
          (arr.length : Int) direction (p : Int) fuel (p : Int) = some ((q : Int), k) ∧
        1 ≤ k ∧ k ≤ arr.length ∧ arr[q]? = some w ∧
        setFocusForChain heap arr wid direction emitFocusEvents fuel = some (some w, heap1) ∧
        (direction = 1 → firstEnabledForward heap arr p q k) ∧
        (direction = -1 → firstEnabledBackward heap arr p q k) ∧
        (direction ≠ 1 → direction ≠ -1 → q = p ∧ k = 1 ∧ w = wid)) ∧
    (wid ∉ arr →
      ∃ heap1, setFocusForChain heap arr wid direction emitFocusEvents fuel =
        some (none, heap1)) := by
  constructor
  · intro p hp hlast
    have hplt : p < arr.length := by
      by_contra hc
      rw [List.getElem?_eq_none (by omega)] at hp
      cases hp
    have hpos : 0 < arr.length := by omega
    have hflags : ∀ a, ((clearFocusLoop wid emitFocusEvents arr 0 (-1) heap).2 a).flagEnabled =
        (heap a).flagEnabled := clearFocusLoop_flagEnabled wid emitFocusEvents arr 0 (-1) heap
    by_cases h1 : direction = 1
    · subst h1
      obtain ⟨k, e1, e2, e3, e4, e5, e6⟩ := focusSearch_forward
        (clearFocusLoop wid emitFocusEvents arr 0 (-1) heap).2 arr p fuel hlen hplt hfuel
      have hq : (p + k) % arr.length < arr.length := Nat.mod_lt _ hpos
      obtain ⟨heap1, hret⟩ := setFocusForChain_found heap arr wid 1 emitFocusEvents fuel p hlen
        hp hlast _ k _ e1 (List.getElem?_eq_getElem hq)
      refine ⟨_, k, _, heap1, e1, e2, e3, List.getElem?_eq_getElem hq, hret, fun _ => ?_,
        fun h => absurd h (by decide), fun h => absurd rfl h⟩
      refine ⟨e2, e3, e4, fun j w h1 h2 hw => ?_, fun h => ?_⟩
      · rw [← hflags]
        exact e5 j w h1 h2 hw
      · obtain ⟨w, hw, hen⟩ := e6 h
        exact ⟨w, hw, by rw [← hflags]; exact hen⟩
    · by_cases h2 : direction = -1
      · subst h2
        obtain ⟨k, e1, e2, e3, e4, e5, e6⟩ := focusSearch_backward
          (clearFocusLoop wid emitFocusEvents arr 0 (-1) heap).2 arr p fuel hlen hplt hfuel
        have hq : (p + (arr.length - k)) % arr.length < arr.length := Nat.mod_lt _ hpos
        obtain ⟨heap1, hret⟩ := setFocusForChain_found heap arr wid (-1) emitFocusEvents fuel p
          hlen hp hlast _ k _ e1 (List.getElem?_eq_getElem hq)
        refine ⟨_, k, _, heap1, e1, e2, e3, List.getElem?_eq_getElem hq, hret,
          fun h => absurd h (by decide), fun _ => ?_, fun _ h => absurd rfl h⟩
        refine ⟨e2, e3, e4, fun j w h1 h2 hw => ?_, fun h => ?_⟩
        · rw [← hflags]
          exact e5 j w h1 h2 hw
        · obtain ⟨w, hw, hen⟩ := e6 h
          exact ⟨w, hw, by rw [← hflags]; exact hen⟩
      · obtain ⟨f, hf⟩ : ∃ f, fuel = f + 1 := ⟨fuel - 1, by omega⟩
        have e1 : focusSearch (clearFocusLoop wid emitFocusEvents arr 0 (-1) heap).2 arr
            (arr.length : Int) direction (p : Int) fuel (p : Int) = some ((p : Int), 1) := by
          rw [hf, focusSearch, focusStep_other _ _ _ h1 h2, if_pos rfl]
        obtain ⟨heap1, hret⟩ := setFocusForChain_found heap arr wid direction emitFocusEvents
          fuel p hlen hp hlast p 1 wid e1 hp
        exact ⟨p, 1, wid, heap1, e1, le_refl _, hpos, hp, hret, fun h => absurd h h1,
          fun h => absurd h h2, fun _ _ => ⟨rfl, rfl, rfl⟩⟩
  · intro hmem
    have hpos := clearFocusLoop_pos_of_not_mem wid emitFocusEvents arr 0 (-1) heap hmem
    unfold setFocusForChain
    simp only [toInt32_of_lt _ hlen, Int.toNat_ofNat, List.take_length, hpos, if_true]
    exact ⟨_, rfl⟩

/-- Witness of C30, amended, on the array `[7, 8, 6, 9]` with the widgets `7` and
`9` enabled, going backward from `wid = 7` at index 0: the widget 9 at index 3 is
returned after one round. -/
theorem setFocusForChain_search_witness :
    (setFocusForChain someEnabled [7, 8, 6, 9] 7 (-1) true 4).map Prod.fst = some (some 9) ∧
    ∃ (q k w : Nat) (heap1 : Nat → Widget),
      focusSearch (clearFocusLoop 7 true [7, 8, 6, 9] 0 (-1) someEnabled).2 [7, 8, 6, 9]
        (([7, 8, 6, 9] : List Nat).length : Int) (-1) ((0 : Nat) : Int) 4 ((0 : Nat) : Int) =
          some ((q : Int), k) ∧
      1 ≤ k ∧ k ≤ ([7, 8, 6, 9] : List Nat).length ∧ [7, 8, 6, 9][q]? = some w ∧
      setFocusForChain someEnabled [7, 8, 6, 9] 7 (-1) true 4 = some (some w, heap1) ∧
      (((-1 : Int) = 1) → firstEnabledForward someEnabled [7, 8, 6, 9] 0 q k) ∧
      (((-1 : Int) = -1) → firstEnabledBackward someEnabled [7, 8, 6, 9] 0 q k) ∧
      ((-1 : Int) ≠ 1 → (-1 : Int) ≠ -1 → q = 0 ∧ k = 1 ∧ w = 7) :=
  ⟨by decide,
   (setFocusForChain_search someEnabled [7, 8, 6, 9] 7 (-1) true 4 (by decide) (by decide)).1 0
     (by decide) (fun j hj => by
       have h4 : j < 4 ∨ 4 ≤ j := Nat.lt_or_ge j 4
       rcases h4 with h | h
       · interval_cases j <;> decide
       · rw [List.getElem?_eq_none (by simpa using h)]
         exact fun e => by cases e)⟩

end Stella
